import Mathlib

/-!
# bosh-bootloader: state store, GCP generators, BOSH executor, cloud config

A shallow embedding of `storage/store.go`, `storage/state.go`,
`cloudconfig/gcp/ops_generator.go` and `terraform/gcp/input_generator.go`,
and models of the BOSH executor and the cloud-config manager, of which the
sources hold the tests only, with the properties the specification states
about them.

Conventions of the embedding:

* a Go `error` is a `GoError` (message and `os.IsNotExist` flag); a function
  returning `error` returns `Option GoError`, `none` being `nil`;
* the operating system is a value `FS` passed through the functions that use
  it; functions that the Go code reaches through package-level variables or
  interfaces (`marshalIndent`, `uuidNewV4`, the JSON decoder, the Terraform
  manager) are parameters;
* of the Go library, `filepath.Join` and, for the types of `State`,
  `json.MarshalIndent` and the decoder of `encoding/json` are also given as
  functions, with which the store is run as the program sets it up.
-/

namespace Storage

/-! ## Errors -/

/-- A Go `error`: the text `Error()` returns and whether `os.IsNotExist`
reports true for it. -/
structure GoError where
  msg : String
  notExist : Bool
deriving DecidableEq, Repr

/-- The value `errors.New(text)` builds. -/
def errorsNew (text : String) : GoError := ⟨text, false⟩

/-- The value `fmt.Errorf(format ++ "%s", err)` builds: the cause is rendered
into the message and the result is a fresh error value. -/
def fmtErrorf (format : String) (err : GoError) : GoError := ⟨format ++ err.msg, false⟩

/-! ## The file system -/

/-- The result of `filepath.Join(dir, base)`: a file addressed by the
directory that holds it and its name. -/
structure Path where
  dir : String
  base : String
deriving DecidableEq, Repr

/-- The elements of a path: the runs of characters between its slashes. -/
def pathElements : List Char → List (List Char)
  | [] => [[]]
  | c :: cs =>
    if c = '/' then [] :: pathElements cs
    else
      match pathElements cs with
      | e :: es => (c :: e) :: es
      | [] => [[c]]

/-- The elements `filepath.Clean` keeps, given those it has kept so far, the
last one first: an empty element and `.` are dropped, `..` takes away the
element before it when that is a name, is dropped at the root, and is kept
otherwise. -/
def cleanElements (rooted : Bool) : List (List Char) → List (List Char) → List (List Char)
  | [], out => out.reverse
  | e :: es, out =>
    if e = [] ∨ e = ['.'] then cleanElements rooted es out
    else if e = ['.', '.'] then
      match out with
      | top :: below =>
        if top = ['.', '.'] then cleanElements rooted es (e :: out)
        else cleanElements rooted es below
      | [] => if rooted then cleanElements rooted es [] else cleanElements rooted es [e]
    else cleanElements rooted es (e :: out)

/-- Elements joined by slashes. -/
def joinElements : List (List Char) → List Char
  | [] => []
  | [e] => e
  | e :: es => e ++ '/' :: joinElements es

/-- The characters of the clean form of a path. -/
def cleanChars (cs : List Char) : List Char :=
  if cs = [] then ['.']
  else
    let rooted := decide (cs.head? = some '/')
    let out := cleanElements rooted (pathElements cs) []
    let text := (if rooted then ['/'] else []) ++ joinElements out
    if text = [] then ['.'] else text

/-- The function `filepath.Clean` of the Go library, for paths with slashes:
the shortest path that names the same file, which is `.` for the empty
path. -/
def filepathClean (path : String) : String := String.mk (cleanChars path.data)

/-- The text of a path: the string `filepath.Join(dir, base)` returns, which
is the clean form of the elements from the first non-empty one on, joined by
a slash, and the empty string when both are empty. -/
def Path.toString (p : Path) : String :=
  if p.dir ≠ "" then filepathClean (p.dir ++ "/" ++ p.base)
  else if p.base ≠ "" then filepathClean p.base
  else ""

/-- The join of a directory and a file name, as `filepath.Join` makes it. -/
def filepathJoin (dir base : String) : Path := ⟨dir, base⟩

/-- A plain name: not empty, without a slash, and neither `.` nor `..`. -/
abbrev PlainName (e : String) : Prop :=
  e ≠ "" ∧ '/' ∉ e.data ∧ e ≠ "." ∧ e ≠ ".."

/-- The path made of the names given, from the root or not. -/
def plainPath (rooted : Bool) (names : List String) : String :=
  String.mk ((if rooted then ['/'] else []) ++ joinElements (names.map String.data))

/-- The part of the operating system the store touches: which directories
exist and what each regular file holds. Reading and writing fail only because
a path is missing. -/
structure FS where
  dirs : String → Bool
  files : String → String → Option String

/-- The error the operating system reports for a missing path. -/
def enoent (op path : String) : GoError :=
  ⟨op ++ " " ++ path ++ ": no such file or directory", true⟩

/-- The error of `os.Stat` on a directory path, `none` when it exists. -/
def osStat (fs : FS) (dir : String) : Option GoError :=
  if fs.dirs dir then none else some (enoent "stat" dir)

/-- The file system with the file at `p` holding `data`. -/
def FS.put (fs : FS) (p : Path) (data : String) : FS :=
  { fs with files := fun d b => if d = p.dir ∧ b = p.base then some data else fs.files d b }

/-- The file system without the file at `p`. -/
def FS.erase (fs : FS) (p : Path) : FS :=
  { fs with files := fun d b => if d = p.dir ∧ b = p.base then none else fs.files d b }

/-- What is stored at `p`, when its directory exists and holds such a file. -/
def FS.read (fs : FS) (p : Path) : Option String :=
  if fs.dirs p.dir then fs.files p.dir p.base else none

/-- The effect of `os.Remove`. The operating system may refuse the removal of
an entry for a reason other than its absence, such as a directory that may not
be written or a non-empty directory in the place of the file: `denied` gives,
for a directory and a name, the text of the error of such a refusal. A refused
removal changes nothing and returns an error for which `os.IsNotExist` is
false; otherwise the file is removed, and its absence is an error for which
`os.IsNotExist` is true. -/
def osRemove (denied : String → String → Option String) (fs : FS) (p : Path) :
    FS × Option GoError :=
  match denied p.dir p.base with
  | some text => (fs, some ⟨text, false⟩)
  | none =>
    match fs.read p with
    | some _ => (fs.erase p, none)
    | none => (fs, some (enoent "remove" p.toString))

/-- The effect of `ioutil.WriteFile`: the whole file is replaced. -/
def ioutilWriteFile (fs : FS) (p : Path) (data : String) : FS × Option GoError :=
  if fs.dirs p.dir then (fs.put p data, none) else (fs, some (enoent "open" p.toString))

/-- The result of `os.Open` followed by reading the whole file. -/
def osOpen (fs : FS) (p : Path) : Except GoError String :=
  match fs.read p with
  | some data => .ok data
  | none => .error (enoent "open" p.toString)

/-! ## The state -/

/-- Modelled from the spec: the declaration of `storage.AWS` is not among the
sources; the fields are the ones the sources use. -/
structure AWS where
  AccessKeyID : String
  SecretAccessKey : String
  Region : String
deriving DecidableEq, Repr

/-- Modelled from the spec: the declaration of `storage.Azure` is not among
the sources; the fields are the ones the sources use. -/
structure Azure where
  ClientID : String
  ClientSecret : String
  SubscriptionID : String
  TenantID : String
deriving DecidableEq, Repr

/-- Modelled from the spec: the declaration of `storage.GCP` is not among the
sources; the fields are the ones the sources use. `Zones` is a Go slice:
`none` is the nil slice, which `reflect.DeepEqual` tells from an empty one. -/
structure GCP where
  ServiceAccountKey : String
  ProjectID : String
  Zone : String
  Region : String
  Zones : Option (List String)
deriving DecidableEq, Repr

/-- Modelled from the spec: the declaration of `storage.Jumpbox` is not among
the sources; the spec lists connection info and state blobs. -/
structure Jumpbox where
  URL : String
  Variables : String
  Manifest : String
deriving DecidableEq, Repr

/-- Modelled from the spec: the declaration of `storage.BOSH` is not among the
sources; the fields are the ones the tests set, and the blobs the spec
lists. -/
structure BOSH where
  DirectorAddress : String
  DirectorUsername : String
  DirectorPassword : String
  DirectorSSLCA : String
  Variables : String
  Manifest : String
deriving DecidableEq, Repr

/-- Modelled from the spec: the declaration of `storage.LB` is not among the
sources; the fields are the ones the sources use (`Type_` is the Go field
`Type`, a reserved word here). -/
structure LB where
  Type_ : String
  Cert : String
  Key : String
  Domain : String
deriving DecidableEq, Repr

/-- The persisted aggregate, `storage.State`. -/
structure State where
  Version : Int
  IAAS : String
  ID : String
  NoDirector : Bool
  AWS : AWS
  Azure : Azure
  GCP : GCP
  Jumpbox : Jumpbox
  BOSH : BOSH
  EnvID : String
  TFState : String
  LB : LB
  LatestTFOutput : String
deriving DecidableEq, Repr

/-- The Go zero value `State{}`. -/
def State.zero : State :=
  { Version := 0, IAAS := "", ID := "", NoDirector := false,
    AWS := ⟨"", "", ""⟩, Azure := ⟨"", "", "", ""⟩, GCP := ⟨"", "", "", "", none⟩,
    Jumpbox := ⟨"", "", ""⟩, BOSH := ⟨"", "", "", "", "", ""⟩,
    EnvID := "", TFState := "", LB := ⟨"", "", "", ""⟩, LatestTFOutput := "" }

/-! ## Identifiers -/

/-- A version 4 UUID as `gouuid` holds it: sixteen bytes. -/
structure UUID where
  bytes : List Nat
deriving DecidableEq, Repr

/-- Two lower-case hexadecimal digits of a byte. -/
def hexByte (b : Nat) : String :=
  String.mk [Nat.digitChar (b / 16 % 16), Nat.digitChar (b % 16)]

/-- The hexadecimal text of a run of bytes, as `%x` prints a byte slice. -/
def hexBytes (bs : List Nat) : String := String.join (bs.map hexByte)

/-- The canonical text of a UUID, `uuid.String()`: groups of 4, 2, 2, 2 and 6
bytes separated by dashes. -/
def UUID.String (u : UUID) : String :=
  hexBytes (u.bytes.take 4) ++ "-" ++ hexBytes ((u.bytes.drop 4).take 2) ++ "-" ++
    hexBytes ((u.bytes.drop 6).take 2) ++ "-" ++ hexBytes ((u.bytes.drop 8).take 2) ++ "-" ++
    hexBytes (u.bytes.drop 10)

/-! ## The store -/

/-- The current schema version. -/
def STATE_VERSION : Int := 12

/-- The name of the state file. -/
def StateFileName : String := "bbl-state.json"

/-- The functions the store reaches through package-level variables and the
JSON library: `marshalIndent` (value, prefix, indent), `uuidNewV4` (the result
of its n-th call) and the decoder, which fills the value it is given and may
fail half-way; and the removals the operating system refuses, which
`osRemove` takes. -/
structure Env where
  marshalIndent : State → String → String → Except GoError String
  uuidNewV4 : Nat → Except GoError UUID
  jsonDecode : String → State → State × Option GoError
  removeDenied : String → String → Option String

/-- What the store acts on: the file system, and how often the UUID generator
has been called. -/
structure World where
  fs : FS
  uuidCalls : Nat

/-- The `Store` struct. -/
structure Store where
  dir : String
  version : Int
deriving DecidableEq, Repr

/-- The constructor `NewStore`. -/
def NewStore (dir : String) : Store := { dir := dir, version := STATE_VERSION }

/-- The method `Store.Set`. -/
def Store.Set (env : Env) (s : Store) (state : State) (w : World) : World × Option GoError :=
  match osStat w.fs s.dir with
  | some err => (w, some (fmtErrorf "Stat state dir: " err))
  | none =>
    let stateFile := filepathJoin s.dir StateFileName
    if state = State.zero then
      match osRemove env.removeDenied w.fs stateFile with
      | (fs1, some err) =>
        if !err.notExist then ({ w with fs := fs1 }, some err) else ({ w with fs := fs1 }, none)
      | (fs1, none) => ({ w with fs := fs1 }, none)
    else
      let state := { state with Version := s.version }
      let idStep : World × Except GoError State :=
        if state.ID = "" then
          match env.uuidNewV4 w.uuidCalls with
          | .error err =>
            ({ w with uuidCalls := w.uuidCalls + 1 }, .error (fmtErrorf "Create state ID: " err))
          | .ok uuid => ({ w with uuidCalls := w.uuidCalls + 1 }, .ok { state with ID := uuid.String })
        else (w, .ok state)
      match idStep with
      | (w1, .error err) => (w1, some err)
      | (w1, .ok state) =>
        let state := { state with AWS := { state.AWS with AccessKeyID := "" } }
        let state := { state with AWS := { state.AWS with SecretAccessKey := "" } }
        let state := { state with GCP := { state.GCP with ServiceAccountKey := "" } }
        let state := { state with GCP := { state.GCP with ProjectID := "" } }
        match env.marshalIndent state "" "\t" with
        | .error err => (w1, some err)
        | .ok jsonData =>
          match ioutilWriteFile w1.fs stateFile jsonData with
          | (fs1, some err) => ({ w1 with fs := fs1 }, some err)
          | (fs1, none) => ({ w1 with fs := fs1 }, none)

/-- The message of the error for a state older than version 3. -/
def incompatibleMsg : String :=
  "Existing bbl environment is incompatible with bbl v3. Create a new environment with v3 to continue."

/-- The message of the error for a state newer than the tool. -/
def newerMsg (version : Int) : String :=
  "Existing bbl environment was created with a newer version of bbl. Please upgrade to a version of bbl compatible with schema version "
    ++ toString version ++ ".\n"

/-- The function `GetState`. -/
def GetState (env : Env) (dir : String) (w : World) : World × State × Option GoError :=
  let state := State.zero
  match osStat w.fs dir with
  | some err => (w, state, some err)
  | none =>
    match osOpen w.fs (filepathJoin dir StateFileName) with
    | .error err => if err.notExist then (w, state, none) else (w, state, some err)
    | .ok file =>
      match env.jsonDecode file state with
      | (state, some err) => (w, state, some err)
      | (state, none) =>
        let emptyState := State.zero
        let state := if state = emptyState then { State.zero with Version := STATE_VERSION } else state
        if state.Version < 3 then (w, state, some (errorsNew incompatibleMsg))
        else if state.Version > STATE_VERSION then
          (w, state, some (errorsNew (newerMsg state.Version)))
        else (w, state, none)

/-! ## What `Set` writes -/

/-- The value of the local variable `state` of `Set` when it reaches
`marshalIndent`, given the identifier it ends up with. -/
def Store.document (s : Store) (state : State) (id : String) : State :=
  { state with
    Version := s.version
    ID := id
    AWS := { state.AWS with AccessKeyID := "", SecretAccessKey := "" }
    GCP := { state.GCP with ServiceAccountKey := "", ProjectID := "" } }

/-- The identifier `Set` persists: the one passed in, or the text of the UUID
that the next call of the generator returns. -/
def Store.persistedID (env : Env) (state : State) (w : World) : Option String :=
  if state.ID = "" then
    match env.uuidNewV4 w.uuidCalls with
    | .ok uuid => some uuid.String
    | .error _ => none
  else some state.ID

/-- The state `doc` is the document `Set` writes for `state`: whatever
`marshalIndent` is, `Set` calls it on `doc` with prefix `""` and indent
`"\t"`; when it succeeds the state file holds exactly the bytes it returned
and `Set` returns nil, and when it fails `Set` returns its error and the file
system is as before. -/
def Store.Writes (env : Env) (s : Store) (state : State) (w : World) (doc : State) : Prop :=
  ∀ m : State → String → String → Except GoError String,
    ∃ calls : Nat,
      Store.Set { env with marshalIndent := m } s state w =
        match m doc "" "\t" with
        | .ok jsonData => (⟨w.fs.put (filepathJoin s.dir StateFileName) jsonData, calls⟩, none)
        | .error err => (⟨w.fs, calls⟩, some err)

/-! ## JSON

The package `encoding/json` of the Go library, through which the store writes
and reads the state file and the Terraform input generator writes the list of
zones. It is not among the sources; what follows has its documented
behaviour for the types of `State`: `json.MarshalIndent`, and the method
`Decode` of a decoder. Go strings are taken to hold well-formed text. The
texts of the errors of the decoder and its limit on the depth of a document are
left open. -/

/-- A JSON value. A number is kept as its literal. -/
inductive JSON where
  | null
  | bool (b : Bool)
  | number (literal : List Char)
  | string (s : List Char)
  | array (items : List JSON)
  | object (members : List (List Char × JSON))

/-- The text `encoding/json` writes for one character inside a string. Quote,
backslash, newline, carriage return and tab have short forms; the other
characters below the blank, the angle brackets, the ampersand and the two line
separators are written with `\u`. `shortForms` tells the toolchain: from Go
1.22 on a backspace and a form feed are written as `\b` and `\f`, before
that with `\u`. -/
def jsonEscape (shortForms : Bool) (c : Char) : List Char :=
  if c = '"' then ['\\', '"']
  else if c = '\\' then ['\\', '\\']
  else if c = '\n' then ['\\', 'n']
  else if c = '\r' then ['\\', 'r']
  else if c = '\t' then ['\\', 't']
  else if shortForms = true ∧ c = Char.ofNat 8 then ['\\', 'b']
  else if shortForms = true ∧ c = Char.ofNat 12 then ['\\', 'f']
  else if c.toNat < 32 ∨ c = '<' ∨ c = '>' ∨ c = '&' then
    '\\' :: 'u' :: '0' :: '0' :: (hexByte c.toNat).data
  else if c.toNat = 8232 then ['\\', 'u', '2', '0', '2', '8']
  else if c.toNat = 8233 then ['\\', 'u', '2', '0', '2', '9']
  else [c]

/-- The text written for the characters of a string. -/
def escapeChars (shortForms : Bool) : List Char → List Char
  | [] => []
  | c :: cs => jsonEscape shortForms c ++ escapeChars shortForms cs

/-- The JSON text of a string: its characters as they are written, between
quotes. -/
def jsonQuote (shortForms : Bool) (s : List Char) : List Char :=
  '"' :: escapeChars shortForms s ++ ['"']

/-- The start of a line of an indented document at a depth: a newline, the
prefix and one indent for each level. -/
def newline (pre indent : List Char) : Nat → List Char
  | 0 => '\n' :: pre
  | d + 1 => newline pre indent d ++ indent

mutual
/-- The indented text of a value at a depth, as `json.MarshalIndent` lays it
out: every item of an array and every member of an object on a line of its
own, one level deeper, a blank after the colon of a member, the closing bracket
or brace on a line of its own, and `[]` and `\x7b\x7d` for the empty ones. -/
def JSON.render (sf : Bool) (pre indent : List Char) : JSON → Nat → List Char
  | .null, _ => ['n', 'u', 'l', 'l']
  | .bool b, _ => if b then ['t', 'r', 'u', 'e'] else ['f', 'a', 'l', 's', 'e']
  | .number literal, _ => literal
  | .string s, _ => jsonQuote sf s
  | .array [], _ => ['[', ']']
  | .array (x :: xs), d =>
    '[' :: newline pre indent (d + 1) ++ JSON.renderItems sf pre indent (x :: xs) d
  | .object [], _ => ['{', '}']
  | .object (m :: ms), d =>
    '{' :: newline pre indent (d + 1) ++ JSON.renderMembers sf pre indent (m :: ms) d
/-- The text of the items of an array and its closing bracket. -/
def JSON.renderItems (sf : Bool) (pre indent : List Char) : List JSON → Nat → List Char
  | [], d => newline pre indent d ++ [']']
  | [x], d => JSON.render sf pre indent x (d + 1) ++ (newline pre indent d ++ [']'])
  | x :: y :: ys, d =>
    JSON.render sf pre indent x (d + 1) ++
      (',' :: newline pre indent (d + 1) ++ JSON.renderItems sf pre indent (y :: ys) d)
/-- The text of the members of an object and its closing brace. -/
def JSON.renderMembers (sf : Bool) (pre indent : List Char) :
    List (List Char × JSON) → Nat → List Char
  | [], d => newline pre indent d ++ ['}']
  | [m], d => JSON.renderMember sf pre indent m d ++ (newline pre indent d ++ ['}'])
  | m :: m2 :: ms, d =>
    JSON.renderMember sf pre indent m d ++
      (',' :: newline pre indent (d + 1) ++ JSON.renderMembers sf pre indent (m2 :: ms) d)
/-- The text of a member: its key, a colon, a blank and its value. -/
def JSON.renderMember (sf : Bool) (pre indent : List Char) : List Char × JSON → Nat → List Char
  | (key, value), d => jsonQuote sf key ++ (':' :: ' ' :: JSON.render sf pre indent value (d + 1))
end

/-- The white space of JSON: blank, tab, carriage return and newline. -/
def isSpace (c : Char) : Bool := c = ' ' || c = '\t' || c = '\r' || c = '\n'

/-- A text without the white space it starts with. -/
def skipSpace : List Char → List Char
  | [] => []
  | c :: cs => if isSpace c then skipSpace cs else c :: cs

/-- The value of a hexadecimal digit, in either case. -/
def hexValue (c : Char) : Option Nat :=
  if '0' ≤ c ∧ c ≤ '9' then some (c.toNat - 48)
  else if 'a' ≤ c ∧ c ≤ 'f' then some (c.toNat - 87)
  else if 'A' ≤ c ∧ c ≤ 'F' then some (c.toNat - 55)
  else none

/-- The number of the escape `\uXXXX` a text starts with. -/
def getu4 (cs : List Char) : Option Nat :=
  match cs with
  | b :: u :: h1 :: h2 :: h3 :: h4 :: _ =>
    if b = '\\' ∧ u = 'u' then
      match hexValue h1, hexValue h2, hexValue h3, hexValue h4 with
      | some x, some y, some z, some w => some (x * 4096 + y * 256 + z * 16 + w)
      | _, _, _, _ => none
    else none
  | _ => none

/-- The character of an escape of two characters. -/
def simpleEscape (e : Char) : Option Char :=
  if e = '"' then some '"'
  else if e = '\\' then some '\\'
  else if e = '/' then some '/'
  else if e = 'b' then some (Char.ofNat 8)
  else if e = 'f' then some (Char.ofNat 12)
  else if e = 'n' then some '\n'
  else if e = 'r' then some '\r'
  else if e = 't' then some '\t'
  else none

/-- The character the inside of a string starts with, and what follows it: a
character as it is, or the character of an escape. Two escapes `\uXXXX` that
are a surrogate pair are one character, and a surrogate without its partner is
the replacement character. -/
def stringStep (cs : List Char) : Option (Char × List Char) :=
  match cs with
  | [] => none
  | c :: rest =>
    if c = '\\' then
      match rest with
      | [] => none
      | e :: rest2 =>
        if e = 'u' then
          match getu4 cs with
          | none => none
          | some n =>
            if 55296 ≤ n ∧ n < 57344 then
              match getu4 (cs.drop 6) with
              | some n2 =>
                if n < 56320 ∧ 56320 ≤ n2 ∧ n2 < 57344 then
                  some (Char.ofNat (65536 + (n - 55296) * 1024 + (n2 - 56320)), cs.drop 12)
                else some (Char.ofNat 65533, cs.drop 6)
              | none => some (Char.ofNat 65533, cs.drop 6)
            else some (Char.ofNat n, cs.drop 6)
        else
          match simpleEscape e with
          | none => none
          | some x => some (x, rest2)
    else if c.toNat < 32 then none
    else some (c, rest)

/-- The inside of a string up to its closing quote, and what follows the
quote. -/
def parseStringBody : Nat → List Char → List Char → Option (List Char × List Char)
  | 0, _, _ => none
  | fuel + 1, cs, acc =>
    match cs with
    | [] => none
    | c :: rest =>
      if c = '"' then some (acc.reverse, rest)
      else
        match stringStep cs with
        | none => none
        | some (x, rest2) => parseStringBody fuel rest2 (x :: acc)


/-- The digits a text starts with, and what follows them. -/
def spanDigits : List Char → List Char × List Char
  | [] => ([], [])
  | c :: cs =>
    if c.isDigit then ((spanDigits cs).1.cons c, (spanDigits cs).2) else ([], c :: cs)

/-- The number literal a text starts with, and what follows it: an optional
minus sign, `0` or digits that do not start with `0`, an optional fraction and
an optional exponent. -/
def lexNumber (cs : List Char) : Option (List Char × List Char) :=
  let signed : List Char × List Char :=
    match cs with
    | c :: r => if c = '-' then (['-'], r) else ([], cs)
    | [] => ([], cs)
  let whole : Option (List Char × List Char) :=
    match signed.2 with
    | [] => none
    | c :: r =>
      if c = '0' then some (['0'], r)
      else if c.isDigit then some (c :: (spanDigits r).1, (spanDigits r).2)
      else none
  match whole with
  | none => none
  | some (ip, r1) =>
    let fraction : Option (List Char × List Char) :=
      match r1 with
      | c :: r2 =>
        if c = '.' then
          if (spanDigits r2).1 = [] then none else some ('.' :: (spanDigits r2).1, (spanDigits r2).2)
        else some ([], r1)
      | [] => some ([], r1)
    match fraction with
    | none => none
    | some (fp, r3) =>
      let exponent : Option (List Char × List Char) :=
        match r3 with
        | e :: r4 =>
          if e = 'e' ∨ e = 'E' then
            let sg : List Char × List Char :=
              match r4 with
              | c :: r5 => if c = '+' ∨ c = '-' then ([c], r5) else ([], r4)
              | [] => ([], r4)
            if (spanDigits sg.2).1 = [] then none
            else some (e :: sg.1 ++ (spanDigits sg.2).1, (spanDigits sg.2).2)
          else some ([], r3)
        | [] => some ([], r3)
      match exponent with
      | none => none
      | some (ep, r6) => some (signed.1 ++ ip ++ fp ++ ep, r6)

mutual
/-- The JSON value a text starts with, after white space, and what follows
it. -/
def parseValue : Nat → List Char → Option (JSON × List Char)
  | 0, _ => none
  | fuel + 1, cs =>
    match skipSpace cs with
    | [] => none
    | c :: rest =>
      if c = '{' then
        match skipSpace rest with
        | [] => none
        | c2 :: rest2 =>
          if c2 = '}' then some (.object [], rest2) else parseMembers fuel (c2 :: rest2) []
      else if c = '[' then
        match skipSpace rest with
        | [] => none
        | c2 :: rest2 =>
          if c2 = ']' then some (.array [], rest2) else parseItems fuel (c2 :: rest2) []
      else if c = '"' then
        match parseStringBody fuel rest [] with
        | none => none
        | some (s, rest2) => some (.string s, rest2)
      else if c = 't' then
        match rest with
        | 'r' :: 'u' :: 'e' :: rest2 => some (.bool true, rest2)
        | _ => none
      else if c = 'f' then
        match rest with
        | 'a' :: 'l' :: 's' :: 'e' :: rest2 => some (.bool false, rest2)
        | _ => none
      else if c = 'n' then
        match rest with
        | 'u' :: 'l' :: 'l' :: rest2 => some (.null, rest2)
        | _ => none
      else
        match lexNumber (c :: rest) with
        | none => none
        | some (literal, rest2) => some (.number literal, rest2)
/-- The items of an array, up to its closing bracket. -/
def parseItems : Nat → List Char → List JSON → Option (JSON × List Char)
  | 0, _, _ => none
  | fuel + 1, cs, acc =>
    match parseValue fuel cs with
    | none => none
    | some (v, rest) =>
      match skipSpace rest with
      | [] => none
      | c :: rest2 =>
        if c = ',' then parseItems fuel rest2 (v :: acc)
        else if c = ']' then some (.array (v :: acc).reverse, rest2)
        else none
/-- The members of an object, up to its closing brace. -/
def parseMembers : Nat → List Char → List (List Char × JSON) → Option (JSON × List Char)
  | 0, _, _ => none
  | fuel + 1, cs, acc =>
    match skipSpace cs with
    | [] => none
    | q :: rest =>
      if q = '"' then
        match parseStringBody fuel rest [] with
        | none => none
        | some (key, rest2) =>
          match skipSpace rest2 with
          | [] => none
          | colon :: rest3 =>
            if colon = ':' then
              match parseValue fuel rest3 with
              | none => none
              | some (v, rest4) =>
                match skipSpace rest4 with
                | [] => none
                | c :: rest5 =>
                  if c = ',' then parseMembers fuel rest5 ((key, v) :: acc)
                  else if c = '}' then some (.object ((key, v) :: acc).reverse, rest5)
                  else none
            else none
      else none
end


/-- White space only. -/
def AllSpace (ws : List Char) : Prop := ∀ c ∈ ws, isSpace c = true

/-- What may follow a value: nothing, a comma, a closing bracket or brace, or
white space. -/
def Delimited (rest : List Char) : Prop :=
  ∀ c tail, rest = c :: tail → c = ',' ∨ c = ']' ∨ c = '}' ∨ isSpace c = true

/-- A number literal: it starts with a minus sign or a digit, and it is read
as a whole when a delimiter follows it. -/
def NumberLiteral (literal : List Char) : Prop :=
  (∃ c tail, literal = c :: tail ∧ (c = '-' ∨ c.isDigit = true)) ∧
  ∀ rest, Delimited rest → lexNumber (literal ++ rest) = some (literal, rest)

mutual
/-- A value all of whose numbers are number literals. -/
def JSON.Printable : JSON → Prop
  | .number literal => NumberLiteral literal
  | .array items => JSON.PrintableItems items
  | .object members => JSON.PrintableMembers members
  | _ => True
def JSON.PrintableItems : List JSON → Prop
  | [] => True
  | x :: xs => JSON.Printable x ∧ JSON.PrintableItems xs
def JSON.PrintableMembers : List (List Char × JSON) → Prop
  | [] => True
  | m :: ms => JSON.PrintableMember m ∧ JSON.PrintableMembers ms
def JSON.PrintableMember : List Char × JSON → Prop
  | (_, value) => JSON.Printable value
end

/-- The value is read back from what is written for it, whatever white space
precedes and whatever delimiter follows it. -/
def ReadsBack (sf : Bool) (pre indent : List Char) (v : JSON) : Prop :=
  v.Printable → ∀ (d fuel : Nat) (ws rest : List Char), AllSpace ws → Delimited rest →
    (v.render sf pre indent d).length ≤ fuel →
    parseValue fuel (ws ++ (v.render sf pre indent d ++ rest)) = some (v, rest)

/-- The items are read back from what is written for them. -/
def ItemsReadBack (sf : Bool) (pre indent : List Char) (items : List JSON) : Prop :=
  JSON.PrintableItems items → items ≠ [] →
    ∀ (d fuel : Nat) (ws rest : List Char) (acc : List JSON), AllSpace ws →
      (JSON.renderItems sf pre indent items d).length ≤ fuel →
      parseItems fuel (ws ++ (JSON.renderItems sf pre indent items d ++ rest)) acc =
        some (.array (acc.reverse ++ items), rest)

/-- The members are read back from what is written for them. -/
def MembersReadBack (sf : Bool) (pre indent : List Char) (members : List (List Char × JSON)) :
    Prop :=
  JSON.PrintableMembers members → members ≠ [] →
    ∀ (d fuel : Nat) (ws rest : List Char) (acc : List (List Char × JSON)), AllSpace ws →
      (JSON.renderMembers sf pre indent members d).length ≤ fuel →
      parseMembers fuel (ws ++ (JSON.renderMembers sf pre indent members d ++ rest)) acc =
        some (.object (acc.reverse ++ members), rest)


/-! ### The state as JSON -/

/-- The JSON value of a Go string. -/
def jsonOfString (s : String) : JSON := .string s.data

/-- The JSON value of a Go slice of strings: `null` for the nil slice. -/
def jsonOfStrings : Option (List String) → JSON
  | none => .null
  | some l => .array (l.map jsonOfString)

/-- The JSON object `encoding/json` makes of an `AWS`: the declaration of the
struct is not among the sources, and the keys are taken to be the names of the
fields, which are the keys of fields without a tag. -/
def AWS.toJSON (a : AWS) : JSON :=
  .object [
    ("AccessKeyID".data, jsonOfString a.AccessKeyID),
    ("SecretAccessKey".data, jsonOfString a.SecretAccessKey),
    ("Region".data, jsonOfString a.Region)]

/-- The JSON object of an `Azure`, with the names of the fields as keys. -/
def Azure.toJSON (a : Azure) : JSON :=
  .object [
    ("ClientID".data, jsonOfString a.ClientID),
    ("ClientSecret".data, jsonOfString a.ClientSecret),
    ("SubscriptionID".data, jsonOfString a.SubscriptionID),
    ("TenantID".data, jsonOfString a.TenantID)]

/-- The JSON object of a `GCP`, with the names of the fields as keys. -/
def GCP.toJSON (g : GCP) : JSON :=
  .object [
    ("ServiceAccountKey".data, jsonOfString g.ServiceAccountKey),
    ("ProjectID".data, jsonOfString g.ProjectID),
    ("Zone".data, jsonOfString g.Zone),
    ("Region".data, jsonOfString g.Region),
    ("Zones".data, jsonOfStrings g.Zones)]

/-- The JSON object of a `Jumpbox`, with the names of the fields as keys. -/
def Jumpbox.toJSON (j : Jumpbox) : JSON :=
  .object [
    ("URL".data, jsonOfString j.URL),
    ("Variables".data, jsonOfString j.Variables),
    ("Manifest".data, jsonOfString j.Manifest)]

/-- The JSON object of a `BOSH`, with the names of the fields as keys. -/
def BOSH.toJSON (b : BOSH) : JSON :=
  .object [
    ("DirectorAddress".data, jsonOfString b.DirectorAddress),
    ("DirectorUsername".data, jsonOfString b.DirectorUsername),
    ("DirectorPassword".data, jsonOfString b.DirectorPassword),
    ("DirectorSSLCA".data, jsonOfString b.DirectorSSLCA),
    ("Variables".data, jsonOfString b.Variables),
    ("Manifest".data, jsonOfString b.Manifest)]

/-- The JSON object of an `LB`, with the names of the fields as keys. -/
def LB.toJSON (l : LB) : JSON :=
  .object [
    ("Type".data, jsonOfString l.Type_),
    ("Cert".data, jsonOfString l.Cert),
    ("Key".data, jsonOfString l.Key),
    ("Domain".data, jsonOfString l.Domain)]

/-- The JSON object `encoding/json` makes of a `State`: its fields in the
order of the declaration, under the keys of their tags. The option `omitempty`
of the tags leaves a struct in place. -/
def State.toJSON (s : State) : JSON :=
  .object [
    ("version".data, .number (toString s.Version).data),
    ("iaas".data, jsonOfString s.IAAS),
    ("id".data, jsonOfString s.ID),
    ("noDirector".data, .bool s.NoDirector),
    ("aws".data, s.AWS.toJSON),
    ("azure".data, s.Azure.toJSON),
    ("gcp".data, s.GCP.toJSON),
    ("jumpbox".data, s.Jumpbox.toJSON),
    ("bosh".data, s.BOSH.toJSON),
    ("envID".data, jsonOfString s.EnvID),
    ("tfState".data, jsonOfString s.TFState),
    ("lb".data, s.LB.toJSON),
    ("latestTFOutput".data, jsonOfString s.LatestTFOutput)]

/-- The function `json.MarshalIndent` on a `State`: the text of its JSON
object, every line after the first starting with the prefix and one indent for
each level. It has no failing case. -/
def jsonMarshalIndent (shortForms : Bool) (state : State) (pre indent : String) :
    Except GoError String :=
  .ok (String.mk (state.toJSON.render shortForms pre.data indent.data 0))

/-- The errors of the decoder, of which the texts are not modelled: the one
for a text that does not start with a JSON value, and the one for a JSON value
that does not fit the Go type of the field it is for. -/
structure JSONErrors where
  invalid : String → GoError
  mismatch : JSON → String → GoError

/-- The first of two errors. -/
def firstError (a b : Option GoError) : Option GoError :=
  match a with
  | some err => some err
  | none => b

/-- A character folded as the decoder folds the characters of a key when it
looks for the field of that name. -/
def foldChar (c : Char) : Char :=
  if c.toNat = 8490 then 'k'
  else if c.toNat = 383 then 's'
  else if 'A' ≤ c ∧ c ≤ 'Z' then Char.ofNat (c.toNat + 32)
  else c

/-- The key names the field: they are equal, letters in either case. -/
def keyIs (key : List Char) (name : String) : Bool :=
  key.map foldChar = name.data.map foldChar

/-- A JSON value decoded into a Go string: `null` leaves the string as it
is. -/
def decodeString (errs : JSONErrors) (field : String) (v : JSON) (old : String) :
    String × Option GoError :=
  match v with
  | .null => (old, none)
  | .string s => (String.mk s, none)
  | _ => (old, some (errs.mismatch v field))

/-- A JSON value decoded into a Go bool. -/
def decodeBool (errs : JSONErrors) (field : String) (v : JSON) (old : Bool) :
    Bool × Option GoError :=
  match v with
  | .null => (old, none)
  | .bool b => (b, none)
  | _ => (old, some (errs.mismatch v field))

/-- The number of a run of digits. -/
def digitsValue (ds : List Char) : Nat :=
  ds.foldl (fun n c => 10 * n + (c.toNat - 48)) 0

/-- The integer of a number literal without fraction and exponent. -/
def jsonInt (literal : List Char) : Option Int :=
  match literal with
  | [] => none
  | c :: ds =>
    if c = '-' then
      if ds ≠ [] ∧ ds.all Char.isDigit = true then some (-(digitsValue ds : Int)) else none
    else if (c :: ds).all Char.isDigit = true then some (digitsValue (c :: ds) : Int)
    else none

/-- A JSON value decoded into a Go `int` of 64 bits. -/
def decodeInt (errs : JSONErrors) (field : String) (v : JSON) (old : Int) :
    Int × Option GoError :=
  match v with
  | .null => (old, none)
  | .number literal =>
    match jsonInt literal with
    | some n =>
      if -9223372036854775808 ≤ n ∧ n ≤ 9223372036854775807 then (n, none)
      else (old, some (errs.mismatch v field))
    | none => (old, some (errs.mismatch v field))
  | _ => (old, some (errs.mismatch v field))

/-- The items of a JSON array decoded into the elements of a slice of strings:
each item is decoded into the element that is there, or into an empty one. -/
def decodeItems (errs : JSONErrors) (field : String) : List JSON → List String →
    List String × Option GoError
  | [], _ => ([], none)
  | item :: items, old =>
    ((decodeString errs field item (old.headD "")).1 :: (decodeItems errs field items old.tail).1,
      firstError (decodeString errs field item (old.headD "")).2
        (decodeItems errs field items old.tail).2)

/-- A JSON value decoded into a Go slice of strings: `null` makes the slice
nil. -/
def decodeStrings (errs : JSONErrors) (field : String) (v : JSON) (old : Option (List String)) :
    Option (List String) × Option GoError :=
  match v with
  | .null => (none, none)
  | .array items =>
    (some (decodeItems errs field items (old.getD [])).1,
      (decodeItems errs field items (old.getD [])).2)
  | _ => (old, some (errs.mismatch v field))

/-- One member of a JSON object decoded into the field of an `AWS` it names;
a member that names no field is passed over, and an error does not stop the
decoding. -/
def AWS.setField (errs : JSONErrors) (acc : AWS × Option GoError) (m : List Char × JSON) :
    AWS × Option GoError :=
  if keyIs m.1 "AccessKeyID" then
    ({ acc.1 with AccessKeyID := (decodeString errs "AWS.AccessKeyID" m.2 acc.1.AccessKeyID).1 },
      firstError acc.2 (decodeString errs "AWS.AccessKeyID" m.2 acc.1.AccessKeyID).2)
  else if keyIs m.1 "SecretAccessKey" then
    ({ acc.1 with
        SecretAccessKey := (decodeString errs "AWS.SecretAccessKey" m.2 acc.1.SecretAccessKey).1 },
      firstError acc.2 (decodeString errs "AWS.SecretAccessKey" m.2 acc.1.SecretAccessKey).2)
  else if keyIs m.1 "Region" then
    ({ acc.1 with Region := (decodeString errs "AWS.Region" m.2 acc.1.Region).1 },
      firstError acc.2 (decodeString errs "AWS.Region" m.2 acc.1.Region).2)
  else acc

/-- A JSON value decoded into an `AWS`. -/
def decodeAWS (errs : JSONErrors) (field : String) (v : JSON) (old : AWS) : AWS × Option GoError :=
  match v with
  | .null => (old, none)
  | .object members => members.foldl (AWS.setField errs) (old, none)
  | _ => (old, some (errs.mismatch v field))

/-- One member of a JSON object decoded into the field of an `Azure` it
names. -/
def Azure.setField (errs : JSONErrors) (acc : Azure × Option GoError) (m : List Char × JSON) :
    Azure × Option GoError :=
  if keyIs m.1 "ClientID" then
    ({ acc.1 with ClientID := (decodeString errs "Azure.ClientID" m.2 acc.1.ClientID).1 },
      firstError acc.2 (decodeString errs "Azure.ClientID" m.2 acc.1.ClientID).2)
  else if keyIs m.1 "ClientSecret" then
    ({ acc.1 with ClientSecret := (decodeString errs "Azure.ClientSecret" m.2 acc.1.ClientSecret).1 },
      firstError acc.2 (decodeString errs "Azure.ClientSecret" m.2 acc.1.ClientSecret).2)
  else if keyIs m.1 "SubscriptionID" then
    ({ acc.1 with
        SubscriptionID := (decodeString errs "Azure.SubscriptionID" m.2 acc.1.SubscriptionID).1 },
      firstError acc.2 (decodeString errs "Azure.SubscriptionID" m.2 acc.1.SubscriptionID).2)
  else if keyIs m.1 "TenantID" then
    ({ acc.1 with TenantID := (decodeString errs "Azure.TenantID" m.2 acc.1.TenantID).1 },
      firstError acc.2 (decodeString errs "Azure.TenantID" m.2 acc.1.TenantID).2)
  else acc

/-- A JSON value decoded into an `Azure`. -/
def decodeAzure (errs : JSONErrors) (field : String) (v : JSON) (old : Azure) :
    Azure × Option GoError :=
  match v with
  | .null => (old, none)
  | .object members => members.foldl (Azure.setField errs) (old, none)
  | _ => (old, some (errs.mismatch v field))

/-- One member of a JSON object decoded into the field of a `GCP` it names. -/
def GCP.setField (errs : JSONErrors) (acc : GCP × Option GoError) (m : List Char × JSON) :
    GCP × Option GoError :=
  if keyIs m.1 "ServiceAccountKey" then
    ({ acc.1 with
        ServiceAccountKey :=
          (decodeString errs "GCP.ServiceAccountKey" m.2 acc.1.ServiceAccountKey).1 },
      firstError acc.2 (decodeString errs "GCP.ServiceAccountKey" m.2 acc.1.ServiceAccountKey).2)
  else if keyIs m.1 "ProjectID" then
    ({ acc.1 with ProjectID := (decodeString errs "GCP.ProjectID" m.2 acc.1.ProjectID).1 },
      firstError acc.2 (decodeString errs "GCP.ProjectID" m.2 acc.1.ProjectID).2)
  else if keyIs m.1 "Zone" then
    ({ acc.1 with Zone := (decodeString errs "GCP.Zone" m.2 acc.1.Zone).1 },
      firstError acc.2 (decodeString errs "GCP.Zone" m.2 acc.1.Zone).2)
  else if keyIs m.1 "Region" then
    ({ acc.1 with Region := (decodeString errs "GCP.Region" m.2 acc.1.Region).1 },
      firstError acc.2 (decodeString errs "GCP.Region" m.2 acc.1.Region).2)
  else if keyIs m.1 "Zones" then
    ({ acc.1 with Zones := (decodeStrings errs "GCP.Zones" m.2 acc.1.Zones).1 },
      firstError acc.2 (decodeStrings errs "GCP.Zones" m.2 acc.1.Zones).2)
  else acc

/-- A JSON value decoded into a `GCP`. -/
def decodeGCP (errs : JSONErrors) (field : String) (v : JSON) (old : GCP) : GCP × Option GoError :=
  match v with
  | .null => (old, none)
  | .object members => members.foldl (GCP.setField errs) (old, none)
  | _ => (old, some (errs.mismatch v field))

/-- One member of a JSON object decoded into the field of a `Jumpbox` it
names. -/
def Jumpbox.setField (errs : JSONErrors) (acc : Jumpbox × Option GoError)
    (m : List Char × JSON) : Jumpbox × Option GoError :=
  if keyIs m.1 "URL" then
    ({ acc.1 with URL := (decodeString errs "Jumpbox.URL" m.2 acc.1.URL).1 },
      firstError acc.2 (decodeString errs "Jumpbox.URL" m.2 acc.1.URL).2)
  else if keyIs m.1 "Variables" then
    ({ acc.1 with Variables := (decodeString errs "Jumpbox.Variables" m.2 acc.1.Variables).1 },
      firstError acc.2 (decodeString errs "Jumpbox.Variables" m.2 acc.1.Variables).2)
  else if keyIs m.1 "Manifest" then
    ({ acc.1 with Manifest := (decodeString errs "Jumpbox.Manifest" m.2 acc.1.Manifest).1 },
      firstError acc.2 (decodeString errs "Jumpbox.Manifest" m.2 acc.1.Manifest).2)
  else acc

/-- A JSON value decoded into a `Jumpbox`. -/
def decodeJumpbox (errs : JSONErrors) (field : String) (v : JSON) (old : Jumpbox) :
    Jumpbox × Option GoError :=
  match v with
  | .null => (old, none)
  | .object members => members.foldl (Jumpbox.setField errs) (old, none)
  | _ => (old, some (errs.mismatch v field))

/-- One member of a JSON object decoded into the field of a `BOSH` it
names. -/
def BOSH.setField (errs : JSONErrors) (acc : BOSH × Option GoError) (m : List Char × JSON) :
    BOSH × Option GoError :=
  if keyIs m.1 "DirectorAddress" then
    ({ acc.1 with
        DirectorAddress := (decodeString errs "BOSH.DirectorAddress" m.2 acc.1.DirectorAddress).1 },
      firstError acc.2 (decodeString errs "BOSH.DirectorAddress" m.2 acc.1.DirectorAddress).2)
  else if keyIs m.1 "DirectorUsername" then
    ({ acc.1 with
        DirectorUsername :=
          (decodeString errs "BOSH.DirectorUsername" m.2 acc.1.DirectorUsername).1 },
      firstError acc.2 (decodeString errs "BOSH.DirectorUsername" m.2 acc.1.DirectorUsername).2)
  else if keyIs m.1 "DirectorPassword" then
    ({ acc.1 with
        DirectorPassword :=
          (decodeString errs "BOSH.DirectorPassword" m.2 acc.1.DirectorPassword).1 },
      firstError acc.2 (decodeString errs "BOSH.DirectorPassword" m.2 acc.1.DirectorPassword).2)
  else if keyIs m.1 "DirectorSSLCA" then
    ({ acc.1 with
        DirectorSSLCA := (decodeString errs "BOSH.DirectorSSLCA" m.2 acc.1.DirectorSSLCA).1 },
      firstError acc.2 (decodeString errs "BOSH.DirectorSSLCA" m.2 acc.1.DirectorSSLCA).2)
  else if keyIs m.1 "Variables" then
    ({ acc.1 with Variables := (decodeString errs "BOSH.Variables" m.2 acc.1.Variables).1 },
      firstError acc.2 (decodeString errs "BOSH.Variables" m.2 acc.1.Variables).2)
  else if keyIs m.1 "Manifest" then
    ({ acc.1 with Manifest := (decodeString errs "BOSH.Manifest" m.2 acc.1.Manifest).1 },
      firstError acc.2 (decodeString errs "BOSH.Manifest" m.2 acc.1.Manifest).2)
  else acc

/-- A JSON value decoded into a `BOSH`. -/
def decodeBOSH (errs : JSONErrors) (field : String) (v : JSON) (old : BOSH) :
    BOSH × Option GoError :=
  match v with
  | .null => (old, none)
  | .object members => members.foldl (BOSH.setField errs) (old, none)
  | _ => (old, some (errs.mismatch v field))

/-- One member of a JSON object decoded into the field of an `LB` it names. -/
def LB.setField (errs : JSONErrors) (acc : LB × Option GoError) (m : List Char × JSON) :
    LB × Option GoError :=
  if keyIs m.1 "Type" then
    ({ acc.1 with Type_ := (decodeString errs "LB.Type" m.2 acc.1.Type_).1 },
      firstError acc.2 (decodeString errs "LB.Type" m.2 acc.1.Type_).2)
  else if keyIs m.1 "Cert" then
    ({ acc.1 with Cert := (decodeString errs "LB.Cert" m.2 acc.1.Cert).1 },
      firstError acc.2 (decodeString errs "LB.Cert" m.2 acc.1.Cert).2)
  else if keyIs m.1 "Key" then
    ({ acc.1 with Key := (decodeString errs "LB.Key" m.2 acc.1.Key).1 },
      firstError acc.2 (decodeString errs "LB.Key" m.2 acc.1.Key).2)
  else if keyIs m.1 "Domain" then
    ({ acc.1 with Domain := (decodeString errs "LB.Domain" m.2 acc.1.Domain).1 },
      firstError acc.2 (decodeString errs "LB.Domain" m.2 acc.1.Domain).2)
  else acc

/-- A JSON value decoded into an `LB`. -/
def decodeLB (errs : JSONErrors) (field : String) (v : JSON) (old : LB) : LB × Option GoError :=
  match v with
  | .null => (old, none)
  | .object members => members.foldl (LB.setField errs) (old, none)
  | _ => (old, some (errs.mismatch v field))

/-- One member of a JSON object decoded into the field of a `State` it
names. -/
def State.setField (errs : JSONErrors) (acc : State × Option GoError) (m : List Char × JSON) :
    State × Option GoError :=
  if keyIs m.1 "version" then
    ({ acc.1 with Version := (decodeInt errs "State.version" m.2 acc.1.Version).1 },
      firstError acc.2 (decodeInt errs "State.version" m.2 acc.1.Version).2)
  else if keyIs m.1 "iaas" then
    ({ acc.1 with IAAS := (decodeString errs "State.iaas" m.2 acc.1.IAAS).1 },
      firstError acc.2 (decodeString errs "State.iaas" m.2 acc.1.IAAS).2)
  else if keyIs m.1 "id" then
    ({ acc.1 with ID := (decodeString errs "State.id" m.2 acc.1.ID).1 },
      firstError acc.2 (decodeString errs "State.id" m.2 acc.1.ID).2)
  else if keyIs m.1 "noDirector" then
    ({ acc.1 with NoDirector := (decodeBool errs "State.noDirector" m.2 acc.1.NoDirector).1 },
      firstError acc.2 (decodeBool errs "State.noDirector" m.2 acc.1.NoDirector).2)
  else if keyIs m.1 "aws" then
    ({ acc.1 with AWS := (decodeAWS errs "State.aws" m.2 acc.1.AWS).1 },
      firstError acc.2 (decodeAWS errs "State.aws" m.2 acc.1.AWS).2)
  else if keyIs m.1 "azure" then
    ({ acc.1 with Azure := (decodeAzure errs "State.azure" m.2 acc.1.Azure).1 },
      firstError acc.2 (decodeAzure errs "State.azure" m.2 acc.1.Azure).2)
  else if keyIs m.1 "gcp" then
    ({ acc.1 with GCP := (decodeGCP errs "State.gcp" m.2 acc.1.GCP).1 },
      firstError acc.2 (decodeGCP errs "State.gcp" m.2 acc.1.GCP).2)
  else if keyIs m.1 "jumpbox" then
    ({ acc.1 with Jumpbox := (decodeJumpbox errs "State.jumpbox" m.2 acc.1.Jumpbox).1 },
      firstError acc.2 (decodeJumpbox errs "State.jumpbox" m.2 acc.1.Jumpbox).2)
  else if keyIs m.1 "bosh" then
    ({ acc.1 with BOSH := (decodeBOSH errs "State.bosh" m.2 acc.1.BOSH).1 },
      firstError acc.2 (decodeBOSH errs "State.bosh" m.2 acc.1.BOSH).2)
  else if keyIs m.1 "envID" then
    ({ acc.1 with EnvID := (decodeString errs "State.envID" m.2 acc.1.EnvID).1 },
      firstError acc.2 (decodeString errs "State.envID" m.2 acc.1.EnvID).2)
  else if keyIs m.1 "tfState" then
    ({ acc.1 with TFState := (decodeString errs "State.tfState" m.2 acc.1.TFState).1 },
      firstError acc.2 (decodeString errs "State.tfState" m.2 acc.1.TFState).2)
  else if keyIs m.1 "lb" then
    ({ acc.1 with LB := (decodeLB errs "State.lb" m.2 acc.1.LB).1 },
      firstError acc.2 (decodeLB errs "State.lb" m.2 acc.1.LB).2)
  else if keyIs m.1 "latestTFOutput" then
    ({ acc.1 with
        LatestTFOutput := (decodeString errs "State.latestTFOutput" m.2 acc.1.LatestTFOutput).1 },
      firstError acc.2 (decodeString errs "State.latestTFOutput" m.2 acc.1.LatestTFOutput).2)
  else acc

/-- A JSON value decoded into a `State`: the members of an object are decoded
in their order into the fields they name, `null` leaves the state as it is, and
any other value does not fit. -/
def decodeState (errs : JSONErrors) (v : JSON) (old : State) : State × Option GoError :=
  match v with
  | .null => (old, none)
  | .object members => members.foldl (State.setField errs) (old, none)
  | _ => (old, some (errs.mismatch v "State"))

/-- The value is a string, a number or a literal. -/
def JSON.isScalar : JSON → Bool
  | .array _ => false
  | .object _ => false
  | _ => true

/-- The method `Decode` of a `json.Decoder` on the contents of a file, for a
`State`: the first JSON value of the text is read and decoded into the state;
a string, a number or a literal that is the whole value has to be followed by
white space or the end of the text. -/
def jsonDecode (errs : JSONErrors) (file : String) (state : State) : State × Option GoError :=
  match parseValue file.data.length file.data with
  | none => (state, some (errs.invalid file))
  | some (v, rest) =>
    match rest with
    | c :: _ =>
      if v.isScalar = true ∧ isSpace c = false then (state, some (errs.invalid file))
      else decodeState errs v state
    | [] => decodeState errs v state

/-- The functions of the store as the program sets them up: `json.MarshalIndent`
and the decoder of `encoding/json`, for the toolchain given by `shortForms`,
with a UUID generator and the removals the operating system refuses. -/
def jsonEnv (shortForms : Bool) (errs : JSONErrors) (uuidNewV4 : Nat → Except GoError UUID)
    (removeDenied : String → String → Option String) : Env :=
  { marshalIndent := jsonMarshalIndent shortForms
    uuidNewV4 := uuidNewV4
    jsonDecode := jsonDecode errs
    removeDenied := removeDenied }

/-! ## Sample inputs -/

/-- Errors for the examples. -/
def sampleErrors : JSONErrors :=
  { invalid := fun _ => errorsNew "invalid character"
    mismatch := fun _ field => errorsNew ("json: cannot unmarshal into Go struct field " ++ field) }

/-- A UUID value for the examples. -/
def sampleUUID : UUID := ⟨[18, 52, 86, 120, 154, 188, 222, 240, 1, 35, 69, 103, 137, 171, 205, 239]⟩

/-- A marshaller for the examples: it renders the identifier, the version and
the IaaS name after the indent it is given. -/
def sampleMarshal (state : State) (pre indent : String) : Except GoError String :=
  .ok (pre ++ indent ++ state.ID ++ " " ++ toString state.Version ++ " " ++ state.IAAS)

/-- A decoder for the examples: the document `"\x7b\x7d"` leaves the target as
it is, a document that is one of a few version numbers sets the version and
the IaaS, anything else is a syntax error. -/
def sampleDecode (file : String) (state : State) : State × Option GoError :=
  if file = "\x7b\x7d" then (state, none)
  else if file = "2" then ({ state with Version := 2, IAAS := "gcp" }, none)
  else if file = "12" then ({ state with Version := 12, IAAS := "gcp" }, none)
  else if file = "13" then ({ state with Version := 13, IAAS := "gcp" }, none)
  else (state, some (errorsNew "invalid character"))

/-- The functions the examples run the store with. -/
def sampleEnv : Env :=
  { marshalIndent := sampleMarshal, uuidNewV4 := fun _ => .ok sampleUUID, jsonDecode := sampleDecode
    removeDenied := fun _ _ => none }

/-- The functions of `sampleEnv` with a directory `env` that may not be
written: the removal of its entries is refused. -/
def readOnlyEnv : Env :=
  { sampleEnv with
    removeDenied := fun d b =>
      if d = "env" then some ("remove env/" ++ b ++ ": permission denied") else none }

/-- A file system with the directory `env` and, in it, a state file holding
`data`. -/
def sampleFS (data : String) : FS :=
  { dirs := fun d => decide (d = "env")
    files := fun d b => if d = "env" ∧ b = StateFileName then some data else none }

/-- A file system with the directory `env` and nothing in it. -/
def emptyDirFS : FS :=
  { dirs := fun d => decide (d = "env"), files := fun _ _ => none }

/-- A state that holds Azure credentials and nothing else. -/
def azureState : State :=
  { State.zero with IAAS := "azure", Azure := ⟨"client", "s3cret", "subscription", "tenant"⟩ }

/-- A state that holds AWS and GCP credentials and an identifier. -/
def secretsState : State :=
  { State.zero with
    Version := 3, IAAS := "gcp", ID := "some-id"
    AWS := ⟨"key-id", "secret-key", "us-east-1"⟩
    GCP := ⟨"account-key", "project", "zone-a", "region", some ["zone-a", "zone-b"]⟩ }

/-- A state that holds an AWS access key and nothing else. -/
def keyOnlyState : State :=
  { State.zero with AWS := ⟨"key-id", "", ""⟩ }

/-- A state with its four redacted fields cleared. -/
def State.redact (state : State) : State :=
  { state with
    AWS := { state.AWS with AccessKeyID := "", SecretAccessKey := "" }
    GCP := { state.GCP with ServiceAccountKey := "", ProjectID := "" } }

/-- The state `secretsState` with other secrets. -/
def otherSecretsState : State :=
  { secretsState with
    AWS := ⟨"other-key-id", "other-secret-key", "us-east-1"⟩
    GCP := ⟨"other-account-key", "other-project", "zone-a", "region", some ["zone-a", "zone-b"]⟩ }

/-- A file system without any directory. -/
def noDirFS : FS :=
  { dirs := fun _ => false, files := fun _ _ => none }

end Storage

namespace CloudconfigGcp

open Storage

/-! ## The GCP cloud-config ops generator -/

/-- Modelled from the spec: `terraform.Outputs` is not among the sources; it
is a key lookup over the raw output map. -/
structure Outputs where
  Map : List (String × String)
deriving DecidableEq, Repr

/-- Modelled from the spec: the accessor `GetString` of `terraform.Outputs`;
a missing key yields the empty string. -/
def Outputs.GetString (o : Outputs) (key : String) : String :=
  (o.Map.lookup key).getD ""

/-- Modelled from the spec: `bosh.IP` is not among the sources; an IPv4
address held as a number, on which the offsets are plain arithmetic. -/
structure IP where
  ip : Int
deriving DecidableEq, Repr

/-- Modelled from the spec: the address `offset` places further. -/
def IP.Add (i : IP) (offset : Int) : IP := ⟨i.ip + offset⟩

/-- Modelled from the spec: the address `offset` places back. -/
def IP.Subtract (i : IP) (offset : Int) : IP := ⟨i.ip - offset⟩

/-- Modelled from the spec: the dotted-quad text of an address. -/
def IP.String (i : IP) : String :=
  toString (i.ip / 16777216 % 256) ++ "." ++ toString (i.ip / 65536 % 256) ++ "." ++
    toString (i.ip / 256 % 256) ++ "." ++ toString (i.ip % 256)

/-- Modelled from the spec: `bosh.CIDRBlock` is not among the sources; a block
is its first address and the number of addresses in it. -/
structure CIDRBlock where
  CIDRSize : Int
  firstIP : IP
deriving DecidableEq, Repr

/-- Modelled from the spec: the first address of a block. -/
def CIDRBlock.GetFirstIP (c : CIDRBlock) : IP := c.firstIP

/-- Modelled from the spec: the last address of a block. -/
def CIDRBlock.GetLastIP (c : CIDRBlock) : IP := c.firstIP.Add (c.CIDRSize - 1)

/-- The struct `azCloudProperties`. -/
structure azCloudProperties where
  AvailabilityZone : String
deriving DecidableEq, Repr

/-- The struct `az`. -/
structure az where
  Name : String
  CloudProperties : azCloudProperties
deriving DecidableEq, Repr

/-- The struct `subnetCloudProperties`. -/
structure subnetCloudProperties where
  EphemeralExternalIP : Bool
  NetworkName : String
  SubnetworkName : String
  Tags : List String
deriving DecidableEq, Repr

/-- The struct `networkSubnet`. -/
structure networkSubnet where
  AZ : String
  Gateway : String
  Range : String
  Reserved : List String
  Static : List String
  CloudProperties : subnetCloudProperties
deriving DecidableEq, Repr

/-- The struct `network`. -/
structure network where
  Name : String
  Subnets : List networkSubnet
  Type_ : String
deriving DecidableEq, Repr

/-- The struct `lbCloudProperties`. -/
structure lbCloudProperties where
  BackendService : String
  TargetPool : String
  Tags : List String
deriving DecidableEq, Repr

/-- The struct `lb`. -/
structure lb where
  Name : String
  CloudProperties : lbCloudProperties
deriving DecidableEq, Repr

/-- The values an op carries (`interface{}` in the source): an availability
zone, a network or a load-balancer extension. -/
inductive OpValue where
  | ofAz (v : az)
  | ofNetwork (v : network)
  | ofLb (v : lb)
deriving DecidableEq, Repr

/-- The `Name` field of the value an op carries. -/
def OpValue.Name : OpValue → String
  | .ofAz v => v.Name
  | .ofNetwork v => v.Name
  | .ofLb v => v.Name

/-- The struct `op`. -/
structure op where
  Type_ : String
  Path : String
  Value : OpValue
deriving DecidableEq, Repr

/-- The function `createOp`. -/
def createOp (opType opPath : String) (value : OpValue) : op :=
  { Type_ := opType, Path := opPath, Value := value }

/-- The function `generateNetworkSubnet`; `ParseCIDRBlock` is the parser of
package `bosh`, which is not among the sources. -/
def generateNetworkSubnet (ParseCIDRBlock : String → Except GoError CIDRBlock)
    (az cidr networkName subnetworkName internalTag : String) : Except GoError networkSubnet :=
  match ParseCIDRBlock cidr with
  | .error err => .error err
  | .ok parsedCidr =>
    let gateway := (parsedCidr.GetFirstIP.Add 1).String
    let firstReserved := (parsedCidr.GetFirstIP.Add 2).String
    let secondReserved := (parsedCidr.GetFirstIP.Add 3).String
    let lastReserved := parsedCidr.GetLastIP.String
    let lastStatic := (parsedCidr.GetLastIP.Subtract 1).String
    let firstStatic := (parsedCidr.GetLastIP.Subtract 65).String
    .ok {
      AZ := az
      Gateway := gateway
      Range := cidr
      Reserved := [firstReserved ++ "-" ++ secondReserved, lastReserved]
      Static := [firstStatic ++ "-" ++ lastStatic]
      CloudProperties := {
        EphemeralExternalIP := true
        NetworkName := networkName
        SubnetworkName := subnetworkName
        Tags := [internalTag] } }

/-- The first loop of `generateGCPOps`, from index `i` on: one op per zone. -/
def azOpsLoop : List String → Nat → List op → List op
  | [], _, ops => ops
  | zone :: rest, i, ops =>
    azOpsLoop rest (i + 1)
      (ops ++ [createOp "replace" "/azs/-"
        (.ofAz { Name := "z" ++ toString (i + 1), CloudProperties := { AvailabilityZone := zone } })])

/-- The second loop of `generateGCPOps`, from index `i` on: one subnet per
zone, stopping at the first subnet that cannot be generated. -/
def subnetsLoop (ParseCIDRBlock : String → Except GoError CIDRBlock) (terraformOutputs : Outputs) :
    List String → Nat → List networkSubnet → Except GoError (List networkSubnet)
  | [], _, subnets => .ok subnets
  | _ :: rest, i, subnets =>
    let cidr := "10.0." ++ toString (16 * (i + 1)) ++ ".0/20"
    match generateNetworkSubnet ParseCIDRBlock ("z" ++ toString (i + 1)) cidr
        (terraformOutputs.GetString "network_name")
        (terraformOutputs.GetString "subnetwork_name")
        (terraformOutputs.GetString "internal_tag_name") with
    | .error err => .error (fmtErrorf "Generating network subnet: " err)
    | .ok subnet => subnetsLoop ParseCIDRBlock terraformOutputs rest (i + 1) (subnets ++ [subnet])

/-- The struct `OpsGenerator`: its Terraform manager is the function behind
`GetOutputs`. -/
structure OpsGenerator where
  terraformManager : State → Except GoError Outputs

/-- The method `OpsGenerator.generateGCPOps`. -/
def OpsGenerator.generateGCPOps (ParseCIDRBlock : String → Except GoError CIDRBlock)
    (o : OpsGenerator) (state : State) : List op × Option GoError :=
  match o.terraformManager state with
  | .error err => ([], some err)
  | .ok terraformOutputs =>
    let zones := state.GCP.Zones.getD []
    let ops := azOpsLoop zones 0 []
    match subnetsLoop ParseCIDRBlock terraformOutputs zones 0 [] with
    | .error err => ([], some err)
    | .ok subnets =>
      let ops := ops ++ [createOp "replace" "/networks/-"
        (.ofNetwork { Name := "private", Subnets := subnets, Type_ := "manual" })]
      let ops := ops ++ [createOp "replace" "/networks/-"
        (.ofNetwork { Name := "default", Subnets := subnets, Type_ := "manual" })]
      let ops :=
        if state.LB.Type_ = "concourse" then
          ops ++ [createOp "replace" "/vm_extensions/-" (.ofLb {
            Name := "lb"
            CloudProperties := {
              BackendService := ""
              TargetPool := terraformOutputs.GetString "concourse_target_pool"
              Tags := [] } })]
        else ops
      let ops :=
        if state.LB.Type_ = "cf" then
          let ops := ops ++ [createOp "replace" "/vm_extensions/-" (.ofLb {
            Name := "cf-router-network-properties"
            CloudProperties := {
              BackendService := terraformOutputs.GetString "router_backend_service"
              TargetPool := terraformOutputs.GetString "ws_target_pool"
              Tags := [terraformOutputs.GetString "router_backend_service",
                terraformOutputs.GetString "ws_target_pool"] } })]
          let ops := ops ++ [createOp "replace" "/vm_extensions/-" (.ofLb {
            Name := "diego-ssh-proxy-network-properties"
            CloudProperties := {
              BackendService := ""
              TargetPool := terraformOutputs.GetString "ssh_proxy_target_pool"
              Tags := [terraformOutputs.GetString "ssh_proxy_target_pool"] } })]
          let ops := ops ++ [createOp "replace" "/vm_extensions/-" (.ofLb {
            Name := "cf-tcp-router-network-properties"
            CloudProperties := {
              BackendService := ""
              TargetPool := terraformOutputs.GetString "tcp_router_target_pool"
              Tags := [terraformOutputs.GetString "tcp_router_target_pool"] } })]
          ops ++ [createOp "replace" "/vm_extensions/-" (.ofLb {
            Name := "credhub-network-properties"
            CloudProperties := {
              BackendService := ""
              TargetPool := terraformOutputs.GetString "credhub_target_pool"
              Tags := [terraformOutputs.GetString "credhub_target_pool"] } })]
        else ops
      (ops, none)

/-- The method `OpsGenerator.Generate`; `marshal` is the package-level
variable of that name (YAML), `BaseOps` the constant of the package, which is
not among the sources. -/
def OpsGenerator.Generate (marshal : List op → Except GoError String) (BaseOps : String)
    (ParseCIDRBlock : String → Except GoError CIDRBlock)
    (o : OpsGenerator) (state : State) : String × Option GoError :=
  match o.generateGCPOps ParseCIDRBlock state with
  | (_, some err) => ("", some err)
  | (ops, none) =>
    match marshal ops with
    | .error err => ("", some err)
    | .ok cloudConfigOpsYAML => (BaseOps ++ "\n" ++ cloudConfigOpsYAML, none)

/-! ### A parser of CIDR blocks -/

/-- Modelled from the spec: part of the parser of package `bosh`, which is not
among the sources; the pieces of a text between the occurrences of a
separator. -/
def splitOnChar (sep : Char) : List Char → List (List Char)
  | [] => [[]]
  | c :: cs =>
    if c = sep then [] :: splitOnChar sep cs
    else
      match splitOnChar sep cs with
      | [] => [[c]]
      | piece :: pieces => (c :: piece) :: pieces

/-- Modelled from the spec: part of the parser of package `bosh`, which is not
among the sources; the number a non-empty run of decimal digits writes. -/
def parseDigits (cs : List Char) : Option Nat :=
  if cs ≠ [] ∧ cs.all Char.isDigit = true then
    some (cs.foldl (fun n c => 10 * n + (c.toNat - 48)) 0)
  else none

/-- Modelled from the spec: `bosh.ParseIP` is not among the sources; a dotted
quad of four numbers below 256 is the address they write in base 256. -/
def ParseIP (ip : String) : Except GoError IP :=
  match (splitOnChar '.' ip.data).map parseDigits with
  | [some a, some b, some c, some d] =>
    if a < 256 ∧ b < 256 ∧ c < 256 ∧ d < 256 then
      .ok ⟨(((a * 256 + b) * 256 + c) * 256 + d : Nat)⟩
    else .error (errorsNew ("invalid ip, " ++ ip ++ " has values out of range"))
  | _ => .error (errorsNew (ip ++ " is not a valid ip address"))

/-- Modelled from the spec: `bosh.ParseCIDRBlock` is not among the sources; a
block is written as an address, a slash and a number of mask bits from 0 to
32, and holds two to the power of 32 minus the mask bits addresses from that
address on. -/
def ParseCIDRBlock (cidrBlock : String) : Except GoError CIDRBlock :=
  match splitOnChar '/' cidrBlock.data with
  | [ip, bits] =>
    match ParseIP (String.mk ip) with
    | .error err => .error err
    | .ok first =>
      match parseDigits bits with
      | none => .error (errorsNew (cidrBlock ++ " cannot parse CIDR block"))
      | some maskBits =>
        if maskBits ≤ 32 then .ok ⟨(2 ^ (32 - maskBits) : Nat), first⟩
        else .error (errorsNew "mask bits out of range")
  | _ => .error (errorsNew (cidrBlock ++ " cannot parse CIDR block"))

/-- The ops of a list whose path is the one of the networks. -/
def networkOps (ops : List op) : List op := ops.filter (fun o => o.Path = "/networks/-")

/-- The op the first loop makes for the zone at index `i`. -/
def azOp (i : Nat) (zone : String) : op :=
  createOp "replace" "/azs/-"
    (.ofAz { Name := "z" ++ toString (i + 1), CloudProperties := { AvailabilityZone := zone } })

/-- The op for the network of a name, with its subnets. -/
def networkOp (name : String) (subnets : List networkSubnet) : op :=
  createOp "replace" "/networks/-" (.ofNetwork { Name := name, Subnets := subnets, Type_ := "manual" })

/-- A generator for the examples whose Terraform manager fails. -/
def failingGenerator : OpsGenerator :=
  { terraformManager := fun _ => .error (errorsNew "failed to get outputs") }

/-- A YAML marshaller for the examples: it lists the names of the ops. -/
def sampleMarshalOps (ops : List op) : Except GoError String :=
  .ok (String.intercalate "," (ops.map (fun x => x.Value.Name)))

/-- A state with as many zones as asked, all called `zone`. -/
def manyZonesState (n : Nat) : State :=
  { State.zero with IAAS := "gcp", GCP := ⟨"", "", "zone", "region", some (List.replicate n "zone")⟩ }

/-- A parser for the examples: it knows the blocks of the first two zones. -/
def sampleParseCIDRBlock (cidr : String) : Except GoError CIDRBlock :=
  if cidr = "10.0.16.0/20" then .ok ⟨4096, ⟨167776256⟩⟩
  else if cidr = "10.0.32.0/20" then .ok ⟨4096, ⟨167780352⟩⟩
  else .error (errorsNew "cannot parse CIDR block")

/-- A generator for the examples, whose Terraform manager returns a few
outputs. -/
def sampleGenerator : OpsGenerator :=
  { terraformManager := fun _ => .ok ⟨[("network_name", "some-network"),
      ("subnetwork_name", "some-subnet"), ("internal_tag_name", "some-tag"),
      ("concourse_target_pool", "concourse-pool"), ("router_backend_service", "router-backend"),
      ("ws_target_pool", "ws-pool")]⟩ }

/-- A state with two zones and the load balancer type given. -/
def zonesState (lbType : String) : State :=
  { State.zero with
    IAAS := "gcp"
    GCP := ⟨"", "", "zone-a", "region", some ["zone-a", "zone-b"]⟩
    LB := ⟨lbType, "", "", ""⟩ }

/-- The ops of a list whose path is the one of the vm extensions. -/
def vmExtensionOps (ops : List op) : List op := ops.filter (fun o => o.Path = "/vm_extensions/-")

end CloudconfigGcp

namespace TerraformGcp

open Storage

/-! ## The GCP Terraform input generator -/

/-- A Go `map[string]string`, as the list of its entries. -/
abbrev StringMap := List (String × String)

/-- The assignment `m[key] = value`. -/
def StringMap.set (m : StringMap) (key value : String) : StringMap :=
  if m.any (fun p => p.1 = key) then m.map (fun p => if p.1 = key then (key, value) else p)
  else m ++ [(key, value)]

/-- The JSON text of a string, as `encoding/json` writes it. -/
def jsonString (shortForms : Bool) (s : String) : String :=
  String.mk (jsonQuote shortForms s.data)

/-- The result of `json.Marshal` on a slice of strings: the JSON array of the
strings in order. It has no failing case. -/
def jsonMarshal (shortForms : Bool) (azs : List String) : Except GoError String :=
  .ok ("[" ++ String.intercalate "," (azs.map (jsonString shortForms)) ++ "]")

/-- The package-level variables `tempDir` (directory, prefix) and `writeFile`
of the generator, and the `encoding/json` of the toolchain: whether it writes
a backspace and a form feed in their short forms, as `jsonEscape` has it. -/
structure Env where
  tempDir : FS → String → String → FS × Except GoError String
  writeFile : FS → Path → String → FS × Option GoError
  shortForms : Bool

/-- The struct `InputGenerator`: its zone retriever is the function behind
`GetZones`. -/
structure InputGenerator where
  gcpAvailabilityZoneRetriever : String → Except GoError (List String)

/-- The method `InputGenerator.Generate`. What it prints to standard output is
left out. -/
def InputGenerator.Generate (env : Env) (i : InputGenerator) (state : State) (fs : FS) :
    FS × StringMap × Option GoError :=
  match i.gcpAvailabilityZoneRetriever state.GCP.Region with
  | .error err => (fs, [], some (fmtErrorf "Retrieving availability zones: " err))
  | .ok azs =>
    if azs.length = 0 then (fs, [], some (errorsNew "Zone list is empty"))
    else
      match jsonMarshal env.shortForms azs with
      | .error err => (fs, [], some err)
      | .ok zones =>
        match env.tempDir fs "" "" with
        | (fs1, .error err) => (fs1, [], some err)
        | (fs1, .ok dir) =>
          let credentialsPath := filepathJoin dir "credentials.json"
          match env.writeFile fs1 credentialsPath state.GCP.ServiceAccountKey with
          | (fs2, some err) => (fs2, [], some err)
          | (fs2, none) =>
            let input : StringMap := [
              ("env_id", state.EnvID),
              ("project_id", state.GCP.ProjectID),
              ("region", state.GCP.Region),
              ("zone", azs.headD ""),
              ("availability_zones", zones),
              ("credentials", credentialsPath.toString),
              ("system_domain", state.LB.Domain)]
            if state.LB.Cert ≠ "" ∧ state.LB.Key ≠ "" then
              let certPath := filepathJoin dir "cert"
              match env.writeFile fs2 certPath state.LB.Cert with
              | (fs3, some err) => (fs3, [], some err)
              | (fs3, none) =>
                let input := input.set "ssl_certificate" certPath.toString
                let keyPath := filepathJoin dir "key"
                match env.writeFile fs3 keyPath state.LB.Key with
                | (fs4, some err) => (fs4, [], some err)
                | (fs4, none) =>
                  let input := input.set "ssl_certificate_private_key" keyPath.toString
                  (fs4, input, none)
            else (fs2, input, none)

/-- Temp-dir creation and the file writes of `Generate` succeed, for the state
and the file system it starts from. -/
def IOSucceeds (env : Env) (state : State) (fs : FS) : Prop :=
  ∃ fs1 dir, env.tempDir fs "" "" = (fs1, .ok dir) ∧
    ∃ fs2, env.writeFile fs1 (filepathJoin dir "credentials.json") state.GCP.ServiceAccountKey =
        (fs2, none) ∧
      (state.LB.Cert ≠ "" ∧ state.LB.Key ≠ "" →
        ∃ fs3, env.writeFile fs2 (filepathJoin dir "cert") state.LB.Cert = (fs3, none) ∧
          ∃ fs4, env.writeFile fs3 (filepathJoin dir "key") state.LB.Key = (fs4, none))

/-- A `tempDir` for the examples: it makes the directory `/tmp/bbl-1`. -/
def sampleTempDir (fs : FS) (_dir _pre : String) : FS × Except GoError String :=
  ({ fs with dirs := fun d => decide (d = "/tmp/bbl-1") || fs.dirs d }, .ok "/tmp/bbl-1")

/-- The variables the examples run the generator with: `sampleTempDir` and
`ioutil.WriteFile`. -/
def sampleEnv : Env :=
  { tempDir := sampleTempDir, writeFile := ioutilWriteFile, shortForms := false }

/-- A generator for the examples whose retriever returns the zones given. -/
def zonesGenerator (azs : List String) : InputGenerator :=
  { gcpAvailabilityZoneRetriever := fun _ => .ok azs }

/-- A generator for the examples whose retriever fails. -/
def failingZonesGenerator : InputGenerator :=
  { gcpAvailabilityZoneRetriever := fun _ => .error (errorsNew "failed to get zones") }

/-- A state for the examples, with a certificate and a key when asked. -/
def inputState (cert key : String) : State :=
  { State.zero with
    IAAS := "gcp", EnvID := "some-env"
    GCP := ⟨"some-key", "some-project", "zone-a", "some-region", none⟩
    LB := ⟨"cf", cert, key, "example.com"⟩ }

end TerraformGcp

namespace Bosh

open Storage

/-! ## The BOSH executor

The executor itself is not among the sources; its tests, and `main.go`, which
builds it with `ioutil.ReadFile` and `ioutil.WriteFile`, are. -/

/-- The interface the executor runs the bosh command through, as the tests
fake it: `Run` (working directory, arguments) gives what the command writes to
standard output and its error, `GetBOSHPath` the path of the binary. -/
structure BOSHCommand where
  Run : String → List String → String × Option GoError
  GetBOSHPath : String

/-- What the executor acts on: the file system, the environment variable
`BBL_STATE_DIR`, and the calls of `BOSHCommand.Run` made so far, each with its
working directory and arguments. -/
structure World where
  fs : FS
  stateDirEnv : Option String
  runs : List (String × List String)

/-- The struct `Executor`: the command, how the operating system runs a script
(script, value of `BBL_STATE_DIR`; it gives the file system the script leaves
and the error of the process), and the ops overlays of the director for an
IaaS other than Azure, which the spec leaves open. -/
structure Executor where
  command : BOSHCommand
  runScript : FS → Path → String → FS × Option GoError
  directorOverlays : String → List String

/-- The struct `InterpolateInput`, with the fields the tests set. -/
structure InterpolateInput where
  IAAS : String
  DeploymentDir : String
  VarsDir : String
  StateDir : String
  BOSHState : String
  Variables : String
  OpsFile : String
  DeploymentVars : String

/-- The struct `CreateEnvInput`. -/
structure CreateEnvInput where
  Deployment : String
  StateDir : String
  VarsDir : String

/-- The struct `DeleteEnvInput`. -/
structure DeleteEnvInput where
  Deployment : String
  StateDir : String
  VarsDir : String

/-- The errors the executor returns: a plain error, or a `BOSHVersionError`
around one. -/
inductive ExecutorError where
  | plain (err : GoError)
  | BOSHVersionError (err : GoError)
deriving DecidableEq, Repr

/-- The loop of `formatScript`: an argument that starts with a dash goes on
the line of the next one. -/
def formatArgs : List String → String → String
  | [], script => script
  | arg :: args, script =>
    if arg.data.head? = some '-' then formatArgs args (script ++ "  " ++ arg)
    else formatArgs args (script ++ "  " ++ arg ++ " \\\n")

/-- The function `formatScript` of the tests, with the path of the binary the
command gives: the script the executor writes for a bosh command and its
arguments. -/
def formatScript (boshPath command : String) (args : List String) : String :=
  (formatArgs args ("#!/bin/sh\n" ++ boshPath ++ " " ++ command ++ " \\\n")).dropRight 2 ++ "\n"

/-- The arguments the tests expect for a deployment: the manifest, the state,
the vars store and the vars file, then the ops overlays. -/
def createEnvArgs (manifest stateFile varsStore varsFile : String) (overlays : List String) :
    List String :=
  ["${BBL_STATE_DIR}/deployment/" ++ manifest,
    "--state", "${BBL_STATE_DIR}/vars/" ++ stateFile,
    "--vars-store", "${BBL_STATE_DIR}/vars/" ++ varsStore,
    "--vars-file", "${BBL_STATE_DIR}/vars/" ++ varsFile] ++
  (overlays.map (fun o => ["-o", o])).flatten

/-- Modelled from the spec: the executor is not among the sources. A script is
written under its name in the state directory unless a file of that name is
there already, which is then left untouched. -/
def writeScript (fs : FS) (p : Path) (script : String) : FS × Option GoError :=
  match fs.read p with
  | some _ => (fs, none)
  | none => ioutilWriteFile fs p script

/-- Modelled from the spec: the executor is not among the sources. The
create-env and the delete-env script of a deployment are written, in that
order, each unless it exists. -/
def writeScripts (e : Executor) (deployment stateDir : String) (args : List String) (w : World) :
    World × Option GoError :=
  match writeScript w.fs (filepathJoin stateDir ("create-" ++ deployment ++ ".sh"))
      (formatScript e.command.GetBOSHPath "create-env" args) with
  | (fs1, some err) => ({ w with fs := fs1 }, some err)
  | (fs1, none) =>
    match writeScript fs1 (filepathJoin stateDir ("delete-" ++ deployment ++ ".sh"))
        (formatScript e.command.GetBOSHPath "delete-env" args) with
    | (fs2, some err) => ({ w with fs := fs2 }, some err)
    | (fs2, none) => ({ w with fs := fs2 }, none)

/-- Modelled from the spec: `Executor.JumpboxCreateEnvArgs` is not among the
sources. It builds the arguments the tests expect for the jumpbox and writes
the two scripts of the deployment `jumpbox`. -/
def Executor.JumpboxCreateEnvArgs (e : Executor) (input : InterpolateInput) (w : World) :
    World × Option GoError :=
  writeScripts e "jumpbox" input.StateDir
    (createEnvArgs "jumpbox.yml" "jumpbox-state.json" "jumpbox-variables.yml"
      "jumpbox-deployment-vars.yml" ["${BBL_STATE_DIR}/deployment/cpi.yml"]) w

/-- Modelled from the spec: `Executor.DirectorCreateEnvArgs` is not among the
sources. It builds the arguments for the director, with the overlays the tests
expect for Azure, and writes the two scripts of the deployment `director`. -/
def Executor.DirectorCreateEnvArgs (e : Executor) (input : InterpolateInput) (w : World) :
    World × Option GoError :=
  writeScripts e "director" input.StateDir
    (createEnvArgs "bosh.yml" "bosh-state.json" "director-variables.yml"
      "director-deployment-vars.yml"
      (if input.IAAS = "azure" then
        ["${BBL_STATE_DIR}/deployment/cpi.yml", "${BBL_STATE_DIR}/deployment/jumpbox-user.yml",
          "${BBL_STATE_DIR}/deployment/uaa.yml", "${BBL_STATE_DIR}/deployment/credhub.yml",
          "${BBL_STATE_DIR}/vars/user-ops-file.yml"]
      else e.directorOverlays input.IAAS)) w

/-- The error of a process that exits with a status other than zero, as
`os/exec` words it. -/
def exitStatus (status : Nat) : GoError := errorsNew ("exit status " ++ toString status)

/-- Modelled from the spec: `Executor.CreateEnv` is not among the sources. It
sets `BBL_STATE_DIR` to the state directory, runs the create-env script of the
deployment, wraps the error of a failed run with the name of the operation,
and otherwise returns the contents of the vars store of the deployment. -/
def Executor.CreateEnv (e : Executor) (input : CreateEnvInput) (w : World) :
    World × String × Option GoError :=
  let w := { w with stateDirEnv := some input.StateDir }
  match e.runScript w.fs (filepathJoin input.StateDir ("create-" ++ input.Deployment ++ ".sh"))
      input.StateDir with
  | (fs1, some err) => ({ w with fs := fs1 }, "", some (fmtErrorf "Run bosh create-env: " err))
  | (fs1, none) =>
    match osOpen fs1 (filepathJoin input.VarsDir (input.Deployment ++ "-variables.yml")) with
    | .error err => ({ w with fs := fs1 }, "", some err)
    | .ok varsStore => ({ w with fs := fs1 }, varsStore, none)

/-- Modelled from the spec: `Executor.DeleteEnv` is not among the sources. It
sets `BBL_STATE_DIR` to the state directory, runs the delete-env script of the
deployment and wraps the error of a failed run with the name of the
operation. -/
def Executor.DeleteEnv (e : Executor) (input : DeleteEnvInput) (w : World) :
    World × Option GoError :=
  let w := { w with stateDirEnv := some input.StateDir }
  match e.runScript w.fs (filepathJoin input.StateDir ("delete-" ++ input.Deployment ++ ".sh"))
      input.StateDir with
  | (fs1, some err) => ({ w with fs := fs1 }, some (fmtErrorf "Run bosh delete-env: " err))
  | (fs1, none) => ({ w with fs := fs1 }, none)

/-- Modelled from the spec: part of `Executor.Version`, which is not among the
sources; a semantic version token at the start of a text: digits, a dot,
digits, a dot, digits, each run of digits as long as it can be. -/
def matchVersion (cs : List Char) : Option (List Char) :=
  match cs.span Char.isDigit with
  | ([], _) => none
  | (major, '.' :: cs1) =>
    match cs1.span Char.isDigit with
    | ([], _) => none
    | (minor, '.' :: cs2) =>
      match cs2.span Char.isDigit with
      | ([], _) => none
      | (patch, _) => some (major ++ '.' :: minor ++ '.' :: patch)
    | _ => none
  | _ => none

/-- Modelled from the spec: part of `Executor.Version`, which is not among the
sources; the first semantic version token of a text, from the left. -/
def findVersion : List Char → Option (List Char)
  | [] => none
  | c :: cs =>
    match matchVersion (c :: cs) with
    | some version => some version
    | none => findVersion cs

/-- Modelled from the spec: `Executor.Version` is not among the sources. It
runs the bosh command with the one argument `-v` and returns the first
semantic version token of what it prints; without such a token the error is a
`BOSHVersionError`, and the error of the command is returned as it is. -/
def Executor.Version (e : Executor) (w : World) : World × String × Option ExecutorError :=
  let args := ["-v"]
  let w := { w with runs := w.runs ++ [("", args)] }
  match e.command.Run "" args with
  | (_, some err) => (w, "", some (.plain err))
  | (versionOutput, none) =>
    match findVersion versionOutput.data with
    | none => (w, "", some (.BOSHVersionError (errorsNew "BOSH version could not be parsed")))
    | some version => (w, String.mk version, none)

/-- A command for the examples that prints the text given. -/
def printingCommand (out : String) : BOSHCommand :=
  { Run := fun _ _ => (out, none), GetBOSHPath := "bosh-path" }

/-- A command for the examples that fails. -/
def failingCommand : BOSHCommand :=
  { Run := fun _ _ => ("", some (errorsNew "failed to run cmd")), GetBOSHPath := "bosh-path" }

/-- An executor for the examples: scripts exit with the status given, and
leave the file system as it is. -/
def sampleExecutor (command : BOSHCommand) (status : Nat) : Executor :=
  { command := command
    runScript := fun fs _ _ => (fs, if status = 0 then none else some (exitStatus status))
    directorOverlays := fun _ => ["${BBL_STATE_DIR}/deployment/cpi.yml"] }

/-- A file system for the examples with the directory `state` and one file in
it. -/
def stateDirFS (name data : String) : FS :=
  { dirs := fun d => decide (d = "state")
    files := fun d b => if d = "state" ∧ b = name then some data else none }

/-- An interpolate input for the examples, for the state directory `state`. -/
def sampleInput (iaas : String) : InterpolateInput :=
  { IAAS := iaas, DeploymentDir := "state/deployment", VarsDir := "state/vars",
    StateDir := "state", BOSHState := "", Variables := "key: value", OpsFile := "some-ops-file",
    DeploymentVars := "internal_cidr: 10.0.0.0/24" }

end Bosh

namespace Cloudconfig

open Storage Bosh

/-! ## The cloud-config manager

The manager itself is not among the sources; its tests are. -/

/-- The struct `Manager`, with what `Generate` uses: the bosh command, the
state store (`GetCloudConfigDir`, which may make the directory), the ops
generator, the package-level variable `writeFile` that the tests replace, and
the fixed base cloud config. -/
structure Manager where
  command : BOSHCommand
  GetCloudConfigDir : FS → FS × Except GoError String
  opsGenerator : State → Except GoError String
  writeFile : FS → Path → String → FS × Option GoError
  BaseCloudConfig : String

/-- Modelled from the spec: part of `Manager.Generate`, which is not among the
sources; the arguments of the interpolation in a directory, as the tests
expect them. -/
def interpolateArgs (dir : String) : List String :=
  ["interpolate", dir ++ "/cloud-config.yml", "-o", dir ++ "/ops.yml"]

/-- Modelled from the spec: `Manager.Generate` is not among the sources. It
gets the cloud-config directory, writes the base cloud config to
`cloud-config.yml` and the ops of the generator to `ops.yml` in it, runs the
bosh command once in that directory to interpolate the two, and returns what
the command printed; the first error ends it and is returned as it is. -/
def Manager.Generate (m : Manager) (state : State) (w : Bosh.World) :
    Bosh.World × String × Option GoError :=
  match m.GetCloudConfigDir w.fs with
  | (fs1, .error err) => ({ w with fs := fs1 }, "", some err)
  | (fs1, .ok dir) =>
    match m.writeFile fs1 (filepathJoin dir "cloud-config.yml") m.BaseCloudConfig with
    | (fs2, some err) => ({ w with fs := fs2 }, "", some err)
    | (fs2, none) =>
      match m.opsGenerator state with
      | .error err => ({ w with fs := fs2 }, "", some err)
      | .ok ops =>
        match m.writeFile fs2 (filepathJoin dir "ops.yml") ops with
        | (fs3, some err) => ({ w with fs := fs3 }, "", some err)
        | (fs3, none) =>
          match m.command.Run dir (interpolateArgs dir) with
          | (_, some err) =>
            ({ w with fs := fs3, runs := w.runs ++ [(dir, interpolateArgs dir)] }, "", some err)
          | (cloudConfig, none) =>
            ({ w with fs := fs3, runs := w.runs ++ [(dir, interpolateArgs dir)] }, cloudConfig, none)

/-- A manager for the examples, as the tests set it up: the directory
`state` is the cloud-config directory, the ops are `some-ops` and the command
prints `some-cloud-config`. -/
def sampleManager : Manager :=
  { command := printingCommand "some-cloud-config"
    GetCloudConfigDir := fun fs => (fs, .ok "state")
    opsGenerator := fun _ => .ok "some-ops"
    writeFile := ioutilWriteFile
    BaseCloudConfig := "azs: []" }

end Cloudconfig

namespace Unsupported

open Storage

/-! ## The command that creates the AWS keypair of the director

`commands/unsupported/create_bosh_aws_keypair.go`. The packages `aws`, `ec2`,
`commands` and `state` it imports are not among the sources. -/

/-- A Go `error` of this command: the value `ec2.KeyPairNotFound`, which the
command compares errors with, or any other error, with its message. -/
inductive Error where
  | KeyPairNotFound
  | other (msg : String)
deriving DecidableEq, Repr

/-- The struct `aws.Config`, with the fields the command sets. -/
structure Config where
  AccessKeyID : String
  SecretAccessKey : String
  Region : String
  EndpointOverride : String
deriving DecidableEq, Repr

/-- Modelled from the spec: `ec2.Session` is not among the sources; a session
is told from another by a name. -/
structure Session where
  name : String
deriving DecidableEq, Repr

/-- The struct `ec2.KeyPairInfo`, with the fields the command reads. -/
structure KeyPairInfo where
  Name : String
  Fingerprint : String
deriving DecidableEq, Repr

/-- The struct `ec2.Keypair`; the byte slices are strings. -/
structure Keypair where
  Name : String
  PrivateKey : String
  PublicKey : String
deriving DecidableEq, Repr

/-- The struct `state.KeyPair`. -/
structure KeyPair where
  Name : String
  PrivateKey : String
  PublicKey : String
deriving DecidableEq, Repr

/-- The struct `state.AWS`, with the fields the command reads. -/
structure AWS where
  AccessKeyID : String
  SecretAccessKey : String
  Region : String
deriving DecidableEq, Repr

/-- Modelled from the spec: `state.State` is not among the sources; it has the
AWS settings and the pointer to the keypair that the command uses, and `Other`
stands for all its remaining fields. -/
structure State where
  AWS : AWS
  KeyPair : Option KeyPair
  Other : String
deriving DecidableEq, Repr

/-- The struct `commands.GlobalFlags`, with the fields the command reads. -/
structure GlobalFlags where
  StateDir : String
  EndpointOverride : String
deriving DecidableEq, Repr

/-- An RSA private key, as far as the command looks at it: its public key. -/
structure RSAPrivateKey where
  Public : String
deriving DecidableEq, Repr

/-- The library functions `verifyFingerprint` calls: `pem.Decode` (the bytes
of the first block, if there is one), `x509.ParsePKCS1PrivateKey`,
`x509.MarshalPKIXPublicKey` and `md5.Sum`. -/
structure Crypto where
  pemDecode : String → Option String
  ParsePKCS1PrivateKey : String → Except Error RSAPrivateKey
  MarshalPKIXPublicKey : String → Except Error String
  md5Sum : String → List Nat

/-- The struct `CreateBoshAWSKeypair`: the functions behind its five
interfaces. -/
structure CreateBoshAWSKeypair where
  retriever : Session → String → Except Error KeyPairInfo
  generator : Except Error Keypair
  uploader : Session → Keypair → Option Error
  provider : Config → Except Error Session
  storeSet : String → State → Option Error
  storeGet : String → Except Error State

/-- The calls a run makes: how often the generator was called, what was
uploaded in which session, and which states were set for which directory. -/
structure Trace where
  generated : Nat
  uploads : List (Session × Keypair)
  sets : List (String × State)
deriving DecidableEq, Repr

/-- A run without calls. -/
def Trace.empty : Trace := ⟨0, [], []⟩

/-- The message for a key that is not PEM. -/
def notPEMMsg : String :=
  "the local keypair does not contain a valid PEM encoded private key, please open an issue at https://github.com/pivotal-cf-experimental/bosh-bootloader/issues/new if you require assistance."

/-- The message for a key that is not an RSA key. -/
def notRSAMsg : String :=
  "the local keypair does not contain a valid rsa private key, please open an issue at https://github.com/pivotal-cf-experimental/bosh-bootloader/issues/new if you require assistance."

/-- The message for a fingerprint that does not match. -/
def mismatchMsg : String :=
  "the local keypair fingerprint does not match the keypair fingerprint on AWS, please open an issue at https://github.com/pivotal-cf-experimental/bosh-bootloader/issues/new if you require assistance."

/-- The fingerprint `verifyFingerprint` makes of a checksum: each byte as two
hexadecimal digits behind a colon, without the first colon. -/
def fingerprintOf (sum : List Nat) : String :=
  let fingerprint := sum.foldl (fun fingerprint c => fingerprint ++ ":" ++ hexByte c) ""
  if fingerprint.data.head? = some ':' then String.mk (fingerprint.data.drop 1) else fingerprint

/-- The function `verifyFingerprint`. -/
def verifyFingerprint (crypto : Crypto) (awsFingerprint privateKeyPem : String) :
    Bool × Option Error :=
  match crypto.pemDecode privateKeyPem with
  | none => (false, some (.other notPEMMsg))
  | some pemBytes =>
    match crypto.ParsePKCS1PrivateKey pemBytes with
    | .error _ => (false, some (.other notRSAMsg))
    | .ok privateKey =>
      match crypto.MarshalPKIXPublicKey privateKey.Public with
      | .error err => (false, some err)
      | .ok pkeyBytes =>
        let fingerprint := fingerprintOf (crypto.md5Sum pkeyBytes)
        if awsFingerprint ≠ fingerprint then (false, none) else (true, none)

/-- The method `CreateBoshAWSKeypair.generateAndUploadKeypair`. -/
def CreateBoshAWSKeypair.generateAndUploadKeypair (c : CreateBoshAWSKeypair) (session : Session) :
    Trace × Keypair × Option Error :=
  match c.generator with
  | .error err => (⟨1, [], []⟩, ⟨"", "", ""⟩, some err)
  | .ok keypair =>
    match c.uploader session keypair with
    | some err => (⟨1, [(session, keypair)], []⟩, ⟨"", "", ""⟩, some err)
    | none => (⟨1, [(session, keypair)], []⟩, keypair, none)

/-- The method `CreateBoshAWSKeypair.Execute`. -/
def CreateBoshAWSKeypair.Execute (crypto : Crypto) (c : CreateBoshAWSKeypair)
    (globalFlags : GlobalFlags) : Trace × Option Error :=
  match c.storeGet globalFlags.StateDir with
  | .error err => (Trace.empty, some err)
  | .ok s =>
    match c.provider {
        AccessKeyID := s.AWS.AccessKeyID
        SecretAccessKey := s.AWS.SecretAccessKey
        Region := s.AWS.Region
        EndpointOverride := globalFlags.EndpointOverride } with
    | .error err => (Trace.empty, some err)
    | .ok session =>
      match s.KeyPair with
      | some keyPair =>
        match c.retriever session keyPair.Name with
        | .error err =>
          if err ≠ Error.KeyPairNotFound then (Trace.empty, some err)
          else
            (⟨0, [(session, { Name := keyPair.Name, PrivateKey := "", PublicKey := keyPair.PublicKey })],
                []⟩,
              c.uploader session
                { Name := keyPair.Name, PrivateKey := "", PublicKey := keyPair.PublicKey })
        | .ok keyInfo =>
          match verifyFingerprint crypto keyInfo.Fingerprint keyPair.PrivateKey with
          | (_, some err) => (Trace.empty, some err)
          | (fingerprintMatches, none) =>
            if fingerprintMatches then (Trace.empty, none)
            else (Trace.empty, some (.other mismatchMsg))
      | none =>
        match c.generateAndUploadKeypair session with
        | (trace, _, some err) => (trace, some err)
        | (trace, keypair, none) =>
          let s := { s with KeyPair := some {
            Name := keypair.Name
            PrivateKey := keypair.PrivateKey
            PublicKey := keypair.PublicKey } }
          match c.storeSet globalFlags.StateDir s with
          | some err => ({ trace with sets := [(globalFlags.StateDir, s)] }, some err)
          | none => ({ trace with sets := [(globalFlags.StateDir, s)] }, none)

/-- Library functions for the examples: a key is PEM when it starts with a
dash, every PEM key is an RSA key that is its own public key, and the checksum
of a text is the codes of its characters. -/
def sampleCrypto : Crypto :=
  { pemDecode := fun pem => if pem.data.head? = some '-' then some pem else none
    ParsePKCS1PrivateKey := fun bytes => .ok ⟨bytes⟩
    MarshalPKIXPublicKey := fun pub => .ok pub
    md5Sum := fun bytes => bytes.data.map (fun c => c.toNat % 256) }

/-- A command for the examples: the state of every directory holds the keypair
given, AWS knows a keypair of the fingerprint given, and generating, uploading
and setting succeed. -/
def sampleCommand (keyPair : Option KeyPair) (fingerprint : String) : CreateBoshAWSKeypair :=
  { retriever := fun _ name => .ok ⟨name, fingerprint⟩
    generator := .ok ⟨"keypair-new", "-private", "public"⟩
    uploader := fun _ _ => none
    provider := fun config => .ok ⟨config.Region⟩
    storeSet := fun _ _ => none
    storeGet := fun _ => .ok ⟨⟨"key-id", "secret", "us-east-1"⟩, keyPair, "rest"⟩ }

end Unsupported

namespace Storage

/-! ## Basic facts -/

theorem osStat_of_dir {fs : FS} {dir : String} (h : fs.dirs dir = true) : osStat fs dir = none := by
  simp [osStat, h]

theorem osStat_of_no_dir {fs : FS} {dir : String} (h : fs.dirs dir = false) :
    osStat fs dir = some (enoent "stat" dir) := by
  simp [osStat, h]

theorem read_put_same (fs : FS) (p : Path) (data : String) (h : fs.dirs p.dir = true) :
    (fs.put p data).read p = some data := by
  simp [FS.read, FS.put, h]

theorem read_erase_same (fs : FS) (p : Path) : (fs.erase p).read p = none := by
  simp [FS.read, FS.erase]

theorem put_put (fs : FS) (p : Path) (a b : String) : (fs.put p a).put p b = fs.put p b := by
  simp only [FS.put]
  congr 1
  funext d n
  by_cases h : d = p.dir ∧ n = p.base <;> simp [h]

theorem erase_erase (fs : FS) (p : Path) : (fs.erase p).erase p = fs.erase p := by
  simp only [FS.erase]
  congr 1
  funext d n
  by_cases h : d = p.dir ∧ n = p.base <;> simp [h]

/-! ## Clean paths -/

/-- A text without a slash is one element. -/
theorem pathElements_plain (e : List Char) (h : '/' ∉ e) : pathElements e = [e] := by
  induction e with
  | nil => rfl
  | cons c cs ih =>
    have hc : c ≠ '/' := fun hc => h (by simp [hc])
    have hcs : '/' ∉ cs := fun hm => h (List.mem_cons_of_mem _ hm)
    simp [pathElements, hc, ih hcs]

/-- The element before the first slash. -/
theorem pathElements_append (e rest : List Char) (h : '/' ∉ e) :
    pathElements (e ++ '/' :: rest) = e :: pathElements rest := by
  induction e with
  | nil => simp [pathElements]
  | cons c cs ih =>
    have hc : c ≠ '/' := fun hc => h (by simp [hc])
    have hcs : '/' ∉ cs := fun hm => h (List.mem_cons_of_mem _ hm)
    simp [pathElements, hc, ih hcs]

/-- The elements of names joined by slashes are the names. -/
theorem pathElements_join (ns : List (List Char)) (base : List Char)
    (hns : ∀ n ∈ ns, '/' ∉ n) (hb : '/' ∉ base) (hne : ns ≠ []) :
    pathElements (joinElements ns ++ '/' :: base) = ns ++ [base] := by
  induction ns with
  | nil => exact absurd rfl hne
  | cons n rest ih =>
    cases rest with
    | nil =>
      simp only [joinElements, List.singleton_append]
      rw [pathElements_append n base (hns n (by simp)), pathElements_plain base hb]
    | cons m rest2 =>
      simp only [joinElements, List.append_assoc, List.cons_append]
      rw [pathElements_append n _ (hns n (by simp))]
      have := ih (fun x hx => hns x (List.mem_cons_of_mem _ hx)) (by simp)
      simp only [List.cons_append] at this ⊢
      rw [this]

/-- Plain names are all kept. -/
theorem cleanElements_plain (rooted : Bool) (es out : List (List Char))
    (h : ∀ e ∈ es, e ≠ [] ∧ e ≠ ['.'] ∧ e ≠ ['.', '.']) :
    cleanElements rooted es out = out.reverse ++ es := by
  induction es generalizing out with
  | nil => simp [cleanElements]
  | cons e rest ih =>
    obtain ⟨h1, h2, h3⟩ := h e (by simp)
    simp only [cleanElements, h1, h2, h3, or_self, if_false]
    rw [ih _ (fun x hx => h x (List.mem_cons_of_mem _ hx))]
    simp

/-- Joining one more name adds a slash and the name. -/
theorem joinElements_append (ns : List (List Char)) (base : List Char) (hne : ns ≠ []) :
    joinElements (ns ++ [base]) = joinElements ns ++ '/' :: base := by
  induction ns with
  | nil => exact absurd rfl hne
  | cons n rest ih =>
    cases rest with
    | nil => simp [joinElements]
    | cons m rest2 =>
      have h := ih (by simp)
      show n ++ '/' :: joinElements ((m :: rest2) ++ [base]) = _
      rw [h]
      simp [joinElements]

/-- Plain names joined by slashes are not empty and do not start with a
slash. -/
theorem joinElements_head (ns : List (List Char)) (tail : List Char) (hne : ns ≠ [])
    (hns : ∀ n ∈ ns, n ≠ [] ∧ '/' ∉ n) :
    (joinElements ns ++ tail).head? ≠ some '/' ∧ joinElements ns ++ tail ≠ [] := by
  obtain ⟨n0, rest, rfl⟩ := List.exists_cons_of_ne_nil hne
  obtain ⟨h0, hs⟩ := hns n0 (by simp)
  obtain ⟨c, cs, hcs⟩ := List.exists_cons_of_ne_nil h0
  have hc : c ≠ '/' := by
    intro hc
    apply hs
    rw [hcs, hc]
    simp
  cases rest with
  | nil => simp [joinElements, hcs, hc]
  | cons m r2 => simp [joinElements, hcs, hc]

/-- A path made of plain names, followed by a slash and a plain name, is
clean. -/
theorem cleanChars_plain (rooted : Bool) (ns : List (List Char)) (base : List Char)
    (hne : ns ≠ [])
    (hplain : ∀ e ∈ ns ++ [base], e ≠ [] ∧ '/' ∉ e ∧ e ≠ ['.'] ∧ e ≠ ['.', '.']) :
    cleanChars ((if rooted then ['/'] else []) ++ (joinElements ns ++ '/' :: base)) =
      (if rooted then ['/'] else []) ++ (joinElements ns ++ '/' :: base) := by
  have hns : ∀ n ∈ ns, n ≠ [] ∧ '/' ∉ n := fun n hn =>
    ⟨(hplain n (List.mem_append_left _ hn)).1, (hplain n (List.mem_append_left _ hn)).2.1⟩
  have hb := hplain base (by simp)
  have hels : pathElements (joinElements ns ++ '/' :: base) = ns ++ [base] :=
    pathElements_join ns base (fun n hn => (hns n hn).2) hb.2.1 hne
  have hclean : ∀ r, cleanElements r (ns ++ [base]) [] = ns ++ [base] := by
    intro r
    rw [cleanElements_plain r _ [] (fun e he => ⟨(hplain e he).1, (hplain e he).2.2⟩)]
    rfl
  have hjoin := joinElements_append ns base hne
  obtain ⟨hhead, hnonempty⟩ := joinElements_head ns ('/' :: base) hne hns
  cases rooted with
  | true =>
    have e1 : (if true = true then ['/'] else []) ++ (joinElements ns ++ '/' :: base) =
        '/' :: (joinElements ns ++ '/' :: base) := rfl
    rw [e1]
    unfold cleanChars
    have e2 : pathElements ('/' :: (joinElements ns ++ '/' :: base)) = [] :: (ns ++ [base]) := by
      rw [← hels]
      simp [pathElements]
    have e3 : cleanElements true ([] :: (ns ++ [base])) [] = ns ++ [base] := by
      have h0 : cleanElements true ([] :: (ns ++ [base])) [] =
          cleanElements true (ns ++ [base]) [] := by
        simp [cleanElements]
      rw [h0, hclean true]
    simp only [e2, List.head?_cons, decide_True, if_true, e3, hjoin]
    simp
  | false =>
    have e1 : (if false = true then ['/'] else []) ++ (joinElements ns ++ '/' :: base) =
        joinElements ns ++ '/' :: base := rfl
    rw [e1]
    unfold cleanChars
    simp only [hels, hclean, hjoin, hhead, hnonempty, decide_False, if_false, Bool.false_eq_true,
      List.nil_append]

/-- A string that differs from a text has other characters. -/
theorem data_ne (e : String) (a : List Char) (h : e ≠ String.mk a) : e.data ≠ a := by
  intro hd
  apply h
  cases e
  simp_all

/-- The join of a path made of plain names and a plain name is the path, a
slash and the name. -/
theorem filepathJoin_plain (rooted : Bool) (names : List String) (base : String)
    (hne : names ≠ []) (hn : ∀ n ∈ names, PlainName n) (hb : PlainName base) :
    (filepathJoin (plainPath rooted names) base).toString =
      plainPath rooted names ++ "/" ++ base := by
  have hplain : ∀ e ∈ names.map String.data ++ [base.data],
      e ≠ [] ∧ '/' ∉ e ∧ e ≠ ['.'] ∧ e ≠ ['.', '.'] := by
    intro e hmem
    rcases List.mem_append.mp hmem with hmem | hmem
    · obtain ⟨x, hx, rfl⟩ := List.mem_map.mp hmem
      obtain ⟨h1, h2, h3, h4⟩ := hn x hx
      exact ⟨data_ne x [] h1, h2, data_ne x ['.'] h3, data_ne x ['.', '.'] h4⟩
    · rw [List.mem_singleton] at hmem
      subst hmem
      obtain ⟨h1, h2, h3, h4⟩ := hb
      exact ⟨data_ne base [] h1, h2, data_ne base ['.'] h3, data_ne base ['.', '.'] h4⟩
  have hne2 : names.map String.data ≠ [] := by simpa using hne
  have hc := cleanChars_plain rooted (names.map String.data) base.data hne2 hplain
  have hdir : plainPath rooted names ≠ "" := by
    intro h
    have h2 := congrArg String.data h
    have h3 := (joinElements_head (names.map String.data) [] hne2
      (fun n hn => ⟨(hplain n (List.mem_append_left _ hn)).1,
        (hplain n (List.mem_append_left _ hn)).2.1⟩)).2
    simp only [plainPath, List.append_nil] at h2 h3
    cases rooted
    · exact h3 (by simpa using h2)
    · simp at h2
  have hdata : (plainPath rooted names ++ "/" ++ base).data =
      (if rooted then ['/'] else []) ++
        (joinElements (names.map String.data) ++ '/' :: base.data) := by
    simp only [String.data_append, plainPath, List.append_assoc]
    rfl
  simp only [Path.toString, filepathJoin, hdir, ne_eq, not_false_eq_true, if_true, filepathClean]
  apply String.ext
  rw [hdata, hc]

/-! ## The store -/

/-- With a missing state directory `Set` changes nothing and wraps the error of
`os.Stat`. -/
theorem Set_no_dir (env : Env) (s : Store) (state : State) (w : World)
    (h : w.fs.dirs s.dir = false) :
    Store.Set env s state w = (w, some (fmtErrorf "Stat state dir: " (enoent "stat" s.dir))) := by
  simp [Store.Set, osStat_of_no_dir h]

/-- For the zero state `Set` returns the error of a refused removal and
otherwise removes the state file when there is one. -/
theorem Set_zero (env : Env) (s : Store) (w : World) (h : w.fs.dirs s.dir = true) :
    Store.Set env s State.zero w =
      (match env.removeDenied s.dir StateFileName with
        | some text => (w, some ⟨text, false⟩)
        | none =>
          match w.fs.read (filepathJoin s.dir StateFileName) with
          | some _ => ({ w with fs := w.fs.erase (filepathJoin s.dir StateFileName) }, none)
          | none => (w, none)) := by
  simp only [Store.Set, osStat_of_dir h, osRemove, if_true]
  cases hq : env.removeDenied s.dir StateFileName with
  | some text => simp [filepathJoin, hq]
  | none =>
    cases hr : w.fs.read (filepathJoin s.dir StateFileName) <;> simp [enoent, filepathJoin, hq, hr]

/-- For a state other than the zero state, with the state directory present
and an identifier at hand, `Set` marshals `Store.document` and writes the
result. -/
theorem Set_nonzero (env : Env) (s : Store) (state : State) (w : World) (id : String)
    (hdir : w.fs.dirs s.dir = true) (hne : state ≠ State.zero)
    (hid : Store.persistedID env state w = some id) :
    Store.Set env s state w =
      (match env.marshalIndent (s.document state id) "" "\t" with
        | .ok jsonData =>
          (⟨w.fs.put (filepathJoin s.dir StateFileName) jsonData,
            if state.ID = "" then w.uuidCalls + 1 else w.uuidCalls⟩, none)
        | .error err => (⟨w.fs, if state.ID = "" then w.uuidCalls + 1 else w.uuidCalls⟩, some err)) := by
  simp only [Store.Set, osStat_of_dir hdir, if_neg hne, Store.persistedID] at hid ⊢
  by_cases hID : state.ID = ""
  · simp only [hID, if_true] at hid ⊢
    cases hu : env.uuidNewV4 w.uuidCalls with
    | error e => simp [hu] at hid
    | ok u =>
      simp only [hu, Option.some.injEq] at hid
      subst hid
      simp only [Store.document, hID]
      cases hm : env.marshalIndent _ "" "\t" <;>
        simp [hm, ioutilWriteFile, filepathJoin, hdir]
  · simp only [hID, if_false, Option.some.injEq] at hid ⊢
    subst hid
    simp only [Store.document]
    cases hm : env.marshalIndent _ "" "\t" <;>
      simp [hm, ioutilWriteFile, filepathJoin, hdir]

/-- The document `Set` writes is `Store.document` of the state and the
identifier it persists. -/
theorem Writes_document (env : Env) (s : Store) (state : State) (w : World) (id : String)
    (hdir : w.fs.dirs s.dir = true) (hne : state ≠ State.zero)
    (hid : Store.persistedID env state w = some id) :
    Store.Writes env s state w (s.document state id) := by
  intro m
  refine ⟨if state.ID = "" then w.uuidCalls + 1 else w.uuidCalls, ?_⟩
  have h := Set_nonzero { env with marshalIndent := m } s state w id hdir hne hid
  rw [h]

/-- `Set` writes one document only: two states that both satisfy
`Store.Writes` are equal. -/
theorem Writes_unique (env : Env) (s : Store) (state : State) (w : World) (doc doc2 : State)
    (h1 : Store.Writes env s state w doc) (h2 : Store.Writes env s state w doc2) : doc2 = doc := by
  by_contra hne
  obtain ⟨c1, e1⟩ := h1 (fun st _ _ => if st = doc then .ok "a" else .ok "b")
  obtain ⟨c2, e2⟩ := h2 (fun st _ _ => if st = doc then .ok "a" else .ok "b")
  simp only [if_true, if_neg hne] at e1 e2
  rw [e1] at e2
  have h3 := congrArg (fun r => r.1.fs.files s.dir StateFileName) e2
  simp [FS.put, filepathJoin] at h3

/-- The state directory is still there after `Set`, and no directory is
made. -/
theorem Set_dirs (env : Env) (s : Store) (state : State) (w : World) :
    (Store.Set env s state w).1.fs.dirs = w.fs.dirs := by
  by_cases hdir : w.fs.dirs s.dir = true
  · by_cases hz : state = State.zero
    · subst hz
      rw [Set_zero env s w hdir]
      cases env.removeDenied s.dir StateFileName with
      | some text => rfl
      | none => cases w.fs.read (filepathJoin s.dir StateFileName) <;> rfl
    · cases hid : Store.persistedID env state w with
      | some id =>
        rw [Set_nonzero env s state w id hdir hz hid]
        cases env.marshalIndent (s.document state id) "" "\t" <;> rfl
      | none =>
        simp only [Store.Set, osStat_of_dir hdir, if_neg hz, Store.persistedID] at hid ⊢
        by_cases hID : state.ID = ""
        · simp only [hID, if_true] at hid ⊢
          cases hu : env.uuidNewV4 w.uuidCalls with
          | error e => simp
          | ok u => simp [hu] at hid
        · simp [hID] at hid
  · have h : w.fs.dirs s.dir = false := by simpa using hdir
    rw [Set_no_dir env s state w h]

/-- Without an identifier at hand, which is when the state has none and the
generator fails, `Set` returns the wrapped error of the generator and leaves
the file system as it was. -/
theorem Set_nonzero_no_id (env : Env) (s : Store) (state : State) (w : World)
    (hdir : w.fs.dirs s.dir = true) (hne : state ≠ State.zero)
    (hid : Store.persistedID env state w = none) :
    ∃ err, env.uuidNewV4 w.uuidCalls = .error err ∧ state.ID = "" ∧
      Store.Set env s state w =
        (⟨w.fs, w.uuidCalls + 1⟩, some (fmtErrorf "Create state ID: " err)) := by
  simp only [Store.Set, osStat_of_dir hdir, if_neg hne, Store.persistedID] at hid ⊢
  by_cases hID : state.ID = ""
  · simp only [hID, if_true] at hid ⊢
    cases hu : env.uuidNewV4 w.uuidCalls with
    | error e => exact ⟨e, rfl, trivial, rfl⟩
    | ok u => simp [hu] at hid
  · simp [hID] at hid

/-- `Set` writes a document only for a state other than the zero state, in an
existing directory and with an identifier at hand, and the document is then
`Store.document`. -/
theorem Writes_inv (env : Env) (s : Store) (state : State) (w : World) (doc : State)
    (h : Store.Writes env s state w doc) :
    w.fs.dirs s.dir = true ∧ state ≠ State.zero ∧
      ∃ id, Store.persistedID env state w = some id ∧ doc = s.document state id := by
  obtain ⟨c, e⟩ := h (fun _ _ _ => .ok "x")
  simp only at e
  by_cases hdir : w.fs.dirs s.dir = true
  · by_cases hz : state = State.zero
    · exfalso
      subst hz
      rw [Set_zero _ s w hdir] at e
      cases hq : env.removeDenied s.dir StateFileName with
      | some text =>
        simp only [hq] at e
        simp at e
      | none =>
        simp only [hq] at e
        cases hr : w.fs.read (filepathJoin s.dir StateFileName) with
        | none =>
          rw [hr] at e
          have h3 := congrArg (fun r => r.1.fs.files s.dir StateFileName) e
          simp only [FS.read, filepathJoin, hdir, if_true] at hr
          simp [FS.put, filepathJoin, hr] at h3
        | some d =>
          rw [hr] at e
          have h3 := congrArg (fun r => r.1.fs.files s.dir StateFileName) e
          simp [FS.put, FS.erase, filepathJoin] at h3
    · refine ⟨hdir, hz, ?_⟩
      cases hid : Store.persistedID env state w with
      | none =>
        exfalso
        obtain ⟨err, _, _, he⟩ :=
          Set_nonzero_no_id { env with marshalIndent := fun _ _ _ => .ok "x" } s state w hdir hz hid
        rw [he] at e
        simp at e
      | some id =>
        exact ⟨id, rfl, Writes_unique env s state w _ doc
          (Writes_document env s state w id hdir hz hid) h⟩
  · exfalso
    have hd : w.fs.dirs s.dir = false := by simpa using hdir
    rw [Set_no_dir _ s state w hd] at e
    simp at e

/-- The text of a UUID is never empty. -/
theorem UUID_String_ne_empty (u : UUID) : u.String ≠ "" := by
  intro h
  have hl := congrArg String.length h
  simp only [UUID.String, String.length_append] at hl
  have h1 : "-".length = 1 := by decide
  have h0 : "".length = 0 := by decide
  omega

/-- A state with an identifier is not the zero state. -/
theorem ne_zero_of_ID {state : State} (h : state.ID ≠ "") : state ≠ State.zero := by
  intro hz
  apply h
  rw [hz]
  rfl

/-- With a missing state directory `GetState` returns the error of `os.Stat`
and the zero state. -/
theorem GetState_no_dir (env : Env) (dir : String) (w : World) (h : w.fs.dirs dir = false) :
    GetState env dir w = (w, State.zero, some (enoent "stat" dir)) := by
  simp [GetState, osStat_of_no_dir h]

/-- With a state file that decodes, `GetState` stamps the zero state and then
applies the version gate. -/
theorem GetState_decoded (env : Env) (dir : String) (w : World) (file : String) (st : State)
    (hdir : w.fs.dirs dir = true) (hfile : w.fs.files dir StateFileName = some file)
    (hdec : env.jsonDecode file State.zero = (st, none)) :
    GetState env dir w =
      (if (if st = State.zero then { State.zero with Version := STATE_VERSION } else st).Version < 3
        then (w, (if st = State.zero then { State.zero with Version := STATE_VERSION } else st),
          some (errorsNew incompatibleMsg))
        else if (if st = State.zero then { State.zero with Version := STATE_VERSION }
            else st).Version > STATE_VERSION
          then (w, (if st = State.zero then { State.zero with Version := STATE_VERSION } else st),
            some (errorsNew (newerMsg
              (if st = State.zero then { State.zero with Version := STATE_VERSION } else st).Version)))
          else (w, (if st = State.zero then { State.zero with Version := STATE_VERSION } else st),
            none)) := by
  simp only [GetState, osStat_of_dir hdir, osOpen, FS.read, filepathJoin, hdir, if_true, hfile,
    hdec]

/-- The identifier `Set` persists exists as soon as the generator, when it is
needed, succeeds. -/
theorem persistedID_of_gen (env : Env) (state : State) (w : World)
    (hgen : state.ID = "" → ∃ u, env.uuidNewV4 w.uuidCalls = .ok u) :
    ∃ id, Store.persistedID env state w = some id ∧
      (state.ID ≠ "" → id = state.ID) ∧
      (state.ID = "" → ∃ u, env.uuidNewV4 w.uuidCalls = .ok u ∧ id = u.String) := by
  by_cases hID : state.ID = ""
  · obtain ⟨u, hu⟩ := hgen hID
    refine ⟨u.String, ?_, fun h => absurd hID h, fun _ => ⟨u, hu, rfl⟩⟩
    simp [Store.persistedID, hID, hu]
  · refine ⟨state.ID, ?_, fun _ => rfl, fun h => absurd h hID⟩
    simp [Store.persistedID, hID]

/-- A state that carries an identifier is saved without a call of the UUID
generator. -/
theorem Set_calls_of_ID (env : Env) (s : Store) (state : State) (w : World)
    (hID : state.ID ≠ "") : (Store.Set env s state w).1.uuidCalls = w.uuidCalls := by
  by_cases hdir : w.fs.dirs s.dir = true
  · have hid : Store.persistedID env state w = some state.ID := by
      simp [Store.persistedID, hID]
    rw [Set_nonzero env s state w state.ID hdir (ne_zero_of_ID hID) hid]
    cases env.marshalIndent (s.document state state.ID) "" "\t" <;> simp [hID]
  · have h : w.fs.dirs s.dir = false := by simpa using hdir
    rw [Set_no_dir env s state w h]

/-- For the zero state `Set` returns nil and leaves no state file, unless the
removal is refused. -/
theorem Set_zero_outcome (env : Env) (s : Store) (w : World) (h : w.fs.dirs s.dir = true)
    (hq : env.removeDenied s.dir StateFileName = none) :
    (Store.Set env s State.zero w).2 = none ∧
    (Store.Set env s State.zero w).1.fs.read (filepathJoin s.dir StateFileName) = none := by
  rw [Set_zero env s w h]
  simp only [hq]
  cases hr : w.fs.read (filepathJoin s.dir StateFileName) with
  | none => exact ⟨rfl, hr⟩
  | some d => exact ⟨rfl, read_erase_same _ _⟩

/-- For the zero state and a refused removal `Set` returns the error of the
refusal and changes nothing. -/
theorem Set_zero_denied (env : Env) (s : Store) (w : World) (h : w.fs.dirs s.dir = true)
    (text : String) (hq : env.removeDenied s.dir StateFileName = some text) :
    Store.Set env s State.zero w = (w, some ⟨text, false⟩) := by
  rw [Set_zero env s w h]
  simp only [hq]

/-! ## The zero state removes the state file -/

/-- C1, as the code has it: for every existing state directory, `Set` called
with the all-zero state, when the operating system does not refuse the removal
of `bbl-state.json`, returns nil whether or not the file existed and leaves no
`bbl-state.json` behind; when the removal is refused for a reason other than
the absence of the file, `Set` returns the error of `os.Remove` and changes
nothing. In both cases it writes no file: every file present afterwards was
there before with the same contents, every other file is untouched, the
directories are the same and the UUID generator was not called. -/
theorem Set_zero_state_removes_file (env : Env) (s : Store) (w : World)
    (hdir : w.fs.dirs s.dir = true) :
    (env.removeDenied s.dir StateFileName = none →
      (Store.Set env s State.zero w).2 = none ∧
      (Store.Set env s State.zero w).1.fs.read (filepathJoin s.dir StateFileName) = none) ∧
    (∀ text, env.removeDenied s.dir StateFileName = some text →
      Store.Set env s State.zero w = (w, some ⟨text, false⟩)) ∧
    (∀ p data, (Store.Set env s State.zero w).1.fs.read p = some data → w.fs.read p = some data) ∧
    (∀ p, p ≠ filepathJoin s.dir StateFileName →
      (Store.Set env s State.zero w).1.fs.read p = w.fs.read p) ∧
    (Store.Set env s State.zero w).1.fs.dirs = w.fs.dirs ∧
    (Store.Set env s State.zero w).1.uuidCalls = w.uuidCalls := by
  refine ⟨fun hq => Set_zero_outcome env s w hdir hq,
    fun text hq => Set_zero_denied env s w hdir text hq, ?_⟩
  rw [Set_zero env s w hdir]
  cases hq : env.removeDenied s.dir StateFileName with
  | some text => exact ⟨fun p data h => h, fun p _ => rfl, rfl, rfl⟩
  | none =>
    cases hr : w.fs.read (filepathJoin s.dir StateFileName) with
    | none =>
      exact ⟨fun p data h => h, fun p _ => rfl, rfl, rfl⟩
    | some data0 =>
      refine ⟨?_, ?_, rfl, rfl⟩
      · intro p data h
        simp only [FS.read, FS.erase] at h ⊢
        by_cases hd : w.fs.dirs p.dir = true
        · simp only [hd, if_true] at h ⊢
          by_cases hp : p.dir = (filepathJoin s.dir StateFileName).dir ∧
              p.base = (filepathJoin s.dir StateFileName).base
          · simp [hp] at h
          · simpa [hp] using h
        · simp [hd] at h
      · intro p hp
        simp only [FS.read, FS.erase]
        have hne : ¬ (p.dir = (filepathJoin s.dir StateFileName).dir ∧
            p.base = (filepathJoin s.dir StateFileName).base) := by
          rintro ⟨h1, h2⟩
          apply hp
          cases p
          simp_all [filepathJoin]
        simp [hne]

/-- The zero state, saved over an existing state file whose removal is not
refused: no error and no state file afterwards. -/
theorem Set_zero_state_removes_file_witness :
    (sampleFS "old").dirs (NewStore "env").dir = true ∧
    sampleEnv.removeDenied (NewStore "env").dir StateFileName = none ∧
    (sampleFS "old").read (filepathJoin "env" StateFileName) = some "old" ∧
    (Store.Set sampleEnv (NewStore "env") State.zero ⟨sampleFS "old", 0⟩).2 = none ∧
    (Store.Set sampleEnv (NewStore "env") State.zero ⟨sampleFS "old", 0⟩).1.fs.read
      (filepathJoin (NewStore "env").dir StateFileName) = none :=
  ⟨by decide, by decide, by decide,
    ((Set_zero_state_removes_file sampleEnv (NewStore "env") ⟨sampleFS "old", 0⟩ (by decide)).1
      (by decide)).1,
    ((Set_zero_state_removes_file sampleEnv (NewStore "env") ⟨sampleFS "old", 0⟩ (by decide)).1
      (by decide)).2⟩

/-- C1, as stated, fails: in an existing state directory that may not be
written, `Set` called with the all-zero state does not return nil but the error
of `os.Remove`, and the state file is still there. -/
theorem Set_zero_state_removal_refused :
    (sampleFS "old").dirs (NewStore "env").dir = true ∧
    (sampleFS "old").read (filepathJoin "env" StateFileName) = some "old" ∧
    (Store.Set readOnlyEnv (NewStore "env") State.zero ⟨sampleFS "old", 0⟩).2 =
      some ⟨"remove env/bbl-state.json: permission denied", false⟩ ∧
    (Store.Set readOnlyEnv (NewStore "env") State.zero ⟨sampleFS "old", 0⟩).1.fs.read
      (filepathJoin "env" StateFileName) = some "old" := by
  refine ⟨by decide, by decide, by decide, by decide⟩

/-! ## Secrets -/

/-- C2: at a state that holds Azure credentials, the document `Set` writes
has the AWS keys and the GCP service account key empty but still carries the
Azure client secret, which `Set` does not clear. -/
theorem Set_keeps_azure_client_secret :
    ∃ doc, Store.Writes sampleEnv (NewStore "env") azureState ⟨emptyDirFS, 0⟩ doc ∧
      doc.Azure.ClientSecret = "s3cret" ∧
      doc.AWS.AccessKeyID = "" ∧ doc.AWS.SecretAccessKey = "" ∧ doc.GCP.ServiceAccountKey = "" :=
  ⟨(NewStore "env").document azureState sampleUUID.String,
    Writes_document sampleEnv (NewStore "env") azureState ⟨emptyDirFS, 0⟩ sampleUUID.String
      (by decide) (by decide) (by rfl),
    rfl, rfl, rfl, rfl⟩

/-! ## Loading -/

/-- C3, as the code has it: when the state directory exists and holds no state
file, `GetState` returns no error and the zero state, whose version is 0. -/
theorem GetState_missing_file (env : Env) (dir : String) (w : World)
    (hdir : w.fs.dirs dir = true) (hfile : w.fs.files dir StateFileName = none) :
    GetState env dir w = (w, State.zero, none) ∧ State.zero.Version = 0 := by
  refine ⟨?_, rfl⟩
  simp [GetState, osStat_of_dir hdir, osOpen, FS.read, filepathJoin, hdir, hfile, enoent]

/-- An empty state directory loads as the zero state. -/
theorem GetState_missing_file_witness :
    emptyDirFS.dirs "env" = true ∧ emptyDirFS.files "env" StateFileName = none ∧
    (GetState sampleEnv "env" ⟨emptyDirFS, 0⟩).2 = (State.zero, none) :=
  ⟨by decide, by decide,
    congrArg Prod.snd (GetState_missing_file sampleEnv "env" ⟨emptyDirFS, 0⟩ (by decide) (by decide)).1⟩

/-- C3, as stated, fails: in an existing directory without a state file the
state `GetState` returns has version 0, not the current schema version. -/
theorem GetState_missing_file_not_stamped :
    emptyDirFS.dirs "env" = true ∧ emptyDirFS.files "env" StateFileName = none ∧
    (GetState sampleEnv "env" ⟨emptyDirFS, 0⟩).2.2 = none ∧
    (GetState sampleEnv "env" ⟨emptyDirFS, 0⟩).2.1.Version = 0 ∧
    (GetState sampleEnv "env" ⟨emptyDirFS, 0⟩).2.1.Version ≠ STATE_VERSION ∧
    STATE_VERSION = 12 := by
  refine ⟨by decide, by decide, ?_, ?_, ?_, rfl⟩ <;>
    simp [GetState, osStat, osOpen, FS.read, filepathJoin, emptyDirFS, enoent, State.zero,
      STATE_VERSION]

/-- C4: for a state file that decodes to a state other than the zero state,
`GetState` fails exactly when the version is below 3 or above 12: below 3 with
the error that names the incompatibility with bbl v3, above 12 with the error
that names the schema version of the file, and for versions 3 to 12 it returns
the decoded state and no error. -/
theorem GetState_version_gate (env : Env) (dir : String) (w : World) (file : String) (st : State)
    (hdir : w.fs.dirs dir = true) (hfile : w.fs.files dir StateFileName = some file)
    (hdec : env.jsonDecode file State.zero = (st, none)) (hne : st ≠ State.zero) :
    (st.Version < 3 → GetState env dir w = (w, st, some (errorsNew incompatibleMsg))) ∧
    (12 < st.Version → GetState env dir w = (w, st, some (errorsNew (newerMsg st.Version)))) ∧
    (3 ≤ st.Version → st.Version ≤ 12 → GetState env dir w = (w, st, none)) ∧
    ((GetState env dir w).2.2 ≠ none ↔ (st.Version < 3 ∨ 12 < st.Version)) := by
  rw [GetState_decoded env dir w file st hdir hfile hdec]
  simp only [if_neg hne, STATE_VERSION]
  refine ⟨?_, ?_, ?_, ?_⟩
  · intro h
    simp [h]
  · intro h
    have h3 : ¬ st.Version < 3 := by omega
    simp [h3, h]
  · intro h3 h12
    have h3n : ¬ st.Version < 3 := by omega
    have h12n : ¬ st.Version > 12 := by omega
    simp [h3n, h12n]
  · by_cases h3 : st.Version < 3
    · simp [h3]
    · by_cases h12 : st.Version > 12
      · simp [h3, h12]
      · have h12n : ¬ 12 < st.Version := by omega
        simp [h3, h12, h12n]

/-- A state file of schema version 13 is refused with the error naming 13. -/
theorem GetState_version_gate_witness :
    (sampleFS "13").dirs "env" = true ∧ (sampleFS "13").files "env" StateFileName = some "13" ∧
    sampleEnv.jsonDecode "13" State.zero = ({ State.zero with Version := 13, IAAS := "gcp" }, none) ∧
    ({ State.zero with Version := 13, IAAS := "gcp" } : State) ≠ State.zero ∧
    GetState sampleEnv "env" ⟨sampleFS "13", 0⟩ =
      (⟨sampleFS "13", 0⟩, { State.zero with Version := 13, IAAS := "gcp" },
        some (errorsNew (newerMsg 13))) :=
  ⟨by decide, by decide, by decide, by decide,
    (GetState_version_gate sampleEnv "env" ⟨sampleFS "13", 0⟩ "13"
      { State.zero with Version := 13, IAAS := "gcp" }
      (by decide) (by decide) (by decide) (by decide)).2.1 (by decide)⟩

/-- C5: for a state file whose document decodes to the zero state, `GetState`
returns no error and the zero state stamped with the current schema version,
12: the version gate does not see the version 0 of the file. -/
theorem GetState_empty_document (env : Env) (dir : String) (w : World) (file : String)
    (hdir : w.fs.dirs dir = true) (hfile : w.fs.files dir StateFileName = some file)
    (hdec : env.jsonDecode file State.zero = (State.zero, none)) :
    GetState env dir w = (w, { State.zero with Version := STATE_VERSION }, none) ∧
    STATE_VERSION = 12 := by
  refine ⟨?_, rfl⟩
  rw [GetState_decoded env dir w file State.zero hdir hfile hdec]
  simp [STATE_VERSION]

/-- The document of an empty object loads as the stamped zero state. -/
theorem GetState_empty_document_witness :
    (sampleFS "\x7b\x7d").dirs "env" = true ∧
    (sampleFS "\x7b\x7d").files "env" StateFileName = some "\x7b\x7d" ∧
    sampleEnv.jsonDecode "\x7b\x7d" State.zero = (State.zero, none) ∧
    (GetState sampleEnv "env" ⟨sampleFS "\x7b\x7d", 0⟩).2 =
      ({ State.zero with Version := 12 }, none) :=
  ⟨by decide, by decide, by decide,
    congrArg Prod.snd (GetState_empty_document sampleEnv "env" ⟨sampleFS "\x7b\x7d", 0⟩ "\x7b\x7d"
      (by decide) (by decide) (by decide)).1⟩

/-! ## Saving -/

/-- C6: for every state other than the zero state, in an existing directory
and with the UUID generator succeeding when it is needed, the store made by
`NewStore` writes exactly one document, and its version is the current schema
version, 12, whatever version the state passed in has. -/
theorem Set_stamps_version (env : Env) (dir : String) (state : State) (w : World)
    (hdir : w.fs.dirs dir = true) (hne : state ≠ State.zero)
    (hgen : state.ID = "" → ∃ u, env.uuidNewV4 w.uuidCalls = .ok u) :
    ∃ doc, Store.Writes env (NewStore dir) state w doc ∧ doc.Version = 12 ∧
      ∀ doc2, Store.Writes env (NewStore dir) state w doc2 → doc2 = doc := by
  obtain ⟨id, hid, _, _⟩ := persistedID_of_gen env state w hgen
  have hw := Writes_document env (NewStore dir) state w id hdir hne hid
  exact ⟨_, hw, rfl, fun doc2 h2 => Writes_unique env (NewStore dir) state w _ doc2 hw h2⟩

/-- A state of version 3 is written with version 12. -/
theorem Set_stamps_version_witness :
    (sampleFS "old").dirs "env" = true ∧ secretsState ≠ State.zero ∧ secretsState.Version = 3 ∧
    (∃ doc, Store.Writes sampleEnv (NewStore "env") secretsState ⟨sampleFS "old", 0⟩ doc ∧
      doc.Version = 12) :=
  ⟨by decide, by decide, by decide,
    (Set_stamps_version sampleEnv "env" secretsState ⟨sampleFS "old", 0⟩ (by decide) (by decide)
      (fun h => absurd h (by decide))).imp (fun _ h => ⟨h.1, h.2.1⟩)⟩

/-- C7: for a state other than the zero state, in an existing directory and
with the UUID generator succeeding when it is needed, `Set` writes a document
that carries the identifier of the state when it has one, and then the UUID
generator is not called, whatever the world; that carries the text of the UUID
the generator returned when the state has none; and that a later `Set`, under
any generator, writes with that same identifier, again without calling the
generator. -/
theorem Set_assigns_ID_once (env : Env) (s : Store) (state : State) (w : World)
    (hdir : w.fs.dirs s.dir = true) (hne : state ≠ State.zero)
    (hgen : state.ID = "" → ∃ u, env.uuidNewV4 w.uuidCalls = .ok u) :
    ∃ doc, Store.Writes env s state w doc ∧
      (state.ID ≠ "" → doc.ID = state.ID ∧
        ∀ env3 w3, (Store.Set env3 s state w3).1.uuidCalls = w3.uuidCalls) ∧
      (state.ID = "" → ∃ u, env.uuidNewV4 w.uuidCalls = .ok u ∧ doc.ID = u.String ∧
        (Store.Set env s state w).1.uuidCalls = w.uuidCalls + 1) ∧
      (∀ env2 w2, w2.fs.dirs s.dir = true →
        (Store.Set env2 s doc w2).1.uuidCalls = w2.uuidCalls ∧
        ∃ doc2, Store.Writes env2 s doc w2 doc2 ∧ doc2.ID = doc.ID) := by
  obtain ⟨id, hid, hkeep, hnew⟩ := persistedID_of_gen env state w hgen
  have hw := Writes_document env s state w id hdir hne hid
  have hidne : id ≠ "" := by
    by_cases hID : state.ID = ""
    · obtain ⟨u, _, hu⟩ := hnew hID
      rw [hu]
      exact UUID_String_ne_empty u
    · rw [hkeep hID]
      exact hID
  refine ⟨s.document state id, hw, ?_, ?_, ?_⟩
  · intro hID
    exact ⟨hkeep hID, fun env3 w3 => Set_calls_of_ID env3 s state w3 hID⟩
  · intro hID
    obtain ⟨u, hu, hidu⟩ := hnew hID
    refine ⟨u, hu, hidu, ?_⟩
    rw [Set_nonzero env s state w id hdir hne hid]
    cases env.marshalIndent (s.document state id) "" "\t" <;> simp [hID]
  · intro env2 w2 hdir2
    have hdocID : (s.document state id).ID ≠ "" := hidne
    refine ⟨Set_calls_of_ID env2 s _ w2 hdocID, ?_⟩
    have hid2 : Store.persistedID env2 (s.document state id) w2 = some (s.document state id).ID := by
      simp only [Store.persistedID, if_neg hdocID]
    exact ⟨_, Writes_document env2 s _ w2 _ hdir2 (ne_zero_of_ID hdocID) hid2, rfl⟩

/-- A state without an identifier gets the text of the generated UUID. -/
theorem Set_assigns_ID_once_witness :
    emptyDirFS.dirs (NewStore "env").dir = true ∧ azureState ≠ State.zero ∧ azureState.ID = "" ∧
    sampleUUID.String = "12345678-9abc-def0-0123-456789abcdef" ∧
    (∃ doc, Store.Writes sampleEnv (NewStore "env") azureState ⟨emptyDirFS, 0⟩ doc ∧
      ∃ u, sampleEnv.uuidNewV4 0 = .ok u ∧ doc.ID = u.String) :=
  ⟨by decide, by decide, by decide, by decide,
    (Set_assigns_ID_once sampleEnv (NewStore "env") azureState ⟨emptyDirFS, 0⟩ (by decide)
      (by decide) (fun _ => ⟨sampleUUID, rfl⟩)).imp
      (fun _ h => ⟨h.1, (h.2.2.1 (by decide)).imp (fun _ hu => ⟨hu.1, hu.2.1⟩)⟩)⟩

/-- The identifier `Set` persists is the same in two worlds in which the next
call of the generator gives the same result. -/
theorem persistedID_congr (env : Env) (state : State) (w1 w2 : World)
    (hgen : env.uuidNewV4 w2.uuidCalls = env.uuidNewV4 w1.uuidCalls) :
    Store.persistedID env state w2 = Store.persistedID env state w1 := by
  simp only [Store.persistedID, hgen]

/-- C8: `Set` is deterministic given the result of the UUID generator: run on
the same state in two worlds in which the state directory exists and the next
call of the generator gives the same result (such as one world and the world
the first run leaves), it returns the same error or nil in both; when it
returns nil the state file holds the same bytes in both; and for a state other
than the zero state these bytes are what `marshalIndent` returns for the
document with prefix `""` and indent `"\t"`. -/
theorem Set_twice_same_bytes (env : Env) (s : Store) (state : State) (w1 w2 : World)
    (h1 : w1.fs.dirs s.dir = true) (h2 : w2.fs.dirs s.dir = true)
    (hgen : env.uuidNewV4 w2.uuidCalls = env.uuidNewV4 w1.uuidCalls) :
    (Store.Set env s state w2).2 = (Store.Set env s state w1).2 ∧
    ((Store.Set env s state w1).2 = none →
      (Store.Set env s state w2).1.fs.read (filepathJoin s.dir StateFileName) =
        (Store.Set env s state w1).1.fs.read (filepathJoin s.dir StateFileName)) ∧
    (state ≠ State.zero → (Store.Set env s state w1).2 = none →
      ∃ doc jsonData, Store.Writes env s state w1 doc ∧
        env.marshalIndent doc "" "\t" = .ok jsonData ∧
        (Store.Set env s state w1).1.fs.read (filepathJoin s.dir StateFileName) = some jsonData) := by
  by_cases hz : state = State.zero
  · subst hz
    cases hq : env.removeDenied s.dir StateFileName with
    | some text =>
      rw [Set_zero_denied env s w1 h1 text hq, Set_zero_denied env s w2 h2 text hq]
      exact ⟨rfl, fun h => by simp at h, fun h => absurd rfl h⟩
    | none =>
      have r1 := Set_zero_outcome env s w1 h1 hq
      have r2 := Set_zero_outcome env s w2 h2 hq
      exact ⟨by rw [r1.1, r2.1], fun _ => by rw [r1.2, r2.2], fun h => absurd rfl h⟩
  · have hp := persistedID_congr env state w1 w2 hgen
    cases hid : Store.persistedID env state w1 with
    | none =>
      obtain ⟨e1, hu1, _, he1⟩ := Set_nonzero_no_id env s state w1 h1 hz hid
      obtain ⟨e2, hu2, _, he2⟩ := Set_nonzero_no_id env s state w2 h2 hz (hp.trans hid)
      have he : e2 = e1 := by
        rw [hgen, hu1] at hu2
        injection hu2 with h
        exact h.symm
      rw [he1, he2, he]
      exact ⟨rfl, fun h => by simp at h, fun _ h => by simp at h⟩
    | some id =>
      rw [Set_nonzero env s state w1 id h1 hz hid,
        Set_nonzero env s state w2 id h2 hz (hp.trans hid)]
      cases hm : env.marshalIndent (s.document state id) "" "\t" with
      | error e => exact ⟨rfl, fun h => by simp at h, fun _ h => by simp at h⟩
      | ok jsonData =>
        have hr1 := read_put_same w1.fs (filepathJoin s.dir StateFileName) jsonData h1
        have hr2 := read_put_same w2.fs (filepathJoin s.dir StateFileName) jsonData h2
        refine ⟨rfl, fun _ => hr2.trans hr1.symm, fun _ _ => ?_⟩
        exact ⟨_, jsonData, Writes_document env s state w1 id h1 hz hid, hm, hr1⟩

/-- Saving a state and saving it again in the world the first run leaves, the
generator returning the same UUID, gives the same state file. -/
theorem Set_twice_same_bytes_witness :
    emptyDirFS.dirs (NewStore "env").dir = true ∧
    (Store.Set sampleEnv (NewStore "env") azureState ⟨emptyDirFS, 0⟩).1.fs.dirs
      (NewStore "env").dir = true ∧
    sampleEnv.uuidNewV4
        (Store.Set sampleEnv (NewStore "env") azureState ⟨emptyDirFS, 0⟩).1.uuidCalls =
      sampleEnv.uuidNewV4 0 ∧
    (Store.Set sampleEnv (NewStore "env") azureState ⟨emptyDirFS, 0⟩).2 = none ∧
    (Store.Set sampleEnv (NewStore "env") azureState
        (Store.Set sampleEnv (NewStore "env") azureState ⟨emptyDirFS, 0⟩).1).1.fs.read
        (filepathJoin "env" StateFileName) =
      (Store.Set sampleEnv (NewStore "env") azureState ⟨emptyDirFS, 0⟩).1.fs.read
        (filepathJoin "env" StateFileName) :=
  ⟨by decide, by decide, rfl, by decide,
    (Set_twice_same_bytes sampleEnv (NewStore "env") azureState ⟨emptyDirFS, 0⟩
      (Store.Set sampleEnv (NewStore "env") azureState ⟨emptyDirFS, 0⟩).1
      (by decide) (by decide) rfl).2.1 (by decide)⟩

/-- C9: when the state directory does not exist, `Set` and `GetState` both
return an error and leave the world as it was, so that the state file is
neither created, written nor removed; the message of the error of `Set` starts
with `Stat state dir: `, and `GetState` returns the error of `os.Stat` as it
is. -/
theorem missing_dir_errors (env : Env) (s : Store) (state : State) (w : World)
    (hdir : w.fs.dirs s.dir = false) :
    (∃ err cause, Store.Set env s state w = (w, some err) ∧
      err.msg = "Stat state dir: " ++ cause) ∧
    (∃ err, GetState env s.dir w = (w, State.zero, some err) ∧ osStat w.fs s.dir = some err) := by
  refine ⟨⟨_, (enoent "stat" s.dir).msg, Set_no_dir env s state w hdir, rfl⟩, ?_⟩
  exact ⟨_, GetState_no_dir env s.dir w hdir, osStat_of_no_dir hdir⟩

/-- Without any directory both operations fail. -/
theorem missing_dir_errors_witness :
    noDirFS.dirs (NewStore "env").dir = false ∧
    ((∃ err cause, Store.Set sampleEnv (NewStore "env") secretsState ⟨noDirFS, 0⟩ =
        (⟨noDirFS, 0⟩, some err) ∧ err.msg = "Stat state dir: " ++ cause) ∧
      (∃ err, GetState sampleEnv (NewStore "env").dir ⟨noDirFS, 0⟩ =
        (⟨noDirFS, 0⟩, State.zero, some err) ∧ osStat noDirFS (NewStore "env").dir = some err)) :=
  ⟨by decide, missing_dir_errors sampleEnv (NewStore "env") secretsState ⟨noDirFS, 0⟩ (by decide)⟩

end Storage

namespace CloudconfigGcp

open Storage

/-! ## The ops for load balancers -/

/-- The first loop only appends ops on the path of the availability zones. -/
theorem azOpsLoop_paths (zones : List String) (i : Nat) (acc : List op) :
    ∃ l, azOpsLoop zones i acc = acc ++ l ∧ ∀ x ∈ l, x.Path = "/azs/-" := by
  induction zones generalizing i acc with
  | nil => exact ⟨[], by simp [azOpsLoop], by simp⟩
  | cons z rest ih =>
    obtain ⟨l, hl, hp⟩ := ih (i + 1) (acc ++ [createOp "replace" "/azs/-"
      (.ofAz { Name := "z" ++ toString (i + 1), CloudProperties := { AvailabilityZone := z } })])
    refine ⟨createOp "replace" "/azs/-"
      (.ofAz { Name := "z" ++ toString (i + 1), CloudProperties := { AvailabilityZone := z } }) :: l,
      ?_, ?_⟩
    · simp [azOpsLoop, hl]
    · intro x hx
      rcases List.mem_cons.mp hx with rfl | hx
      · rfl
      · exact hp x hx

/-- C10: for every state and Terraform outputs on which `generateGCPOps`
succeeds, the ops on the path of the vm extensions are: for the load balancer
type `cf` exactly four, named `cf-router-network-properties`,
`diego-ssh-proxy-network-properties`, `cf-tcp-router-network-properties` and
`credhub-network-properties` in that order; for `concourse` exactly one, named
`lb`; for every other type none; and they are the end of the list, all ops
before them being on the paths of the availability zones and the networks. -/
theorem generateGCPOps_vm_extensions (ParseCIDRBlock : String → Except GoError CIDRBlock)
    (o : OpsGenerator) (state : State) (ops : List op)
    (h : o.generateGCPOps ParseCIDRBlock state = (ops, none)) :
    (state.LB.Type_ = "cf" →
      (vmExtensionOps ops).map (fun x => x.Value.Name) =
        ["cf-router-network-properties", "diego-ssh-proxy-network-properties",
          "cf-tcp-router-network-properties", "credhub-network-properties"]) ∧
    (state.LB.Type_ = "concourse" → (vmExtensionOps ops).map (fun x => x.Value.Name) = ["lb"]) ∧
    (state.LB.Type_ ≠ "cf" → state.LB.Type_ ≠ "concourse" → vmExtensionOps ops = []) ∧
    (∃ pre, ops = pre ++ vmExtensionOps ops ∧
      ∀ x ∈ pre, x.Path = "/azs/-" ∨ x.Path = "/networks/-") := by
  unfold OpsGenerator.generateGCPOps at h
  cases ho : o.terraformManager state with
  | error e => simp [ho] at h
  | ok outs =>
    simp only [ho] at h
    cases hs : subnetsLoop ParseCIDRBlock outs (state.GCP.Zones.getD []) 0 [] with
    | error e => simp [hs] at h
    | ok subnets =>
      simp only [hs] at h
      obtain ⟨l, hl, hp⟩ := azOpsLoop_paths (state.GCP.Zones.getD []) 0 []
      rw [hl] at h
      have hfl : l.filter (fun o => decide (o.Path = "/vm_extensions/-")) = [] := by
        rw [List.filter_eq_nil_iff]
        intro x hx
        simp [hp x hx]
      have hpre : ∀ x ∈ l ++ [createOp "replace" "/networks/-"
            (.ofNetwork { Name := "private", Subnets := subnets, Type_ := "manual" }),
          createOp "replace" "/networks/-"
            (.ofNetwork { Name := "default", Subnets := subnets, Type_ := "manual" })],
          x.Path = "/azs/-" ∨ x.Path = "/networks/-" := by
        intro x hx
        rcases List.mem_append.mp hx with hx | hx
        · exact Or.inl (hp x hx)
        · simp only [List.mem_cons, List.mem_singleton, List.not_mem_nil, or_false] at hx
          rcases hx with rfl | rfl <;> exact Or.inr rfl
      by_cases hcf : state.LB.Type_ = "cf"
      · have hcc : ¬ state.LB.Type_ = "concourse" := by rw [hcf]; decide
        simp only [hcf, if_true, Prod.mk.injEq, and_true] at h
        simp only [show ¬ ("cf" = "concourse") by decide, if_false] at h
        subst h
        refine ⟨fun _ => ?_, fun hc => absurd hc hcc, fun hn => absurd hcf hn, ?_⟩
        · simp [vmExtensionOps, List.filter_append, hfl, createOp, OpValue.Name]
        · refine ⟨_, ?_, hpre⟩
          simp [vmExtensionOps, List.filter_append, hfl, createOp]
      · by_cases hcc : state.LB.Type_ = "concourse"
        · simp only [hcc, if_true, Prod.mk.injEq, and_true] at h
          simp only [show ¬ ("concourse" = "cf") by decide, if_false] at h
          subst h
          refine ⟨fun hc => absurd hc hcf, fun _ => ?_, fun _ hn => absurd hcc hn, ?_⟩
          · simp [vmExtensionOps, List.filter_append, hfl, createOp, OpValue.Name]
          · refine ⟨_, ?_, hpre⟩
            simp [vmExtensionOps, List.filter_append, hfl, createOp]
        · simp only [hcf, hcc, if_false, Prod.mk.injEq, and_true] at h
          subst h
          refine ⟨fun hc => absurd hc hcf, fun hc => absurd hc hcc, fun _ _ => ?_, ?_⟩
          · simp [vmExtensionOps, List.filter_append, hfl, createOp]
          · refine ⟨_, ?_, hpre⟩
            simp [vmExtensionOps, List.filter_append, hfl, createOp]

/-- With two zones and the load balancer type `cf` the generator succeeds and
gives the four extensions. -/
theorem generateGCPOps_vm_extensions_witness :
    (sampleGenerator.generateGCPOps sampleParseCIDRBlock (zonesState "cf")).2 = none ∧
    (vmExtensionOps (sampleGenerator.generateGCPOps sampleParseCIDRBlock (zonesState "cf")).1).map
        (fun x => x.Value.Name) =
      ["cf-router-network-properties", "diego-ssh-proxy-network-properties",
        "cf-tcp-router-network-properties", "credhub-network-properties"] :=
  ⟨by decide,
    (generateGCPOps_vm_extensions sampleParseCIDRBlock sampleGenerator (zonesState "cf")
      (sampleGenerator.generateGCPOps sampleParseCIDRBlock (zonesState "cf")).1
      (Prod.ext rfl (by decide))).1 (by decide)⟩

/-! ## Subnets, zones and networks -/

/-- A generated subnet carries the zone name and the block it was asked for. -/
theorem generateNetworkSubnet_ok (parse : String → Except GoError CIDRBlock)
    (az cidr networkName subnetworkName internalTag : String) (subnet : networkSubnet)
    (h : generateNetworkSubnet parse az cidr networkName subnetworkName internalTag = .ok subnet) :
    subnet.AZ = az ∧ subnet.Range = cidr := by
  unfold generateNetworkSubnet at h
  cases hp : parse cidr with
  | error e => simp [hp] at h
  | ok block =>
    simp only [hp, Except.ok.injEq] at h
    subst h
    exact ⟨rfl, rfl⟩

/-- The first loop appends one op per zone, numbered from the index on. -/
theorem azOpsLoop_eq (zones : List String) (i : Nat) (acc : List op) :
    azOpsLoop zones i acc = acc ++ (zones.enumFrom i).map (fun p => azOp p.1 p.2) := by
  induction zones generalizing i acc with
  | nil => simp [azOpsLoop]
  | cons z rest ih =>
    simp only [azOpsLoop, List.enumFrom_cons, List.map_cons]
    rw [ih]
    simp [azOp]

/-- When the second loop succeeds it has appended one subnet per zone, each
with the name and the block of its index. -/
theorem subnetsLoop_ok (parse : String → Except GoError CIDRBlock) (outs : Outputs)
    (zones : List String) (i : Nat) (acc subnets : List networkSubnet)
    (h : subnetsLoop parse outs zones i acc = .ok subnets) :
    ∃ l, subnets = acc ++ l ∧ l.length = zones.length ∧
      ∀ k sn, l[k]? = some sn →
        sn.AZ = "z" ++ toString (i + k + 1) ∧
        sn.Range = "10.0." ++ toString (16 * (i + k + 1)) ++ ".0/20" := by
  induction zones generalizing i acc with
  | nil =>
    simp only [subnetsLoop, Except.ok.injEq] at h
    exact ⟨[], by simp [h], rfl, by simp⟩
  | cons z rest ih =>
    simp only [subnetsLoop] at h
    cases hg : generateNetworkSubnet parse ("z" ++ toString (i + 1))
        ("10.0." ++ toString (16 * (i + 1)) ++ ".0/20") (outs.GetString "network_name")
        (outs.GetString "subnetwork_name") (outs.GetString "internal_tag_name") with
    | error e => simp [hg] at h
    | ok sn0 =>
      simp only [hg] at h
      obtain ⟨l, hl, hlen, hk⟩ := ih (i + 1) (acc ++ [sn0]) h
      obtain ⟨haz, hrange⟩ := generateNetworkSubnet_ok parse _ _ _ _ _ sn0 hg
      refine ⟨sn0 :: l, by simp [hl], by simp [hlen], ?_⟩
      intro k sn hsn
      cases k with
      | zero =>
        simp only [List.getElem?_cons_zero, Option.some.injEq] at hsn
        subst hsn
        exact ⟨haz, hrange⟩
      | succ k =>
        simp only [List.getElem?_cons_succ] at hsn
        have := hk k sn hsn
        have e : i + 1 + k + 1 = i + (k + 1) + 1 := by omega
        rw [e] at this
        exact this

/-- The shape of a successful run of `generateGCPOps`: the ops of the zones,
the two network ops with the subnets of the second loop, then ops on the path
of the vm extensions, of which there are none for the empty load balancer
type. -/
theorem generateGCPOps_shape (parse : String → Except GoError CIDRBlock)
    (o : OpsGenerator) (state : State) (ops : List op)
    (h : o.generateGCPOps parse state = (ops, none)) :
    ∃ outs subnets tail,
      subnetsLoop parse outs (state.GCP.Zones.getD []) 0 [] = .ok subnets ∧
      ops = ((state.GCP.Zones.getD []).enumFrom 0).map (fun p => azOp p.1 p.2) ++
        [networkOp "private" subnets, networkOp "default" subnets] ++ tail ∧
      (∀ x ∈ tail, x.Path = "/vm_extensions/-") ∧
      (state.LB.Type_ = "" → tail = []) := by
  unfold OpsGenerator.generateGCPOps at h
  cases ho : o.terraformManager state with
  | error e => simp [ho] at h
  | ok outs =>
    simp only [ho] at h
    cases hs : subnetsLoop parse outs (state.GCP.Zones.getD []) 0 [] with
    | error e => simp [hs] at h
    | ok subnets =>
      simp only [hs] at h
      rw [azOpsLoop_eq] at h
      by_cases hcf : state.LB.Type_ = "cf"
      · simp only [hcf, if_true, Prod.mk.injEq, and_true] at h
        simp only [show ¬ ("cf" = "concourse") by decide, if_false] at h
        subst h
        refine ⟨outs, subnets, [createOp "replace" "/vm_extensions/-" (.ofLb {
            Name := "cf-router-network-properties"
            CloudProperties := {
              BackendService := outs.GetString "router_backend_service"
              TargetPool := outs.GetString "ws_target_pool"
              Tags := [outs.GetString "router_backend_service", outs.GetString "ws_target_pool"] } }),
          createOp "replace" "/vm_extensions/-" (.ofLb {
            Name := "diego-ssh-proxy-network-properties"
            CloudProperties := {
              BackendService := ""
              TargetPool := outs.GetString "ssh_proxy_target_pool"
              Tags := [outs.GetString "ssh_proxy_target_pool"] } }),
          createOp "replace" "/vm_extensions/-" (.ofLb {
            Name := "cf-tcp-router-network-properties"
            CloudProperties := {
              BackendService := ""
              TargetPool := outs.GetString "tcp_router_target_pool"
              Tags := [outs.GetString "tcp_router_target_pool"] } }),
          createOp "replace" "/vm_extensions/-" (.ofLb {
            Name := "credhub-network-properties"
            CloudProperties := {
              BackendService := ""
              TargetPool := outs.GetString "credhub_target_pool"
              Tags := [outs.GetString "credhub_target_pool"] } })], hs, ?_, ?_, ?_⟩
        rotate_left
        · intro x hx
          exact (List.mem_cons.mp hx).elim (fun e => e ▸ rfl) (fun hx =>
            (List.mem_cons.mp hx).elim (fun e => e ▸ rfl) (fun hx =>
              (List.mem_cons.mp hx).elim (fun e => e ▸ rfl) (fun hx =>
                (List.mem_singleton.mp hx) ▸ rfl)))
        · intro he
          rw [hcf] at he
          exact absurd he (by decide)
        · simp [networkOp, List.append_assoc]
      · by_cases hcc : state.LB.Type_ = "concourse"
        · simp only [hcc, if_true, Prod.mk.injEq, and_true] at h
          simp only [show ¬ ("concourse" = "cf") by decide, if_false] at h
          subst h
          refine ⟨outs, subnets, [createOp "replace" "/vm_extensions/-" (.ofLb {
              Name := "lb"
              CloudProperties := {
                BackendService := ""
                TargetPool := outs.GetString "concourse_target_pool"
                Tags := [] } })], hs, ?_, ?_, ?_⟩
          rotate_left
          · intro x hx
            exact (List.mem_singleton.mp hx) ▸ rfl
          · intro he
            rw [hcc] at he
            exact absurd he (by decide)
          · simp [networkOp, List.append_assoc]
        · simp only [hcf, hcc, if_false, Prod.mk.injEq, and_true] at h
          subst h
          exact ⟨outs, subnets, [], hs, by simp [networkOp], by simp, fun _ => rfl⟩

/-- The ops of the zones are not network ops. -/
theorem networkOps_azOps (l : List (Nat × String)) :
    networkOps (l.map (fun p => azOp p.1 p.2)) = [] := by
  simp only [networkOps, List.filter_eq_nil_iff, List.mem_map]
  rintro x ⟨p, _, rfl⟩
  simp [azOp, createOp]

/-- Ops on the path of the vm extensions are not network ops. -/
theorem networkOps_tail (tail : List op) (h : ∀ x ∈ tail, x.Path = "/vm_extensions/-") :
    networkOps tail = [] := by
  simp only [networkOps, List.filter_eq_nil_iff]
  intro x hx
  simp [h x hx]

/-- The network ops of a successful run are the two networks. -/
theorem generateGCPOps_networkOps (parse : String → Except GoError CIDRBlock)
    (o : OpsGenerator) (state : State) (ops : List op)
    (h : o.generateGCPOps parse state = (ops, none)) :
    ∃ outs subnets,
      subnetsLoop parse outs (state.GCP.Zones.getD []) 0 [] = .ok subnets ∧
      networkOps ops = [networkOp "private" subnets, networkOp "default" subnets] := by
  obtain ⟨outs, subnets, tail, hs, hops, htail, _⟩ := generateGCPOps_shape parse o state ops h
  refine ⟨outs, subnets, hs, ?_⟩
  have h1 := networkOps_azOps ((state.GCP.Zones.getD []).enumFrom 0)
  have h2 := networkOps_tail tail htail
  simp only [networkOps] at h1 h2 ⊢
  rw [hops, List.filter_append, List.filter_append, h1, h2]
  simp [networkOp, createOp]

/-- C11: for every CIDR block `cidr` that the parser accepts, with first
address `f` and last address `l` (the first address plus the size of the block
minus one), `generateNetworkSubnet` returns a subnet with range `cidr`, gateway
`f+1`, reserved entries `(f+2)-(f+3)` and `l`, and the one static entry
`(l-65)-(l-1)`; for `10.0.16.0/20` these are gateway `10.0.16.1`, reserved
`10.0.16.2-10.0.16.3` and `10.0.31.255`, static `10.0.31.190-10.0.31.254`. -/
theorem generateNetworkSubnet_ranges (parse : String → Except GoError CIDRBlock)
    (az cidr networkName subnetworkName internalTag : String) (block : CIDRBlock)
    (h : parse cidr = .ok block) :
    (∃ subnet,
      generateNetworkSubnet parse az cidr networkName subnetworkName internalTag = .ok subnet ∧
      subnet.Range = cidr ∧
      subnet.Gateway = IP.String ⟨block.GetFirstIP.ip + 1⟩ ∧
      subnet.Reserved =
        [IP.String ⟨block.GetFirstIP.ip + 2⟩ ++ "-" ++ IP.String ⟨block.GetFirstIP.ip + 3⟩,
          block.GetLastIP.String] ∧
      subnet.Static =
        [IP.String ⟨block.GetLastIP.ip - 65⟩ ++ "-" ++ IP.String ⟨block.GetLastIP.ip - 1⟩]) ∧
    block.GetLastIP.ip = block.GetFirstIP.ip + block.CIDRSize - 1 ∧
    generateNetworkSubnet ParseCIDRBlock az "10.0.16.0/20" networkName subnetworkName internalTag =
      .ok ⟨az, "10.0.16.1", "10.0.16.0/20", ["10.0.16.2-10.0.16.3", "10.0.31.255"],
        ["10.0.31.190-10.0.31.254"], ⟨true, networkName, subnetworkName, [internalTag]⟩⟩ := by
  refine ⟨?_, ?_, ?_⟩
  · simp only [generateNetworkSubnet, h]
    exact ⟨_, rfl, rfl, rfl, rfl, rfl⟩
  · simp only [CIDRBlock.GetLastIP, CIDRBlock.GetFirstIP, IP.Add]
    omega
  · rfl

/-- The block of the second zone, `10.0.32.0/20`, parsed by the parser of the
model. -/
theorem generateNetworkSubnet_ranges_witness :
    ParseCIDRBlock "10.0.32.0/20" = .ok ⟨4096, ⟨167780352⟩⟩ ∧
    (∃ subnet,
      generateNetworkSubnet ParseCIDRBlock "z2" "10.0.32.0/20" "net" "subnet" "tag" = .ok subnet ∧
      subnet.Range = "10.0.32.0/20" ∧
      subnet.Gateway = IP.String ⟨(CIDRBlock.mk 4096 ⟨167780352⟩).GetFirstIP.ip + 1⟩ ∧
      subnet.Reserved =
        [IP.String ⟨(CIDRBlock.mk 4096 ⟨167780352⟩).GetFirstIP.ip + 2⟩ ++ "-" ++
            IP.String ⟨(CIDRBlock.mk 4096 ⟨167780352⟩).GetFirstIP.ip + 3⟩,
          (CIDRBlock.mk 4096 ⟨167780352⟩).GetLastIP.String] ∧
      subnet.Static =
        [IP.String ⟨(CIDRBlock.mk 4096 ⟨167780352⟩).GetLastIP.ip - 65⟩ ++ "-" ++
          IP.String ⟨(CIDRBlock.mk 4096 ⟨167780352⟩).GetLastIP.ip - 1⟩]) ∧
    IP.String ⟨(CIDRBlock.mk 4096 ⟨167780352⟩).GetFirstIP.ip + 1⟩ = "10.0.32.1" ∧
    (CIDRBlock.mk 4096 ⟨167780352⟩).GetLastIP.String = "10.0.47.255" :=
  ⟨rfl,
    (generateNetworkSubnet_ranges ParseCIDRBlock "z2" "10.0.32.0/20" "net" "subnet" "tag"
      ⟨4096, ⟨167780352⟩⟩ rfl).1,
    by decide, by decide⟩

/-- C12: for every state on which `generateGCPOps` succeeds, the ops on the
path of the networks are exactly two, first the network `private` and then the
network `default`, both of type `manual` and both with the same list of
subnets, one per configured zone; with two zones and the empty load balancer
type the whole list is the two zone ops followed by these two network ops,
with no op for vm extensions. -/
theorem generateGCPOps_networks (parse : String → Except GoError CIDRBlock)
    (o : OpsGenerator) (state : State) (ops : List op)
    (h : o.generateGCPOps parse state = (ops, none)) :
    ∃ subnets,
      networkOps ops =
        [createOp "replace" "/networks/-"
            (.ofNetwork { Name := "private", Subnets := subnets, Type_ := "manual" }),
          createOp "replace" "/networks/-"
            (.ofNetwork { Name := "default", Subnets := subnets, Type_ := "manual" })] ∧
      subnets.length = (state.GCP.Zones.getD []).length ∧
      (∀ za zb, state.GCP.Zones = some [za, zb] → state.LB.Type_ = "" →
        ops =
          [createOp "replace" "/azs/-"
              (.ofAz { Name := "z1", CloudProperties := { AvailabilityZone := za } }),
            createOp "replace" "/azs/-"
              (.ofAz { Name := "z2", CloudProperties := { AvailabilityZone := zb } }),
            createOp "replace" "/networks/-"
              (.ofNetwork { Name := "private", Subnets := subnets, Type_ := "manual" }),
            createOp "replace" "/networks/-"
              (.ofNetwork { Name := "default", Subnets := subnets, Type_ := "manual" })] ∧
        vmExtensionOps ops = []) := by
  obtain ⟨outs, subnets, tail, hs, hops, htail, hempty⟩ := generateGCPOps_shape parse o state ops h
  obtain ⟨outs2, subnets2, hs2, hnet⟩ := generateGCPOps_networkOps parse o state ops h
  obtain ⟨l, hl, hlen, _⟩ := subnetsLoop_ok parse outs _ 0 [] subnets hs
  have hsub : subnets2 = subnets := by
    have e1 : networkOps ops = [networkOp "private" subnets, networkOp "default" subnets] := by
      have h1 := networkOps_azOps ((state.GCP.Zones.getD []).enumFrom 0)
      have h2 := networkOps_tail tail htail
      simp only [networkOps] at h1 h2 ⊢
      rw [hops, List.filter_append, List.filter_append, h1, h2]
      simp [networkOp, createOp]
    rw [e1] at hnet
    simp only [networkOp, createOp, List.cons.injEq, op.mk.injEq, OpValue.ofNetwork.injEq,
      network.mk.injEq, true_and, and_true, and_self] at hnet
    exact hnet.symm
  subst hsub
  refine ⟨subnets2, hnet, ?_, ?_⟩
  · rw [hl]
    simpa using hlen
  · intro za zb hz hlb
    rw [hops, hempty hlb, hz]
    refine ⟨?_, ?_⟩
    · simp only [Option.getD_some, List.enumFrom_cons, List.enumFrom_nil, List.map_cons,
        List.map_nil, List.append_nil, List.cons_append, List.nil_append, azOp, networkOp]
      rfl
    · simp [vmExtensionOps, azOp, networkOp, createOp]

/-- With two zones and no load balancer the generator gives four ops. -/
theorem generateGCPOps_networks_witness :
    (sampleGenerator.generateGCPOps sampleParseCIDRBlock (zonesState "")).2 = none ∧
    (sampleGenerator.generateGCPOps sampleParseCIDRBlock (zonesState "")).1.map
        (fun x => (x.Path, x.Value.Name)) =
      [("/azs/-", "z1"), ("/azs/-", "z2"), ("/networks/-", "private"),
        ("/networks/-", "default")] ∧
    (∃ subnets,
      networkOps (sampleGenerator.generateGCPOps sampleParseCIDRBlock (zonesState "")).1 =
        [createOp "replace" "/networks/-"
            (.ofNetwork { Name := "private", Subnets := subnets, Type_ := "manual" }),
          createOp "replace" "/networks/-"
            (.ofNetwork { Name := "default", Subnets := subnets, Type_ := "manual" })] ∧
      subnets.length = 2) :=
  ⟨by decide, by decide,
    (generateGCPOps_networks sampleParseCIDRBlock sampleGenerator (zonesState "")
      (sampleGenerator.generateGCPOps sampleParseCIDRBlock (zonesState "")).1
      (Prod.ext rfl (by decide))).imp (fun _ hx => ⟨hx.1, hx.2.1⟩)⟩

/-- The op at the index of a zone, in a list that starts with the ops of the
zones, is the op of that zone. -/
theorem azOps_getElem (zones : List String) (rest : List op) (i : Nat) (z : String)
    (hz : zones[i]? = some z) :
    ((zones.enumFrom 0).map (fun p => azOp p.1 p.2) ++ rest)[i]? = some (azOp i z) := by
  have hlt : i < zones.length := by
    rcases Nat.lt_or_ge i zones.length with hlt | hge
    · exact hlt
    · rw [List.getElem?_eq_none hge] at hz
      cases hz
  rw [List.getElem?_append_left (by simpa using hlt)]
  simp [List.getElem?_enumFrom, hz]

/-- C13: for every state with zones `z_0 .. z_(n-1)` on which `generateGCPOps`
succeeds, the op at each index `i` below `n` is a replace op on the path of
the availability zones with the name `z` followed by `i+1` and the zone `z_i`;
the two networks carry `n` subnets, and the subnet at index `i` has as its
zone name that same name and as its range `10.0.(16*(i+1)).0/20`, so that each
subnet names a zone that one of the first `n` ops declares. -/
theorem generateGCPOps_zones (parse : String → Except GoError CIDRBlock)
    (o : OpsGenerator) (state : State) (ops : List op)
    (h : o.generateGCPOps parse state = (ops, none)) :
    (∀ i z, (state.GCP.Zones.getD [])[i]? = some z →
      ops[i]? = some (createOp "replace" "/azs/-"
        (.ofAz { Name := "z" ++ toString (i + 1), CloudProperties := { AvailabilityZone := z } }))) ∧
    ∃ subnets,
      networkOps ops =
        [createOp "replace" "/networks/-"
            (.ofNetwork { Name := "private", Subnets := subnets, Type_ := "manual" }),
          createOp "replace" "/networks/-"
            (.ofNetwork { Name := "default", Subnets := subnets, Type_ := "manual" })] ∧
      subnets.length = (state.GCP.Zones.getD []).length ∧
      ∀ i sn, subnets[i]? = some sn →
        sn.AZ = "z" ++ toString (i + 1) ∧
        sn.Range = "10.0." ++ toString (16 * (i + 1)) ++ ".0/20" ∧
        ∃ z, (state.GCP.Zones.getD [])[i]? = some z ∧
          ops[i]? = some (createOp "replace" "/azs/-"
            (.ofAz { Name := sn.AZ, CloudProperties := { AvailabilityZone := z } })) := by
  obtain ⟨outs, subnets, tail, hs, hops, htail, _⟩ := generateGCPOps_shape parse o state ops h
  obtain ⟨l, hl, hlen, hk⟩ := subnetsLoop_ok parse outs _ 0 [] subnets hs
  have hsl : subnets = l := by simpa using hl
  subst hsl
  have hget : ∀ i z, (state.GCP.Zones.getD [])[i]? = some z →
      ops[i]? = some (azOp i z) := by
    intro i z hz
    rw [hops, List.append_assoc]
    exact azOps_getElem _ _ i z hz
  refine ⟨fun i z hz => hget i z hz, subnets, ?_, hlen, ?_⟩
  · have h1 := networkOps_azOps ((state.GCP.Zones.getD []).enumFrom 0)
    have h2 := networkOps_tail tail htail
    simp only [networkOps] at h1 h2 ⊢
    rw [hops, List.filter_append, List.filter_append, h1, h2]
    simp [networkOp, createOp]
  · intro i sn hsn
    have hi := hk i sn hsn
    simp only [Nat.zero_add] at hi
    have hlt : i < (state.GCP.Zones.getD []).length := by
      rcases Nat.lt_or_ge i subnets.length with hlt | hge
      · exact hlen ▸ hlt
      · rw [List.getElem?_eq_none hge] at hsn
        cases hsn
    refine ⟨hi.1, hi.2, (state.GCP.Zones.getD [])[i], List.getElem?_eq_getElem hlt, ?_⟩
    rw [hget i _ (List.getElem?_eq_getElem hlt), hi.1]
    rfl

/-- With the zones `zone-a` and `zone-b` the second op declares `z2` for
`zone-b`. -/
theorem generateGCPOps_zones_witness :
    (sampleGenerator.generateGCPOps sampleParseCIDRBlock (zonesState "cf")).2 = none ∧
    ((zonesState "cf").GCP.Zones.getD [])[1]? = some "zone-b" ∧
    (sampleGenerator.generateGCPOps sampleParseCIDRBlock (zonesState "cf")).1[1]? =
      some (createOp "replace" "/azs/-"
        (.ofAz { Name := "z" ++ toString (1 + 1), CloudProperties := { AvailabilityZone := "zone-b" } })) :=
  ⟨by decide, by decide,
    (generateGCPOps_zones sampleParseCIDRBlock sampleGenerator (zonesState "cf")
      (sampleGenerator.generateGCPOps sampleParseCIDRBlock (zonesState "cf")).1
      (Prod.ext rfl (by decide))).1 1 "zone-b" (by decide)⟩

/-- C14: when the Terraform manager fails to get the outputs for the state,
`Generate` returns the empty string and that same error, unchanged. -/
theorem Generate_outputs_error (marshal : List op → Except GoError String) (BaseOps : String)
    (parse : String → Except GoError CIDRBlock) (o : OpsGenerator) (state : State) (err : GoError)
    (h : o.terraformManager state = .error err) :
    o.Generate marshal BaseOps parse state = ("", some err) := by
  simp [OpsGenerator.Generate, OpsGenerator.generateGCPOps, h]

/-- A failing Terraform manager makes `Generate` fail with its error. -/
theorem Generate_outputs_error_witness :
    failingGenerator.terraformManager (zonesState "cf") = .error (errorsNew "failed to get outputs") ∧
    failingGenerator.Generate sampleMarshalOps "base" ParseCIDRBlock (zonesState "cf") =
      ("", some (errorsNew "failed to get outputs")) :=
  ⟨rfl, Generate_outputs_error sampleMarshalOps "base" ParseCIDRBlock failingGenerator
    (zonesState "cf") (errorsNew "failed to get outputs") rfl⟩

end CloudconfigGcp

namespace TerraformGcp

open Storage

/-! ## Terraform inputs for GCP -/

/-- A failing zone retriever makes `Generate` fail before it touches the file
system. -/
theorem Generate_retriever_error (env : Env) (i : InputGenerator) (state : State) (fs : FS)
    (cause : GoError) (h : i.gcpAvailabilityZoneRetriever state.GCP.Region = .error cause) :
    i.Generate env state fs = (fs, [], some (fmtErrorf "Retrieving availability zones: " cause)) := by
  simp [InputGenerator.Generate, h]

/-- An empty zone list makes `Generate` fail before it touches the file
system. -/
theorem Generate_no_zones (env : Env) (i : InputGenerator) (state : State) (fs : FS)
    (h : i.gcpAvailabilityZoneRetriever state.GCP.Region = .ok []) :
    i.Generate env state fs = (fs, [], some (errorsNew "Zone list is empty")) := by
  simp [InputGenerator.Generate, h]

/-- The result of `Generate` when the zones are there, the temp dir is made
and the credentials are written, without a certificate or without a key. -/
theorem Generate_ok_plain (env : Env) (i : InputGenerator) (state : State) (fs fs1 fs2 : FS)
    (az0 dir : String) (rest : List String)
    (hz : i.gcpAvailabilityZoneRetriever state.GCP.Region = .ok (az0 :: rest))
    (ht : env.tempDir fs "" "" = (fs1, .ok dir))
    (hw : env.writeFile fs1 (filepathJoin dir "credentials.json") state.GCP.ServiceAccountKey =
      (fs2, none))
    (hck : ¬ (state.LB.Cert ≠ "" ∧ state.LB.Key ≠ "")) :
    i.Generate env state fs =
      (fs2, [("env_id", state.EnvID), ("project_id", state.GCP.ProjectID),
        ("region", state.GCP.Region), ("zone", az0),
        ("availability_zones",
          "[" ++ String.intercalate "," ((az0 :: rest).map (jsonString env.shortForms)) ++ "]"),
        ("credentials", (filepathJoin dir "credentials.json").toString),
        ("system_domain", state.LB.Domain)], none) := by
  simp only [InputGenerator.Generate, hz, jsonMarshal, ht, hw, if_neg hck, List.length_cons,
    Nat.add_one_ne_zero, if_false, List.headD_cons]

/-- The result of `Generate` when the zones are there, the temp dir is made
and the credentials, the certificate and the key are written. -/
theorem Generate_ok_cert (env : Env) (i : InputGenerator) (state : State) (fs fs1 fs2 fs3 fs4 : FS)
    (az0 dir : String) (rest : List String)
    (hz : i.gcpAvailabilityZoneRetriever state.GCP.Region = .ok (az0 :: rest))
    (ht : env.tempDir fs "" "" = (fs1, .ok dir))
    (hw : env.writeFile fs1 (filepathJoin dir "credentials.json") state.GCP.ServiceAccountKey =
      (fs2, none))
    (hck : state.LB.Cert ≠ "" ∧ state.LB.Key ≠ "")
    (hw3 : env.writeFile fs2 (filepathJoin dir "cert") state.LB.Cert = (fs3, none))
    (hw4 : env.writeFile fs3 (filepathJoin dir "key") state.LB.Key = (fs4, none)) :
    i.Generate env state fs =
      (fs4, [("env_id", state.EnvID), ("project_id", state.GCP.ProjectID),
        ("region", state.GCP.Region), ("zone", az0),
        ("availability_zones",
          "[" ++ String.intercalate "," ((az0 :: rest).map (jsonString env.shortForms)) ++ "]"),
        ("credentials", (filepathJoin dir "credentials.json").toString),
        ("system_domain", state.LB.Domain),
        ("ssl_certificate", (filepathJoin dir "cert").toString),
        ("ssl_certificate_private_key", (filepathJoin dir "key").toString)], none) := by
  simp only [InputGenerator.Generate, hz, jsonMarshal, ht, hw, if_pos hck, hw3, hw4,
    List.length_cons, Nat.add_one_ne_zero, if_false, List.headD_cons]
  simp [StringMap.set]

/-- C15: when temp-dir creation and the file writes succeed, `Generate`
returns an error exactly when the zone retriever fails or returns an empty
list; the error is `Retrieving availability zones: ` followed by the cause in
the first case and `Zone list is empty` in the second, and in both cases the
map is empty and the file system is as before. -/
theorem Generate_zone_errors (env : Env) (i : InputGenerator) (state : State) (fs : FS)
    (hio : IOSucceeds env state fs) :
    ((i.Generate env state fs).2.2 ≠ none ↔
      ((∃ cause, i.gcpAvailabilityZoneRetriever state.GCP.Region = .error cause) ∨
        i.gcpAvailabilityZoneRetriever state.GCP.Region = .ok [])) ∧
    (∀ cause, i.gcpAvailabilityZoneRetriever state.GCP.Region = .error cause →
      i.Generate env state fs =
        (fs, [], some ⟨"Retrieving availability zones: " ++ cause.msg, false⟩)) ∧
    (i.gcpAvailabilityZoneRetriever state.GCP.Region = .ok [] →
      i.Generate env state fs = (fs, [], some ⟨"Zone list is empty", false⟩)) := by
  refine ⟨?_, fun cause h => Generate_retriever_error env i state fs cause h,
    fun h => Generate_no_zones env i state fs h⟩
  cases hz : i.gcpAvailabilityZoneRetriever state.GCP.Region with
  | error cause =>
    rw [Generate_retriever_error env i state fs cause hz]
    simp
  | ok azs =>
    cases azs with
    | nil =>
      rw [Generate_no_zones env i state fs hz]
      simp
    | cons az0 rest =>
      obtain ⟨fs1, dir, ht, fs2, hw, hcert⟩ := hio
      by_cases hck : state.LB.Cert ≠ "" ∧ state.LB.Key ≠ ""
      · obtain ⟨fs3, hw3, fs4, hw4⟩ := hcert hck
        rw [Generate_ok_cert env i state fs fs1 fs2 fs3 fs4 az0 dir rest hz ht hw hck hw3 hw4]
        simp
      · rw [Generate_ok_plain env i state fs fs1 fs2 az0 dir rest hz ht hw hck]
        simp

/-- A failing retriever, with a working temp dir and working writes. -/
theorem Generate_zone_errors_witness :
    IOSucceeds sampleEnv (inputState "" "") emptyDirFS ∧
    (failingZonesGenerator.Generate sampleEnv (inputState "" "") emptyDirFS).2 =
      ([], some ⟨"Retrieving availability zones: failed to get zones", false⟩) :=
  ⟨⟨_, _, rfl, _, rfl, fun h => absurd h.1 (by decide)⟩,
    congrArg Prod.snd
      ((Generate_zone_errors sampleEnv failingZonesGenerator (inputState "" "") emptyDirFS
        ⟨_, _, rfl, _, rfl, fun h => absurd h.1 (by decide)⟩).2.1
        (errorsNew "failed to get zones") rfl)⟩

/-- C16: for every state and zone list `az0 :: rest`, when temp-dir creation
and the file writes succeed, `Generate` returns without error the map with
`env_id`, `project_id`, `region`, `zone` (the first zone), `availability_zones`
(the JSON array of the zones in order), `credentials` (the join of the temp
dir and `credentials.json`) and `system_domain`, followed by `ssl_certificate`
and `ssl_certificate_private_key` (the joins of the temp dir and `cert` and
`key`) exactly when the certificate and the key of the load balancer are both
non-empty, and no other key. The joins are the clean paths `filepath.Join`
makes; for a temp dir that is a path of plain names, as `ioutil.TempDir`
returns it, they are the temp dir, a slash and the name. With
`ioutil.WriteFile` as the writer the credentials file holds the service account
key. -/
theorem Generate_inputs (env : Env) (i : InputGenerator) (state : State) (fs : FS)
    (az0 : String) (rest : List String)
    (hz : i.gcpAvailabilityZoneRetriever state.GCP.Region = .ok (az0 :: rest))
    (hio : IOSucceeds env state fs) :
    ∃ fs1 dir fs5, env.tempDir fs "" "" = (fs1, .ok dir) ∧
      i.Generate env state fs =
        (fs5, [("env_id", state.EnvID), ("project_id", state.GCP.ProjectID),
          ("region", state.GCP.Region), ("zone", az0),
          ("availability_zones",
            "[" ++ String.intercalate "," ((az0 :: rest).map (jsonString env.shortForms)) ++ "]"),
          ("credentials", (filepathJoin dir "credentials.json").toString),
          ("system_domain", state.LB.Domain)] ++
          (if state.LB.Cert ≠ "" ∧ state.LB.Key ≠ "" then
            [("ssl_certificate", (filepathJoin dir "cert").toString),
              ("ssl_certificate_private_key", (filepathJoin dir "key").toString)]
          else []), none) ∧
      (∀ rooted names, names ≠ [] → (∀ n ∈ names, PlainName n) → dir = plainPath rooted names →
        (filepathJoin dir "credentials.json").toString = dir ++ "/" ++ "credentials.json" ∧
        (filepathJoin dir "cert").toString = dir ++ "/" ++ "cert" ∧
        (filepathJoin dir "key").toString = dir ++ "/" ++ "key") ∧
      (env.writeFile = ioutilWriteFile →
        fs5.read (filepathJoin dir "credentials.json") = some state.GCP.ServiceAccountKey) := by
  obtain ⟨fs1, dir, ht, fs2, hw, hcert⟩ := hio
  have hplain : ∀ rooted names, names ≠ [] → (∀ n ∈ names, PlainName n) →
      dir = plainPath rooted names →
      (filepathJoin dir "credentials.json").toString = dir ++ "/" ++ "credentials.json" ∧
      (filepathJoin dir "cert").toString = dir ++ "/" ++ "cert" ∧
      (filepathJoin dir "key").toString = dir ++ "/" ++ "key" := by
    intro rooted names hne hn hd
    subst hd
    exact ⟨filepathJoin_plain rooted names "credentials.json" hne hn
        ⟨by decide, by decide, by decide, by decide⟩,
      filepathJoin_plain rooted names "cert" hne hn ⟨by decide, by decide, by decide, by decide⟩,
      filepathJoin_plain rooted names "key" hne hn ⟨by decide, by decide, by decide, by decide⟩⟩
  have hcred : env.writeFile = ioutilWriteFile →
      fs1.dirs dir = true ∧ fs2 = fs1.put (filepathJoin dir "credentials.json")
        state.GCP.ServiceAccountKey := by
    intro he
    rw [he] at hw
    simp only [ioutilWriteFile, filepathJoin] at hw
    by_cases hd : fs1.dirs dir = true
    · simp only [hd, if_true, Prod.mk.injEq, and_true] at hw
      exact ⟨hd, hw.symm⟩
    · simp [hd] at hw
  by_cases hck : state.LB.Cert ≠ "" ∧ state.LB.Key ≠ ""
  · obtain ⟨fs3, hw3, fs4, hw4⟩ := hcert hck
    refine ⟨fs1, dir, fs4, ht, ?_, hplain, ?_⟩
    · rw [Generate_ok_cert env i state fs fs1 fs2 fs3 fs4 az0 dir rest hz ht hw hck hw3 hw4]
      simp [hck]
    · intro he
      obtain ⟨hd, h2⟩ := hcred he
      rw [he] at hw3 hw4
      have hd2 : fs2.dirs dir = true := by rw [h2]; exact hd
      simp only [ioutilWriteFile, filepathJoin, hd2, if_true, Prod.mk.injEq, and_true] at hw3
      have hd3 : fs3.dirs dir = true := by rw [← hw3]; exact hd2
      simp only [ioutilWriteFile, filepathJoin, hd3, if_true, Prod.mk.injEq, and_true] at hw4
      rw [← hw4, ← hw3, h2]
      simp [FS.read, FS.put, filepathJoin, hd]
  · refine ⟨fs1, dir, fs2, ht, ?_, hplain, ?_⟩
    · rw [Generate_ok_plain env i state fs fs1 fs2 az0 dir rest hz ht hw hck]
      simp [hck]
    · intro he
      obtain ⟨hd, h2⟩ := hcred he
      rw [h2]
      exact read_put_same fs1 _ _ hd

/-- Two zones, a certificate and a key: nine inputs, the first zone as
`zone`, and the files in the temp dir `/tmp/bbl-1`, which is a path of plain
names. -/
theorem Generate_inputs_witness :
    (zonesGenerator ["zone-a", "zone-b"]).gcpAvailabilityZoneRetriever
        (inputState "some-cert" "some-key").GCP.Region = .ok ["zone-a", "zone-b"] ∧
    IOSucceeds sampleEnv (inputState "some-cert" "some-key") emptyDirFS ∧
    plainPath true ["tmp", "bbl-1"] = "/tmp/bbl-1" ∧
    ((zonesGenerator ["zone-a", "zone-b"]).Generate sampleEnv (inputState "some-cert" "some-key")
        emptyDirFS).2 =
      ([("env_id", "some-env"), ("project_id", "some-project"), ("region", "some-region"),
        ("zone", "zone-a"), ("availability_zones", "[\"zone-a\",\"zone-b\"]"),
        ("credentials", "/tmp/bbl-1/credentials.json"), ("system_domain", "example.com"),
        ("ssl_certificate", "/tmp/bbl-1/cert"),
        ("ssl_certificate_private_key", "/tmp/bbl-1/key")], none) := by
  have hio : IOSucceeds sampleEnv (inputState "some-cert" "some-key") emptyDirFS :=
    ⟨_, _, rfl, _, rfl, fun _ => ⟨_, rfl, _, rfl⟩⟩
  obtain ⟨fs1, dir, fs5, ht, hg, hplain, _⟩ :=
    Generate_inputs sampleEnv (zonesGenerator ["zone-a", "zone-b"])
      (inputState "some-cert" "some-key") emptyDirFS "zone-a" ["zone-b"] rfl hio
  refine ⟨rfl, hio, by decide, ?_⟩
  have hdir : dir = "/tmp/bbl-1" := by
    have := congrArg Prod.snd ht
    simp only [sampleEnv, sampleTempDir] at this
    injection this with h
    exact h.symm
  obtain ⟨h1, h2, h3⟩ := hplain true ["tmp", "bbl-1"] (by decide) (by decide)
    (hdir.trans (by decide))
  rw [hg, h1, h2, h3, hdir]
  dsimp only
  decide

/-- The join for a temp dir with a slash at its end and for an empty one: the
slash is not doubled, and there is no slash before the name. -/
theorem filepathJoin_clean_samples :
    (filepathJoin "/tmp/bbl-1/" "credentials.json").toString = "/tmp/bbl-1/credentials.json" ∧
    (filepathJoin "" "credentials.json").toString = "credentials.json" ∧
    (filepathJoin "/" "cert").toString = "/cert" ∧
    (filepathJoin "a/../b/./" "key").toString = "b/key" := by
  refine ⟨by decide, by decide, by decide, by decide⟩

end TerraformGcp

namespace Bosh

open Storage

/-! ## Scripts are not overwritten -/

/-- A script that is there is left as it is. -/
theorem writeScript_exists (fs : FS) (p : Path) (script content : String)
    (h : fs.read p = some content) : writeScript fs p script = (fs, none) := by
  simp [writeScript, h]

/-- Writing a script succeeds in an existing directory and leaves every other
file as it is. -/
theorem writeScript_frame (fs : FS) (p q : Path) (script content : String)
    (hdir : fs.dirs p.dir = true) (hq : fs.read q = some content) (hne : q ≠ p) :
    (writeScript fs p script).2 = none ∧ (writeScript fs p script).1.read q = some content := by
  cases hr : fs.read p with
  | some c =>
    rw [writeScript_exists fs p script c hr]
    exact ⟨rfl, hq⟩
  | none =>
    simp only [writeScript, hr, ioutilWriteFile, hdir, if_true, true_and]
    simp only [FS.read, FS.put] at hq ⊢
    have hpq : ¬ (q.dir = p.dir ∧ q.base = p.base) := by
      rintro ⟨h1, h2⟩
      apply hne
      cases p
      cases q
      simp_all
    simpa [hpq] using hq

/-- The directory of a file that can be read exists. -/
theorem dirs_of_read {fs : FS} {p : Path} {content : String} (h : fs.read p = some content) :
    fs.dirs p.dir = true := by
  simp only [FS.read] at h
  by_cases hd : fs.dirs p.dir = true
  · exact hd
  · simp [hd] at h

/-- When the create-env script of a deployment exists, writing the scripts
succeeds and leaves it as it is. -/
theorem writeScripts_keeps_create (e : Executor) (deployment stateDir : String)
    (args : List String) (w : World) (content : String)
    (hne : "create-" ++ deployment ++ ".sh" ≠ "delete-" ++ deployment ++ ".sh")
    (h : w.fs.read (filepathJoin stateDir ("create-" ++ deployment ++ ".sh")) = some content) :
    (writeScripts e deployment stateDir args w).2 = none ∧
    (writeScripts e deployment stateDir args w).1.fs.read
      (filepathJoin stateDir ("create-" ++ deployment ++ ".sh")) = some content := by
  have hd := dirs_of_read h
  have hpq : filepathJoin stateDir ("create-" ++ deployment ++ ".sh") ≠
      filepathJoin stateDir ("delete-" ++ deployment ++ ".sh") := by
    intro he
    injection he with _ hb
    exact hne hb
  obtain ⟨h1, h2⟩ := writeScript_frame w.fs
    (filepathJoin stateDir ("delete-" ++ deployment ++ ".sh")) _
    (formatScript e.command.GetBOSHPath "delete-env" args) content hd h hpq
  simp only [writeScripts, writeScript_exists w.fs _ _ content h]
  cases hw : writeScript w.fs (filepathJoin stateDir ("delete-" ++ deployment ++ ".sh"))
      (formatScript e.command.GetBOSHPath "delete-env" args) with
  | mk fs2 err =>
    rw [hw] at h1 h2
    simp only at h1 h2
    subst h1
    refine ⟨?_, h2⟩
    rfl

/-- When the delete-env script of a deployment exists, writing the scripts
succeeds and leaves it as it is. -/
theorem writeScripts_keeps_delete (e : Executor) (deployment stateDir : String)
    (args : List String) (w : World) (content : String)
    (hne : "create-" ++ deployment ++ ".sh" ≠ "delete-" ++ deployment ++ ".sh")
    (h : w.fs.read (filepathJoin stateDir ("delete-" ++ deployment ++ ".sh")) = some content) :
    (writeScripts e deployment stateDir args w).2 = none ∧
    (writeScripts e deployment stateDir args w).1.fs.read
      (filepathJoin stateDir ("delete-" ++ deployment ++ ".sh")) = some content := by
  have hd := dirs_of_read h
  have hpq : filepathJoin stateDir ("delete-" ++ deployment ++ ".sh") ≠
      filepathJoin stateDir ("create-" ++ deployment ++ ".sh") := by
    intro he
    injection he with _ hb
    exact hne hb.symm
  obtain ⟨h1, h2⟩ := writeScript_frame w.fs
    (filepathJoin stateDir ("create-" ++ deployment ++ ".sh")) _
    (formatScript e.command.GetBOSHPath "create-env" args) content hd h hpq
  simp only [writeScripts]
  cases hw : writeScript w.fs (filepathJoin stateDir ("create-" ++ deployment ++ ".sh"))
      (formatScript e.command.GetBOSHPath "create-env" args) with
  | mk fs1 err =>
    rw [hw] at h1 h2
    simp only at h1 h2
    subst h1
    simp only [writeScript_exists fs1 _ _ content h2]
    refine ⟨?_, h2⟩
    trivial

/-- C17: for `JumpboxCreateEnvArgs` and for `DirectorCreateEnvArgs`, and for
every content: when `create-jumpbox.sh`, respectively `create-director.sh`,
exists in the state directory the call succeeds and the script holds what it
held; the same for `delete-jumpbox.sh` and `delete-director.sh`. -/
theorem createEnvArgs_keeps_scripts (e : Executor) (input : InterpolateInput) (w : World)
    (content : String) :
    (w.fs.read (filepathJoin input.StateDir "create-jumpbox.sh") = some content →
      (e.JumpboxCreateEnvArgs input w).2 = none ∧
      (e.JumpboxCreateEnvArgs input w).1.fs.read
        (filepathJoin input.StateDir "create-jumpbox.sh") = some content) ∧
    (w.fs.read (filepathJoin input.StateDir "delete-jumpbox.sh") = some content →
      (e.JumpboxCreateEnvArgs input w).2 = none ∧
      (e.JumpboxCreateEnvArgs input w).1.fs.read
        (filepathJoin input.StateDir "delete-jumpbox.sh") = some content) ∧
    (w.fs.read (filepathJoin input.StateDir "create-director.sh") = some content →
      (e.DirectorCreateEnvArgs input w).2 = none ∧
      (e.DirectorCreateEnvArgs input w).1.fs.read
        (filepathJoin input.StateDir "create-director.sh") = some content) ∧
    (w.fs.read (filepathJoin input.StateDir "delete-director.sh") = some content →
      (e.DirectorCreateEnvArgs input w).2 = none ∧
      (e.DirectorCreateEnvArgs input w).1.fs.read
        (filepathJoin input.StateDir "delete-director.sh") = some content) :=
  ⟨fun h => writeScripts_keeps_create e "jumpbox" input.StateDir _ w content (by decide) h,
    fun h => writeScripts_keeps_delete e "jumpbox" input.StateDir _ w content (by decide) h,
    fun h => writeScripts_keeps_create e "director" input.StateDir _ w content (by decide) h,
    fun h => writeScripts_keeps_delete e "director" input.StateDir _ w content (by decide) h⟩

/-- The script of the tests, `create-director.sh`, is kept, and the delete-env
script is written next to it. -/
theorem createEnvArgs_keeps_scripts_witness :
    (stateDirFS "create-director.sh" "#!/bin/bash\necho 'I already exist'\n").read
        (filepathJoin (sampleInput "gcp").StateDir "create-director.sh") =
      some "#!/bin/bash\necho 'I already exist'\n" ∧
    (((sampleExecutor (printingCommand "some-manifest") 0).DirectorCreateEnvArgs (sampleInput "gcp")
        ⟨stateDirFS "create-director.sh" "#!/bin/bash\necho 'I already exist'\n", none, []⟩).2 =
        none ∧
      ((sampleExecutor (printingCommand "some-manifest") 0).DirectorCreateEnvArgs (sampleInput "gcp")
        ⟨stateDirFS "create-director.sh" "#!/bin/bash\necho 'I already exist'\n", none,
          []⟩).1.fs.read
        (filepathJoin (sampleInput "gcp").StateDir "create-director.sh") =
        some "#!/bin/bash\necho 'I already exist'\n") ∧
    ((sampleExecutor (printingCommand "some-manifest") 0).DirectorCreateEnvArgs (sampleInput "gcp")
        ⟨stateDirFS "create-director.sh" "#!/bin/bash\necho 'I already exist'\n", none,
          []⟩).1.fs.read
        (filepathJoin "state" "delete-director.sh") ≠ none :=
  ⟨by decide,
    (createEnvArgs_keeps_scripts (sampleExecutor (printingCommand "some-manifest") 0)
      (sampleInput "gcp")
      ⟨stateDirFS "create-director.sh" "#!/bin/bash\necho 'I already exist'\n", none, []⟩
      "#!/bin/bash\necho 'I already exist'\n").2.2.1 (by decide),
    by decide⟩

/-! ## Failing scripts -/

/-- C18: for every deployment whose create-env script exits with status 1,
`CreateEnv` returns the error `Run bosh create-env: exit status 1` and the
empty string, and makes no call of the bosh command; for every deployment
whose delete-env script exits with status 1, `DeleteEnv` returns the error
`Run bosh delete-env: exit status 1`, and makes no call of the bosh command. -/
theorem failing_script_errors (e : Executor) (w : World) :
    (∀ input : CreateEnvInput,
      (e.runScript w.fs (filepathJoin input.StateDir ("create-" ++ input.Deployment ++ ".sh"))
        input.StateDir).2 = some (exitStatus 1) →
      (e.CreateEnv input w).2 = ("", some ⟨"Run bosh create-env: exit status 1", false⟩) ∧
      (e.CreateEnv input w).1.runs = w.runs) ∧
    (∀ input : DeleteEnvInput,
      (e.runScript w.fs (filepathJoin input.StateDir ("delete-" ++ input.Deployment ++ ".sh"))
        input.StateDir).2 = some (exitStatus 1) →
      (e.DeleteEnv input w).2 = some ⟨"Run bosh delete-env: exit status 1", false⟩ ∧
      (e.DeleteEnv input w).1.runs = w.runs) := by
  have hc : fmtErrorf "Run bosh create-env: " (exitStatus 1) =
      ⟨"Run bosh create-env: exit status 1", false⟩ := by decide
  have hd : fmtErrorf "Run bosh delete-env: " (exitStatus 1) =
      ⟨"Run bosh delete-env: exit status 1", false⟩ := by decide
  refine ⟨?_, ?_⟩
  · intro input h
    simp only [Executor.CreateEnv]
    cases hr : e.runScript w.fs
        (filepathJoin input.StateDir ("create-" ++ input.Deployment ++ ".sh")) input.StateDir with
    | mk fs1 err =>
      rw [hr] at h
      simp only at h
      subst h
      simp only [hc]
      exact ⟨trivial, trivial⟩
  · intro input h
    simp only [Executor.DeleteEnv]
    cases hr : e.runScript w.fs
        (filepathJoin input.StateDir ("delete-" ++ input.Deployment ++ ".sh")) input.StateDir with
    | mk fs1 err =>
      rw [hr] at h
      simp only at h
      subst h
      simp only [hd]
      exact ⟨trivial, trivial⟩

/-- A create-env script that exits with status 1, for the deployment of the
tests. -/
theorem failing_script_errors_witness :
    ((sampleExecutor failingCommand 1).runScript (stateDirFS "create-some-deployment.sh" "exit 1")
      (filepathJoin "state" ("create-" ++ "some-deployment" ++ ".sh")) "state").2 =
      some (exitStatus 1) ∧
    ((sampleExecutor failingCommand 1).CreateEnv ⟨"some-deployment", "state", "vars"⟩
      ⟨stateDirFS "create-some-deployment.sh" "exit 1", none, []⟩).2 =
      ("", some ⟨"Run bosh create-env: exit status 1", false⟩) ∧
    ((sampleExecutor failingCommand 1).CreateEnv ⟨"some-deployment", "state", "vars"⟩
      ⟨stateDirFS "create-some-deployment.sh" "exit 1", none, []⟩).1.runs = [] :=
  ⟨rfl,
    ((failing_script_errors (sampleExecutor failingCommand 1)
      ⟨stateDirFS "create-some-deployment.sh" "exit 1", none, []⟩).1
      ⟨"some-deployment", "state", "vars"⟩ rfl).1,
    ((failing_script_errors (sampleExecutor failingCommand 1)
      ⟨stateDirFS "create-some-deployment.sh" "exit 1", none, []⟩).1
      ⟨"some-deployment", "state", "vars"⟩ rfl).2⟩

/-! ## The version of the bosh command -/

/-- The digits at the start of a text that goes on with something else. -/
theorem span_digits (ds rest : List Char) (hds : ∀ c ∈ ds, c.isDigit = true)
    (hrest : ∀ c, rest.head? = some c → c.isDigit = false) :
    (ds ++ rest).span Char.isDigit = (ds, rest) := by
  rw [List.span_eq_take_drop, List.takeWhile_append_of_pos hds, List.dropWhile_append_of_pos hds]
  cases rest with
  | nil => simp
  | cons c cs =>
    have hc : c.isDigit = false := hrest c rfl
    simp [hc]

/-- A version token at the start of a text is matched whole. -/
theorem matchVersion_token (major minor patch post : List Char)
    (hmajor : major ≠ [] ∧ ∀ c ∈ major, c.isDigit = true)
    (hminor : minor ≠ [] ∧ ∀ c ∈ minor, c.isDigit = true)
    (hpatch : patch ≠ [] ∧ ∀ c ∈ patch, c.isDigit = true)
    (hpost : ∀ c, post.head? = some c → c.isDigit = false) :
    matchVersion (major ++ '.' :: (minor ++ '.' :: (patch ++ post))) =
      some (major ++ '.' :: minor ++ '.' :: patch) := by
  have hdot : ∀ (l : List Char) (c : Char), ('.' :: l).head? = some c → c.isDigit = false := by
    intro l c hc
    simp only [List.head?_cons, Option.some.injEq] at hc
    subst hc
    decide
  have h1 := span_digits major ('.' :: (minor ++ '.' :: (patch ++ post))) hmajor.2 (hdot _)
  have h2 := span_digits minor ('.' :: (patch ++ post)) hminor.2 (hdot _)
  have h3 := span_digits patch post hpatch.2 hpost
  obtain ⟨a, as, rfl⟩ := List.exists_cons_of_ne_nil hmajor.1
  obtain ⟨b, bs, rfl⟩ := List.exists_cons_of_ne_nil hminor.1
  obtain ⟨c, cs, rfl⟩ := List.exists_cons_of_ne_nil hpatch.1
  simp only [matchVersion, h1, h2, h3]

/-- The search skips a part of the text in which no token starts. -/
theorem findVersion_skip (before rest : List Char)
    (h : ∀ k, k < before.length → matchVersion (before.drop k ++ rest) = none) :
    findVersion (before ++ rest) = findVersion rest := by
  induction before with
  | nil => rfl
  | cons c cs ih =>
    have h0 := h 0 (by simp)
    simp only [List.drop_zero, List.cons_append] at h0
    have e : findVersion (c :: (cs ++ rest)) = findVersion (cs ++ rest) := by
      rw [findVersion, h0]
    rw [List.cons_append, e]
    apply ih
    intro k hk
    have := h (k + 1) (by simpa using hk)
    simpa using this

/-- The search finds nothing in a text in which no token starts. -/
theorem findVersion_none (cs : List Char) (h : ∀ k, matchVersion (cs.drop k) = none) :
    findVersion cs = none := by
  have := findVersion_skip cs [] (fun k _ => by simpa using h k)
  simpa [findVersion] using this

/-- The search finds a token that starts the text. -/
theorem findVersion_start (cs version : List Char) (hne : cs ≠ [])
    (h : matchVersion cs = some version) : findVersion cs = some version := by
  obtain ⟨c, rest, rfl⟩ := List.exists_cons_of_ne_nil hne
  simp [findVersion, h]

/-- C19: `Version` runs the bosh command once, with the one argument `-v`.
When the command prints a text made of a part in which no version token
starts, then a token (digits, a dot, digits, a dot, digits) and then a part
that does not go on with a digit, `Version` returns exactly that token and no
error, `2.0.24` for `some-text version 2.0.24 some-other-text`; when no token
starts anywhere in the text it returns a `BOSHVersionError` around `BOSH
version could not be parsed`; and when the command fails it returns the error
of the command as it is. -/
theorem Version_parses_token (e : Executor) (w : World) :
    ((e.Version w).1.runs.map Prod.snd = w.runs.map Prod.snd ++ [["-v"]] ∧
      (e.Version w).1.fs = w.fs) ∧
    (∀ before major minor patch post : List Char,
      e.command.Run "" ["-v"] =
        (String.mk (before ++ (major ++ '.' :: (minor ++ '.' :: (patch ++ post)))), none) →
      (∀ k, k < before.length →
        matchVersion (before.drop k ++ (major ++ '.' :: (minor ++ '.' :: (patch ++ post)))) =
          none) →
      (major ≠ [] ∧ ∀ c ∈ major, c.isDigit = true) →
      (minor ≠ [] ∧ ∀ c ∈ minor, c.isDigit = true) →
      (patch ≠ [] ∧ ∀ c ∈ patch, c.isDigit = true) →
      (∀ c, post.head? = some c → c.isDigit = false) →
      (e.Version w).2 = (String.mk (major ++ '.' :: minor ++ '.' :: patch), none)) ∧
    (e.command.Run "" ["-v"] = ("some-text version 2.0.24 some-other-text", none) →
      (e.Version w).2 = ("2.0.24", none)) ∧
    (∀ out : String, e.command.Run "" ["-v"] = (out, none) →
      (∀ k, matchVersion (out.data.drop k) = none) →
      (e.Version w).2 =
        ("", some (.BOSHVersionError ⟨"BOSH version could not be parsed", false⟩))) ∧
    (∀ out err, e.command.Run "" ["-v"] = (out, some err) →
      (e.Version w).2 = ("", some (.plain err))) := by
  refine ⟨⟨?_, ?_⟩, ?_, ?_, ?_, ?_⟩
  · simp only [Executor.Version]
    cases hr : e.command.Run "" ["-v"] with
    | mk out err =>
      cases err with
      | some err => simp
      | none => cases hf : findVersion out.data <;> simp [hf]
  · simp only [Executor.Version]
    cases hr : e.command.Run "" ["-v"] with
    | mk out err =>
      cases err with
      | some err => simp
      | none => cases hf : findVersion out.data <;> simp [hf]
  · intro before major minor patch post hrun hskip hmajor hminor hpatch hpost
    have hm := matchVersion_token major minor patch post hmajor hminor hpatch hpost
    have hne : major ++ '.' :: (minor ++ '.' :: (patch ++ post)) ≠ [] := by
      obtain ⟨a, as, rfl⟩ := List.exists_cons_of_ne_nil hmajor.1
      simp
    have hf := findVersion_start _ _ hne hm
    rw [← findVersion_skip before _ hskip] at hf
    simp only [Executor.Version, hrun, hf]
  · intro hrun
    have hf : findVersion "some-text version 2.0.24 some-other-text".data = some "2.0.24".data := by
      decide
    simp only [Executor.Version, hrun, hf]
  · intro out hrun hnone
    simp only [Executor.Version, hrun, findVersion_none out.data hnone]
    rfl
  · intro out err hrun
    simp only [Executor.Version, hrun]

/-- The command of the tests prints a text with the version `2.0.24`. -/
theorem Version_parses_token_witness :
    (printingCommand "some-text version 2.0.24 some-other-text").Run "" ["-v"] =
      ("some-text version 2.0.24 some-other-text", none) ∧
    ((sampleExecutor (printingCommand "some-text version 2.0.24 some-other-text") 0).Version
      ⟨stateDirFS "x" "y", none, []⟩).2 = ("2.0.24", none) ∧
    ((sampleExecutor (printingCommand "some-text version 2.0.24 some-other-text") 0).Version
      ⟨stateDirFS "x" "y", none, []⟩).1.runs = [("", ["-v"])] :=
  ⟨rfl,
    (Version_parses_token
      (sampleExecutor (printingCommand "some-text version 2.0.24 some-other-text") 0)
      ⟨stateDirFS "x" "y", none, []⟩).2.2.1 rfl,
    by decide⟩

end Bosh

namespace Cloudconfig

open Storage Bosh

/-! ## Generating the cloud config -/

/-- A successful `ioutil.WriteFile` has put the data in an existing
directory. -/
theorem ioutilWriteFile_ok (fs fs2 : FS) (p : Path) (data : String)
    (h : ioutilWriteFile fs p data = (fs2, none)) :
    fs.dirs p.dir = true ∧ fs2 = fs.put p data := by
  simp only [ioutilWriteFile] at h
  by_cases hd : fs.dirs p.dir = true
  · simp only [hd, if_true, Prod.mk.injEq, and_true] at h
    exact ⟨hd, h.symm⟩
  · simp [hd] at h

/-- C20: for every state, when getting the directory, the two writes, the ops
generator and the command succeed, `Generate` writes the base cloud config to
`cloud-config.yml` and the ops of the generator to `ops.yml` in the
cloud-config directory of the store, runs the bosh command once, in that
directory, with the arguments `interpolate`, the path of `cloud-config.yml`,
`-o` and the path of `ops.yml`, and returns what the command printed; when
getting the directory, a write, the ops generator or the command fails, it
returns that error as it is. -/
theorem Manager_Generate (m : Manager) (state : State) (w : Bosh.World) :
    (∀ fs1 dir fs2 ops fs3 out,
      m.GetCloudConfigDir w.fs = (fs1, .ok dir) →
      m.writeFile fs1 (filepathJoin dir "cloud-config.yml") m.BaseCloudConfig = (fs2, none) →
      m.opsGenerator state = .ok ops →
      m.writeFile fs2 (filepathJoin dir "ops.yml") ops = (fs3, none) →
      m.command.Run dir ["interpolate", dir ++ "/cloud-config.yml", "-o", dir ++ "/ops.yml"] =
        (out, none) →
      m.Generate state w =
        (⟨fs3, w.stateDirEnv,
            w.runs ++ [(dir, ["interpolate", dir ++ "/cloud-config.yml", "-o", dir ++ "/ops.yml"])]⟩,
          out, none) ∧
      (m.writeFile = ioutilWriteFile →
        fs3.read (filepathJoin dir "cloud-config.yml") = some m.BaseCloudConfig ∧
        fs3.read (filepathJoin dir "ops.yml") = some ops)) ∧
    (∀ fs1 err, m.GetCloudConfigDir w.fs = (fs1, .error err) →
      (m.Generate state w).2 = ("", some err)) ∧
    (∀ fs1 dir fs2 err,
      m.GetCloudConfigDir w.fs = (fs1, .ok dir) →
      m.writeFile fs1 (filepathJoin dir "cloud-config.yml") m.BaseCloudConfig = (fs2, some err) →
      (m.Generate state w).2 = ("", some err)) ∧
    (∀ fs1 dir fs2 err,
      m.GetCloudConfigDir w.fs = (fs1, .ok dir) →
      m.writeFile fs1 (filepathJoin dir "cloud-config.yml") m.BaseCloudConfig = (fs2, none) →
      m.opsGenerator state = .error err →
      (m.Generate state w).2 = ("", some err)) ∧
    (∀ fs1 dir fs2 ops fs3 err,
      m.GetCloudConfigDir w.fs = (fs1, .ok dir) →
      m.writeFile fs1 (filepathJoin dir "cloud-config.yml") m.BaseCloudConfig = (fs2, none) →
      m.opsGenerator state = .ok ops →
      m.writeFile fs2 (filepathJoin dir "ops.yml") ops = (fs3, some err) →
      (m.Generate state w).2 = ("", some err)) ∧
    (∀ fs1 dir fs2 ops fs3 out err,
      m.GetCloudConfigDir w.fs = (fs1, .ok dir) →
      m.writeFile fs1 (filepathJoin dir "cloud-config.yml") m.BaseCloudConfig = (fs2, none) →
      m.opsGenerator state = .ok ops →
      m.writeFile fs2 (filepathJoin dir "ops.yml") ops = (fs3, none) →
      m.command.Run dir ["interpolate", dir ++ "/cloud-config.yml", "-o", dir ++ "/ops.yml"] =
        (out, some err) →
      (m.Generate state w).2 = ("", some err)) := by
  refine ⟨?_, ?_, ?_, ?_, ?_, ?_⟩
  · intro fs1 dir fs2 ops fs3 out hd hw1 ho hw2 hr
    refine ⟨?_, ?_⟩
    · simp only [Manager.Generate, hd, hw1, ho, hw2, interpolateArgs, hr]
    · intro he
      rw [he] at hw1 hw2
      obtain ⟨hd1, h2⟩ := ioutilWriteFile_ok _ _ _ _ hw1
      have hd2 : fs2.dirs dir = true := by rw [h2]; exact hd1
      obtain ⟨_, h3⟩ := ioutilWriteFile_ok _ _ _ _ hw2
      rw [h3, h2]
      have hd1b : fs1.dirs dir = true := hd1
      constructor <;> simp [FS.read, FS.put, filepathJoin, hd1b]
  · intro fs1 err hd
    simp only [Manager.Generate, hd]
  · intro fs1 dir fs2 err hd hw1
    simp only [Manager.Generate, hd, hw1]
  · intro fs1 dir fs2 err hd hw1 ho
    simp only [Manager.Generate, hd, hw1, ho]
  · intro fs1 dir fs2 ops fs3 err hd hw1 ho hw2
    simp only [Manager.Generate, hd, hw1, ho, hw2]
  · intro fs1 dir fs2 ops fs3 out err hd hw1 ho hw2 hr
    simp only [Manager.Generate, hd, hw1, ho, hw2, interpolateArgs, hr]

/-- The manager of the tests, in the directory `state`. -/
theorem Manager_Generate_witness :
    sampleManager.GetCloudConfigDir (stateDirFS "x" "y") = (stateDirFS "x" "y", .ok "state") ∧
    (sampleManager.Generate State.zero ⟨stateDirFS "x" "y", none, []⟩).2 =
      ("some-cloud-config", none) ∧
    (sampleManager.Generate State.zero ⟨stateDirFS "x" "y", none, []⟩).1.runs =
      [("state", ["interpolate", "state/cloud-config.yml", "-o", "state/ops.yml"])] ∧
    (sampleManager.Generate State.zero ⟨stateDirFS "x" "y", none, []⟩).1.fs.read
      (filepathJoin "state" "ops.yml") = some "some-ops" := by
  have h := (Manager_Generate sampleManager State.zero ⟨stateDirFS "x" "y", none, []⟩).1
    (stateDirFS "x" "y") "state" _ "some-ops" _ "some-cloud-config" rfl rfl rfl rfl rfl
  refine ⟨rfl, ?_, ?_, ?_⟩
  · rw [h.1]
  · rw [h.1]
    decide
  · rw [h.1]
    exact (h.2 rfl).2

end Cloudconfig

namespace Storage

/-! ## Saving and loading -/

/-- A successful `Set` of a state other than the zero state found the state
directory and an identifier, and the marshaller gave it the bytes it wrote. -/
theorem Set_ok_inv (env : Env) (s : Store) (state : State) (w w1 : World)
    (hne : state ≠ State.zero) (hset : Store.Set env s state w = (w1, none)) :
    w.fs.dirs s.dir = true ∧
    ∃ id jsonData, Store.persistedID env state w = some id ∧
      env.marshalIndent (s.document state id) "" "\t" = .ok jsonData ∧
      w1.fs = w.fs.put (filepathJoin s.dir StateFileName) jsonData := by
  by_cases hdir : w.fs.dirs s.dir = true
  · refine ⟨hdir, ?_⟩
    cases hid : Store.persistedID env state w with
    | none =>
      obtain ⟨err, _, _, he⟩ := Set_nonzero_no_id env s state w hdir hne hid
      rw [he] at hset
      simp at hset
    | some id =>
      rw [Set_nonzero env s state w id hdir hne hid] at hset
      cases hm : env.marshalIndent (s.document state id) "" "\t" with
      | error e =>
        rw [hm] at hset
        simp at hset
      | ok jsonData =>
        rw [hm] at hset
        simp only [Prod.mk.injEq, and_true] at hset
        exact ⟨id, jsonData, rfl, hm, by rw [← hset]⟩
  · have hd : w.fs.dirs s.dir = false := by simpa using hdir
    rw [Set_no_dir env s state w hd] at hset
    simp at hset

/-! ### Reading back what was written -/

theorem hexValue_digitChar (n : Nat) (h : n < 16) : hexValue (Nat.digitChar n) = some n := by
  interval_cases n <;> decide

/-- The escape written for a character code below 256 has that code. -/
theorem getu4_hexByte (n : Nat) (h : n < 256) (rest : List Char) :
    getu4 ('\\' :: 'u' :: '0' :: '0' :: (hexByte n).data ++ rest) = some n := by
  have h1 := hexValue_digitChar (n / 16 % 16) (Nat.mod_lt _ (by decide))
  have h2 := hexValue_digitChar (n % 16) (Nat.mod_lt _ (by decide))
  have h0 : hexValue '0' = some 0 := by decide
  simp only [getu4, hexByte, List.cons_append, List.nil_append, and_self, if_true, h0, h1, h2,
    Option.some.injEq]
  omega

/-- An escape of two characters is read as its character. -/
theorem stringStep_simple (e x : Char) (rest : List Char) (he : e ≠ 'u')
    (hx : simpleEscape e = some x) :
    stringStep ('\\' :: e :: rest) = some (x, rest) := by
  simp only [stringStep, if_true, he, if_false, hx]

/-- An escape `\\uXXXX` outside the surrogates is read as its character. -/
theorem stringStep_unit (n : Nat) (h1 h2 h3 h4 : Char) (rest : List Char)
    (hu : getu4 ('\\' :: 'u' :: h1 :: h2 :: h3 :: h4 :: rest) = some n)
    (hn : ¬ (55296 ≤ n ∧ n < 57344)) :
    stringStep ('\\' :: 'u' :: h1 :: h2 :: h3 :: h4 :: rest) = some (Char.ofNat n, rest) := by
  simp only [stringStep, if_true, hu, hn, if_false, List.drop_succ_cons, List.drop_zero]

/-- A character that needs no escape is read as it is. -/
theorem stringStep_plain (c : Char) (rest : List Char) (h2 : c ≠ '\\') (h3 : ¬ c.toNat < 32) :
    stringStep (c :: rest) = some (c, rest) := by
  simp only [stringStep, h2, h3, if_false]

/-- A character is the character of its code. -/
theorem char_ofNat_toNat (c : Char) : Char.ofNat c.toNat = c := by
  simp [Char.ofNat_toNat]

/-- One character, as it is written inside a string, is read back, and what
is written for it does not start with a quote. -/
theorem stringStep_escape (sf : Bool) (c : Char) (rest : List Char) :
    stringStep (jsonEscape sf c ++ rest) = some (c, rest) ∧
    (jsonEscape sf c ++ rest).head? ≠ some '"' ∧ 1 ≤ (jsonEscape sf c).length := by
  unfold jsonEscape
  split
  · next h => subst h; exact ⟨stringStep_simple _ _ _ (by decide) (by decide), by simp, by decide⟩
  split
  · next h => subst h; exact ⟨stringStep_simple _ _ _ (by decide) (by decide), by simp, by decide⟩
  split
  · next h => subst h; exact ⟨stringStep_simple _ _ _ (by decide) (by decide), by simp, by decide⟩
  split
  · next h => subst h; exact ⟨stringStep_simple _ _ _ (by decide) (by decide), by simp, by decide⟩
  split
  · next h => subst h; exact ⟨stringStep_simple _ _ _ (by decide) (by decide), by simp, by decide⟩
  split
  · next h =>
    rw [h.2]; exact ⟨stringStep_simple _ _ _ (by decide) (by decide), by simp, by decide⟩
  split
  · next h =>
    rw [h.2]; exact ⟨stringStep_simple _ _ _ (by decide) (by decide), by simp, by decide⟩
  split
  · next h =>
    have hlt : c.toNat < 256 := by
      rcases h with h | h | h | h
      · omega
      · subst h; decide
      · subst h; decide
      · subst h; decide
    have hu := getu4_hexByte c.toNat hlt rest
    have hs := stringStep_unit c.toNat '0' '0' (Nat.digitChar (c.toNat / 16 % 16))
      (Nat.digitChar (c.toNat % 16)) rest hu (by omega)
    rw [char_ofNat_toNat] at hs
    exact ⟨hs, by simp, by simp⟩
  split
  · next h =>
    have hs := stringStep_unit 8232 '2' '0' '2' '8' rest (by simp [getu4]; decide) (by decide)
    rw [← h, char_ofNat_toNat] at hs
    exact ⟨hs, by simp, by simp⟩
  split
  · next h =>
    have hs := stringStep_unit 8233 '2' '0' '2' '9' rest (by simp [getu4]; decide) (by decide)
    rw [← h, char_ofNat_toNat] at hs
    exact ⟨hs, by simp, by simp⟩
  · next h1 h2 _ _ _ _ _ h8 _ _ =>
    exact ⟨stringStep_plain c rest h2 (fun h => h8 (Or.inl h)), by simp [h1], by simp⟩

/-- A text, as it is written inside a string, is read back. -/
theorem parseStringBody_escapeChars (sf : Bool) (s rest acc : List Char) (fuel : Nat)
    (hfuel : (escapeChars sf s).length < fuel) :
    parseStringBody fuel (escapeChars sf s ++ '"' :: rest) acc = some (acc.reverse ++ s, rest) := by
  induction s generalizing acc fuel with
  | nil =>
    obtain ⟨f, rfl⟩ : ∃ f, fuel = f + 1 := ⟨fuel - 1, by omega⟩
    simp [escapeChars, parseStringBody]
  | cons c cs ih =>
    obtain ⟨f, rfl⟩ : ∃ f, fuel = f + 1 := ⟨fuel - 1, by omega⟩
    obtain ⟨hstep, hhead, hlen⟩ := stringStep_escape sf c (escapeChars sf cs ++ '"' :: rest)
    simp only [escapeChars, List.length_append] at hfuel
    rw [escapeChars, List.append_assoc]
    cases hj : jsonEscape sf c ++ (escapeChars sf cs ++ '"' :: rest) with
    | nil =>
      rw [hj] at hstep
      simp [stringStep] at hstep
    | cons x xs =>
      rw [hj] at hstep hhead
      have hx : x ≠ '"' := by simpa using hhead
      simp only [parseStringBody, hx, if_false, hstep]
      rw [ih (c :: acc) f (by omega)]
      simp

/-- White space in front is skipped. -/
theorem skipSpace_append (ws rest : List Char) (h : AllSpace ws) :
    skipSpace (ws ++ rest) = skipSpace rest := by
  induction ws with
  | nil => rfl
  | cons c cs ih =>
    have hc : isSpace c = true := h c (by simp)
    simp only [List.cons_append, skipSpace, hc, if_true]
    exact ih (fun x hx => h x (List.mem_cons_of_mem _ hx))

/-- Nothing is skipped in front of a character that is not white space. -/
theorem skipSpace_cons (c : Char) (rest : List Char) (h : isSpace c = false) :
    skipSpace (c :: rest) = c :: rest := by
  simp [skipSpace, h]

/-- The start of a line is white space when the prefix and the indent are. -/
theorem newline_allSpace (pre indent : List Char) (hp : AllSpace pre) (hi : AllSpace indent)
    (d : Nat) : AllSpace (newline pre indent d) := by
  induction d with
  | zero =>
    intro c hc
    simp only [newline, List.mem_cons] at hc
    rcases hc with rfl | hc
    · decide
    · exact hp c hc
  | succ n ih =>
    intro c hc
    simp only [newline, List.mem_append] at hc
    rcases hc with hc | hc
    · exact ih c hc
    · exact hi c hc

/-- The start of a line starts with a newline. -/
theorem newline_head (pre indent : List Char) (d : Nat) :
    ∃ tail, newline pre indent d = '\n' :: tail := by
  induction d with
  | zero => exact ⟨pre, rfl⟩
  | succ n ih =>
    obtain ⟨t, ht⟩ := ih
    exact ⟨t ++ indent, by simp [newline, ht]⟩

/-- The start of a line delimits the value before it. -/
theorem delimited_newline (pre indent : List Char) (d : Nat) (rest : List Char) :
    Delimited (newline pre indent d ++ rest) := by
  obtain ⟨t, ht⟩ := newline_head pre indent d
  intro c tail h
  rw [ht] at h
  simp only [List.cons_append, List.cons.injEq] at h
  rw [← h.1]
  right; right; right
  decide

/-- A comma delimits the value before it. -/
theorem delimited_comma (rest : List Char) : Delimited (',' :: rest) := by
  intro c tail h
  simp only [List.cons.injEq] at h
  exact Or.inl h.1.symm

/-- The first character of a written value is not white space, a comma or a
closing bracket or brace. -/
theorem render_head (sf : Bool) (pre indent : List Char) (v : JSON) (d : Nat)
    (hv : v.Printable) :
    ∃ c tail, v.render sf pre indent d = c :: tail ∧ isSpace c = false ∧ c ≠ ']' ∧ c ≠ '}' := by
  cases v with
  | null => exact ⟨_, _, rfl, by decide, by decide, by decide⟩
  | bool b =>
    cases b
    · exact ⟨_, _, rfl, by decide, by decide, by decide⟩
    · exact ⟨_, _, rfl, by decide, by decide, by decide⟩
  | number literal =>
    obtain ⟨⟨c, tail, hl, hc⟩, _⟩ := (by simpa [JSON.Printable] using hv : NumberLiteral literal)
    refine ⟨c, tail, by simp [JSON.render, hl], ?_, ?_, ?_⟩
    · rcases hc with rfl | hc
      · decide
      · cases hs : isSpace c with
        | false => rfl
        | true =>
          exfalso
          simp only [isSpace, Bool.or_eq_true, decide_eq_true_eq] at hs
          rcases hs with ((rfl | rfl) | rfl) | rfl <;> simp at hc
    · rintro rfl
      rcases hc with hc | hc <;> simp at hc
    · rintro rfl
      rcases hc with hc | hc <;> simp at hc
  | string s => exact ⟨_, _, rfl, by decide, by decide, by decide⟩
  | array items =>
    cases items with
    | nil => exact ⟨_, _, rfl, by decide, by decide, by decide⟩
    | cons x xs => exact ⟨_, _, rfl, by decide, by decide, by decide⟩
  | object members =>
    cases members with
    | nil => exact ⟨_, _, rfl, by decide, by decide, by decide⟩
    | cons x xs => exact ⟨_, _, rfl, by decide, by decide, by decide⟩

/-- Fuel for one more step. -/
theorem fuel_succ (n fuel : Nat) (h : n + 1 ≤ fuel) : ∃ f, fuel = f + 1 ∧ n ≤ f :=
  ⟨fuel - 1, by omega, by omega⟩

/-- The literal `null` is read back. -/
theorem readsBack_null (sf : Bool) (pre indent : List Char) : ReadsBack sf pre indent .null := by
  intro _ d fuel ws rest hws _ hfuel
  obtain ⟨f, rfl, _⟩ := fuel_succ 3 fuel hfuel
  simp only [JSON.render, parseValue, List.cons_append, List.nil_append]
  rw [skipSpace_append _ _ hws, skipSpace_cons _ _ (by decide)]
  simp

/-- The literals `true` and `false` are read back. -/
theorem readsBack_bool (sf : Bool) (pre indent : List Char) (b : Bool) :
    ReadsBack sf pre indent (.bool b) := by
  intro _ d fuel ws rest hws _ hfuel
  cases b
  · obtain ⟨f, rfl, _⟩ := fuel_succ 4 fuel hfuel
    simp only [JSON.render, parseValue, List.cons_append, List.nil_append, Bool.false_eq_true,
      if_false]
    rw [skipSpace_append _ _ hws, skipSpace_cons _ _ (by decide)]
    simp
  · obtain ⟨f, rfl, _⟩ := fuel_succ 3 fuel hfuel
    simp only [JSON.render, parseValue, List.cons_append, List.nil_append, if_true]
    rw [skipSpace_append _ _ hws, skipSpace_cons _ _ (by decide)]
    simp

/-- A string is read back. -/
theorem readsBack_string (sf : Bool) (pre indent : List Char) (s : List Char) :
    ReadsBack sf pre indent (.string s) := by
  intro _ d fuel ws rest hws _ hfuel
  simp only [JSON.render, jsonQuote, List.length_cons, List.length_append, List.length_nil] at hfuel
  obtain ⟨f, rfl, hf⟩ := fuel_succ _ fuel hfuel
  simp only [JSON.render, jsonQuote, parseValue, List.cons_append, List.nil_append,
    List.append_assoc]
  rw [skipSpace_append _ _ hws, skipSpace_cons _ _ (by decide)]
  have hb := parseStringBody_escapeChars sf s rest [] f (by omega)
  simp [hb]

/-- A number literal is read back. -/
theorem readsBack_number (sf : Bool) (pre indent : List Char) (literal : List Char) :
    ReadsBack sf pre indent (.number literal) := by
  intro hv d fuel ws rest hws hrest hfuel
  obtain ⟨⟨c, tail, hl, hc⟩, hlex⟩ := (by simpa [JSON.Printable] using hv : NumberLiteral literal)
  subst hl
  simp only [JSON.render, List.length_cons] at hfuel
  obtain ⟨f, rfl, hf⟩ := fuel_succ _ fuel hfuel
  have hsp : isSpace c = false := by
    rcases hc with rfl | hc
    · decide
    · cases hs : isSpace c with
      | false => rfl
      | true =>
        exfalso
        simp only [isSpace, Bool.or_eq_true, decide_eq_true_eq] at hs
        rcases hs with ((rfl | rfl) | rfl) | rfl <;> simp at hc
  have hne : ∀ x : Char, x.isDigit = false → x ≠ '-' → c ≠ x := by
    rintro x hx hm rfl
    rcases hc with hc | hc
    · exact hm hc
    · rw [hx] at hc
      exact Bool.noConfusion hc
  have h1 := hne '{' (by decide) (by decide)
  have h2 := hne '[' (by decide) (by decide)
  have h3 := hne '"' (by decide) (by decide)
  have h4 := hne 't' (by decide) (by decide)
  have h5 := hne 'f' (by decide) (by decide)
  have h6 := hne 'n' (by decide) (by decide)
  have hl := hlex rest hrest
  simp only [List.cons_append] at hl
  simp only [JSON.render, parseValue, List.cons_append]
  rw [skipSpace_append _ _ hws, skipSpace_cons _ _ hsp]
  simp only [h1, h2, h3, h4, h5, h6, if_false, hl]

/-- An array is read back when its items are. -/
theorem readsBack_array (sf : Bool) (pre indent : List Char) (hp : AllSpace pre)
    (hi : AllSpace indent) (items : List JSON) (ih : ItemsReadBack sf pre indent items) :
    ReadsBack sf pre indent (.array items) := by
  intro hv d fuel ws rest hws _ hfuel
  cases items with
  | nil =>
    obtain ⟨f, rfl, _⟩ := fuel_succ 1 fuel hfuel
    simp only [JSON.render, parseValue, List.cons_append, List.nil_append]
    rw [skipSpace_append _ _ hws, skipSpace_cons _ _ (by decide)]
    have h1 : ('[' : Char) ≠ '{' := by decide
    simp only [h1, if_false, if_true]
    rw [skipSpace_cons _ _ (by decide)]
    simp only [if_true]
  | cons x xs =>
    have hitems : JSON.PrintableItems (x :: xs) := by simpa [JSON.Printable] using hv
    simp only [JSON.render, List.length_cons, List.length_append] at hfuel
    obtain ⟨f, rfl, hf⟩ := fuel_succ _ fuel (by omega :
      (newline pre indent (d + 1)).length + (JSON.renderItems sf pre indent (x :: xs) d).length + 1
        ≤ fuel)
    obtain ⟨c, tail, hhead, hsp, hb, _⟩ := render_head sf pre indent x (d + 1) hitems.1
    have hstart : ∃ tail2, JSON.renderItems sf pre indent (x :: xs) d ++ rest = c :: tail2 := by
      cases xs with
      | nil => exact ⟨_, by simp only [JSON.renderItems, hhead, List.cons_append]; rfl⟩
      | cons y ys => exact ⟨_, by simp only [JSON.renderItems, hhead, List.cons_append]; rfl⟩
    obtain ⟨tail2, ht2⟩ := hstart
    have hr := ih hitems (by simp) d f [] rest [] (by intro c hc; simp at hc) (by omega)
    simp only [List.nil_append, List.reverse_nil] at hr
    simp only [JSON.render, parseValue, List.cons_append, List.append_assoc]
    rw [skipSpace_append _ _ hws, skipSpace_cons _ _ (by decide)]
    have h1 : ('[' : Char) ≠ '{' := by decide
    simp only [h1, if_false, if_true]
    rw [skipSpace_append _ _ (newline_allSpace pre indent hp hi (d + 1)), ht2,
      skipSpace_cons _ _ hsp]
    simp only [hb, if_false]
    rw [← ht2, hr]

/-- The items of an array are read back one after the other. -/
theorem itemsReadBack_cons (sf : Bool) (pre indent : List Char) (hp : AllSpace pre)
    (hi : AllSpace indent) (x : JSON) (xs : List JSON) (hx : ReadsBack sf pre indent x)
    (hxs : ItemsReadBack sf pre indent xs) : ItemsReadBack sf pre indent (x :: xs) := by
  intro hv _ d fuel ws rest acc hws hfuel
  have hvx : x.Printable := hv.1
  cases xs with
  | nil =>
    simp only [JSON.renderItems, List.length_append, List.length_cons, List.length_nil] at hfuel
    obtain ⟨f, rfl, hf⟩ := fuel_succ _ fuel (by omega :
      (x.render sf pre indent (d + 1)).length + (newline pre indent d).length + 1 ≤ fuel)
    have hv1 := hx hvx (d + 1) f ws (newline pre indent d ++ ([']'] ++ rest)) hws
      (delimited_newline pre indent d _) (by omega)
    simp only [JSON.renderItems, parseItems, List.append_assoc, hv1]
    rw [skipSpace_append _ _ (newline_allSpace pre indent hp hi d)]
    simp only [List.singleton_append]
    rw [skipSpace_cons _ _ (by decide)]
    simp
  | cons y ys =>
    simp only [JSON.renderItems, List.length_append, List.length_cons] at hfuel
    obtain ⟨f, rfl, hf⟩ := fuel_succ _ fuel (by omega :
      (x.render sf pre indent (d + 1)).length + ((newline pre indent (d + 1)).length +
        (JSON.renderItems sf pre indent (y :: ys) d).length) + 1 ≤ fuel)
    have hv1 := hx hvx (d + 1) f ws
      (',' :: (newline pre indent (d + 1) ++ (JSON.renderItems sf pre indent (y :: ys) d ++ rest)))
      hws (delimited_comma _) (by omega)
    have hrest := hxs hv.2 (by simp) d f (newline pre indent (d + 1)) rest (x :: acc)
      (newline_allSpace pre indent hp hi (d + 1)) (by omega)
    simp only [JSON.renderItems, parseItems, List.append_assoc, List.cons_append, hv1]
    rw [skipSpace_cons _ _ (by decide)]
    simp only [if_true, hrest]
    simp

/-- A blank is white space. -/
theorem allSpace_blank : AllSpace [' '] := by
  intro c hc
  simp only [List.mem_singleton] at hc
  subst hc
  decide

/-- The members of an object are read back one after the other. -/
theorem membersReadBack_cons (sf : Bool) (pre indent : List Char) (hp : AllSpace pre)
    (hi : AllSpace indent) (key : List Char) (value : JSON) (ms : List (List Char × JSON))
    (hx : ReadsBack sf pre indent value)
    (hms : MembersReadBack sf pre indent ms) :
    MembersReadBack sf pre indent ((key, value) :: ms) := by
  intro hv _ d fuel ws rest acc hws hfuel
  have hvx : value.Printable := hv.1
  have hcolon : isSpace ':' = false := by decide
  cases ms with
  | nil =>
    simp only [JSON.renderMembers, JSON.renderMember, jsonQuote, List.length_append,
      List.length_cons, List.length_nil] at hfuel
    obtain ⟨f, rfl, hf⟩ := fuel_succ ((escapeChars sf key).length +
      (value.render sf pre indent (d + 1)).length + (newline pre indent d).length + 4) fuel
      (by omega)
    have hk := parseStringBody_escapeChars sf key
      (':' :: ' ' :: (value.render sf pre indent (d + 1) ++ (newline pre indent d ++ ('}' :: rest))))
      [] f (by omega)
    have hv1 := hx hvx (d + 1) f [' '] (newline pre indent d ++ ('}' :: rest)) allSpace_blank
      (delimited_newline pre indent d _) (by omega)
    simp only [List.singleton_append] at hv1
    simp only [JSON.renderMembers, JSON.renderMember, jsonQuote, parseMembers, List.append_assoc,
      List.cons_append, List.nil_append]
    rw [skipSpace_append _ _ hws, skipSpace_cons _ _ (by decide)]
    simp only [if_true, hk, List.reverse_nil, List.nil_append]
    rw [skipSpace_cons _ _ hcolon]
    simp only [if_true, hv1]
    rw [skipSpace_append _ _ (newline_allSpace pre indent hp hi d), skipSpace_cons _ _ (by decide)]
    simp
  | cons m2 ms2 =>
    simp only [JSON.renderMembers, JSON.renderMember, jsonQuote, List.length_append,
      List.length_cons, List.length_nil] at hfuel
    obtain ⟨f, rfl, hf⟩ := fuel_succ ((escapeChars sf key).length +
      (value.render sf pre indent (d + 1)).length + (newline pre indent (d + 1)).length +
      (JSON.renderMembers sf pre indent (m2 :: ms2) d).length + 4) fuel (by omega)
    have hk := parseStringBody_escapeChars sf key
      (':' :: ' ' :: (value.render sf pre indent (d + 1) ++ (',' :: (newline pre indent (d + 1) ++
        (JSON.renderMembers sf pre indent (m2 :: ms2) d ++ rest)))))
      [] f (by omega)
    have hv1 := hx hvx (d + 1) f [' ']
      (',' :: (newline pre indent (d + 1) ++ (JSON.renderMembers sf pre indent (m2 :: ms2) d ++ rest)))
      allSpace_blank (delimited_comma _) (by omega)
    simp only [List.singleton_append] at hv1
    have hrest := hms hv.2 (by simp) d f (newline pre indent (d + 1)) rest ((key, value) :: acc)
      (newline_allSpace pre indent hp hi (d + 1)) (by omega)
    simp only [JSON.renderMembers, JSON.renderMember, jsonQuote, parseMembers, List.append_assoc,
      List.cons_append, List.nil_append]
    rw [skipSpace_append _ _ hws, skipSpace_cons _ _ (by decide)]
    simp only [if_true, hk, List.reverse_nil, List.nil_append]
    rw [skipSpace_cons _ _ hcolon]
    simp only [if_true, hv1]
    rw [skipSpace_cons _ _ (by decide)]
    simp only [if_true, hrest]
    simp

/-- An object is read back when its members are. -/
theorem readsBack_object (sf : Bool) (pre indent : List Char) (hp : AllSpace pre)
    (hi : AllSpace indent) (members : List (List Char × JSON))
    (ih : MembersReadBack sf pre indent members) :
    ReadsBack sf pre indent (.object members) := by
  intro hv d fuel ws rest hws _ hfuel
  cases members with
  | nil =>
    obtain ⟨f, rfl, _⟩ := fuel_succ 1 fuel hfuel
    simp only [JSON.render, parseValue, List.cons_append, List.nil_append]
    rw [skipSpace_append _ _ hws, skipSpace_cons _ _ (by decide)]
    simp only [if_true]
    rw [skipSpace_cons _ _ (by decide)]
    simp only [if_true]
  | cons m ms =>
    obtain ⟨key, value⟩ := m
    have hmembers : JSON.PrintableMembers ((key, value) :: ms) := by
      simpa [JSON.Printable] using hv
    simp only [JSON.render, List.length_cons, List.length_append] at hfuel
    obtain ⟨f, rfl, hf⟩ := fuel_succ _ fuel (by omega :
      (newline pre indent (d + 1)).length +
        (JSON.renderMembers sf pre indent ((key, value) :: ms) d).length + 1 ≤ fuel)
    have hstart : ∃ tail2,
        JSON.renderMembers sf pre indent ((key, value) :: ms) d ++ rest = '"' :: tail2 := by
      cases ms with
      | nil =>
        exact ⟨_, by simp only [JSON.renderMembers, JSON.renderMember, jsonQuote,
          List.cons_append]; rfl⟩
      | cons y ys =>
        exact ⟨_, by simp only [JSON.renderMembers, JSON.renderMember, jsonQuote,
          List.cons_append]; rfl⟩
    obtain ⟨tail2, ht2⟩ := hstart
    have hr := ih hmembers (by simp) d f [] rest [] (by intro c hc; simp at hc) (by omega)
    simp only [List.nil_append, List.reverse_nil] at hr
    simp only [JSON.render, parseValue, List.cons_append, List.append_assoc]
    rw [skipSpace_append _ _ hws, skipSpace_cons _ _ (by decide)]
    simp only [if_true]
    rw [skipSpace_append _ _ (newline_allSpace pre indent hp hi (d + 1)), ht2,
      skipSpace_cons _ _ (by decide)]
    have h1 : ('"' : Char) ≠ '}' := by decide
    simp only [h1, if_false]
    rw [← ht2, hr]

/-- Every value whose numbers are number literals is read back from what is
written for it with white space as prefix and indent. -/
theorem readsBack (sf : Bool) (pre indent : List Char) (hp : AllSpace pre) (hi : AllSpace indent)
    (v : JSON) : ReadsBack sf pre indent v :=
  @JSON.rec (ReadsBack sf pre indent) (ItemsReadBack sf pre indent) (MembersReadBack sf pre indent)
    (fun m => ReadsBack sf pre indent m.2)
    (readsBack_null sf pre indent)
    (readsBack_bool sf pre indent)
    (readsBack_number sf pre indent)
    (readsBack_string sf pre indent)
    (fun items ih => readsBack_array sf pre indent hp hi items ih)
    (fun members ih => readsBack_object sf pre indent hp hi members ih)
    (fun _ h => absurd rfl h)
    (fun x xs hx hxs => itemsReadBack_cons sf pre indent hp hi x xs hx hxs)
    (fun _ h => absurd rfl h)
    (fun m ms hm hms => membersReadBack_cons sf pre indent hp hi m.1 m.2 ms hm hms)
    (fun _ _ h => h)
    v


/-! ### The state read back -/

theorem decodeItems_strings (errs : JSONErrors) (field : String) (l old : List String) :
    decodeItems errs field (l.map jsonOfString) old = (l, none) := by
  induction l generalizing old with
  | nil => rfl
  | cons x xs ih =>
    simp only [List.map_cons, decodeItems, ih, jsonOfString, decodeString, firstError]

/-- The value made of a slice of strings decodes to that slice. -/
theorem decodeStrings_strings (errs : JSONErrors) (field : String) (zones old : Option (List String)) :
    decodeStrings errs field (jsonOfStrings zones) old = (zones, none) := by
  cases zones with
  | none => rfl
  | some l => simp only [jsonOfStrings, decodeStrings, decodeItems_strings]

/-- A `GCP` is decoded from its JSON object. -/
theorem decodeGCP_toJSON (errs : JSONErrors) (field : String) (g old : GCP) :
    decodeGCP errs field g.toJSON old = (g, none) := by
  obtain ⟨a, b, c, d, zones⟩ := g
  have hz := decodeStrings_strings errs "GCP.Zones" zones old.Zones
  simp +decide only [decodeGCP, GCP.toJSON, List.foldl, GCP.setField, keyIs, jsonOfString,
    decodeString, firstError, hz, if_true, if_false]

/-- An `AWS` is decoded from its JSON object. -/
theorem decodeAWS_toJSON (errs : JSONErrors) (field : String) (a old : AWS) :
    decodeAWS errs field a.toJSON old = (a, none) := by
  obtain ⟨x, y, z⟩ := a
  simp +decide only [decodeAWS, AWS.toJSON, List.foldl, AWS.setField, keyIs, jsonOfString,
    decodeString, firstError, if_true, if_false]

/-- An `Azure` is decoded from its JSON object. -/
theorem decodeAzure_toJSON (errs : JSONErrors) (field : String) (a old : Azure) :
    decodeAzure errs field a.toJSON old = (a, none) := by
  obtain ⟨x, y, z, w⟩ := a
  simp +decide only [decodeAzure, Azure.toJSON, List.foldl, Azure.setField, keyIs, jsonOfString,
    decodeString, firstError, if_true, if_false]

/-- A `Jumpbox` is decoded from its JSON object. -/
theorem decodeJumpbox_toJSON (errs : JSONErrors) (field : String) (j old : Jumpbox) :
    decodeJumpbox errs field j.toJSON old = (j, none) := by
  obtain ⟨x, y, z⟩ := j
  simp +decide only [decodeJumpbox, Jumpbox.toJSON, List.foldl, Jumpbox.setField, keyIs,
    jsonOfString, decodeString, firstError, if_true, if_false]

/-- A `BOSH` is decoded from its JSON object. -/
theorem decodeBOSH_toJSON (errs : JSONErrors) (field : String) (b old : BOSH) :
    decodeBOSH errs field b.toJSON old = (b, none) := by
  obtain ⟨x, y, z, w, u, v⟩ := b
  simp +decide only [decodeBOSH, BOSH.toJSON, List.foldl, BOSH.setField, keyIs, jsonOfString,
    decodeString, firstError, if_true, if_false]

/-- An `LB` is decoded from its JSON object. -/
theorem decodeLB_toJSON (errs : JSONErrors) (field : String) (l old : LB) :
    decodeLB errs field l.toJSON old = (l, none) := by
  obtain ⟨x, y, z, w⟩ := l
  simp +decide only [decodeLB, LB.toJSON, List.foldl, LB.setField, keyIs, jsonOfString,
    decodeString, firstError, if_true, if_false]

/-- The value made of a string decodes to that string. -/
theorem decodeString_string (errs : JSONErrors) (field : String) (s old : String) :
    decodeString errs field (jsonOfString s) old = (s, none) := rfl

/-- The literal of 12 decodes to 12. -/
theorem decodeInt_twelve (errs : JSONErrors) (field : String) (old : Int) :
    decodeInt errs field (.number (toString (12 : Int)).data) old = (12, none) := rfl

/-- The members of the JSON object of a state are decoded one after the other
into the fields they name. -/
theorem decodeState_object (errs : JSONErrors) (old : State)
    (v1 v2 v3 v4 v5 v6 v7 v8 v9 v10 v11 v12 v13 : JSON) :
    decodeState errs (.object [
      ("version".data, v1), ("iaas".data, v2), ("id".data, v3), ("noDirector".data, v4),
      ("aws".data, v5), ("azure".data, v6), ("gcp".data, v7), ("jumpbox".data, v8),
      ("bosh".data, v9), ("envID".data, v10), ("tfState".data, v11), ("lb".data, v12),
      ("latestTFOutput".data, v13)]) old =
    ({ Version := (decodeInt errs "State.version" v1 old.Version).1
       IAAS := (decodeString errs "State.iaas" v2 old.IAAS).1
       ID := (decodeString errs "State.id" v3 old.ID).1
       NoDirector := (decodeBool errs "State.noDirector" v4 old.NoDirector).1
       AWS := (decodeAWS errs "State.aws" v5 old.AWS).1
       Azure := (decodeAzure errs "State.azure" v6 old.Azure).1
       GCP := (decodeGCP errs "State.gcp" v7 old.GCP).1
       Jumpbox := (decodeJumpbox errs "State.jumpbox" v8 old.Jumpbox).1
       BOSH := (decodeBOSH errs "State.bosh" v9 old.BOSH).1
       EnvID := (decodeString errs "State.envID" v10 old.EnvID).1
       TFState := (decodeString errs "State.tfState" v11 old.TFState).1
       LB := (decodeLB errs "State.lb" v12 old.LB).1
       LatestTFOutput := (decodeString errs "State.latestTFOutput" v13 old.LatestTFOutput).1 },
      firstError (firstError (firstError (firstError (firstError (firstError (firstError
        (firstError (firstError (firstError (firstError (firstError (firstError none
          (decodeInt errs "State.version" v1 old.Version).2)
          (decodeString errs "State.iaas" v2 old.IAAS).2)
          (decodeString errs "State.id" v3 old.ID).2)
          (decodeBool errs "State.noDirector" v4 old.NoDirector).2)
          (decodeAWS errs "State.aws" v5 old.AWS).2)
          (decodeAzure errs "State.azure" v6 old.Azure).2)
          (decodeGCP errs "State.gcp" v7 old.GCP).2)
          (decodeJumpbox errs "State.jumpbox" v8 old.Jumpbox).2)
          (decodeBOSH errs "State.bosh" v9 old.BOSH).2)
          (decodeString errs "State.envID" v10 old.EnvID).2)
          (decodeString errs "State.tfState" v11 old.TFState).2)
          (decodeLB errs "State.lb" v12 old.LB).2)
          (decodeString errs "State.latestTFOutput" v13 old.LatestTFOutput).2) := rfl

/-- A state of version 12 is decoded from its JSON object. -/
theorem decodeState_toJSON (errs : JSONErrors) (doc old : State) (hv : doc.Version = 12) :
    decodeState errs doc.toJSON old = (doc, none) := by
  obtain ⟨version, iaas, id, noDirector, aws, azure, gcp, jumpbox, bosh, envID, tfState, lb,
    latest⟩ := doc
  simp only at hv
  subst hv
  rw [State.toJSON, decodeState_object]
  simp only [decodeInt_twelve, decodeString_string, decodeAWS_toJSON, decodeAzure_toJSON,
    decodeGCP_toJSON, decodeJumpbox_toJSON, decodeBOSH_toJSON, decodeLB_toJSON, decodeBool,
    firstError]

/-- The value made of a string has no number. -/
theorem printable_string (s : String) : (jsonOfString s).Printable := by
  simp [jsonOfString, JSON.Printable]

/-- Items made of strings have no number. -/
theorem printableItems_strings (l : List String) : JSON.PrintableItems (l.map jsonOfString) := by
  induction l with
  | nil => simp [JSON.PrintableItems]
  | cons x xs ih => simp [JSON.PrintableItems, ih, jsonOfString, JSON.Printable]

/-- The value made of a slice of strings has no number. -/
theorem printable_strings (zones : Option (List String)) : (jsonOfStrings zones).Printable := by
  cases zones with
  | none => simp [jsonOfStrings, JSON.Printable]
  | some l => simpa [jsonOfStrings, JSON.Printable] using printableItems_strings l

/-- The literal `12` is read as a whole before a delimiter. -/
theorem numberLiteral_twelve : NumberLiteral ['1', '2'] := by
  refine ⟨⟨'1', ['2'], rfl, Or.inr (by decide)⟩, ?_⟩
  intro rest hrest
  cases rest with
  | nil => decide
  | cons c tail =>
    have hc := hrest c tail rfl
    have hd : c.isDigit = false := by
      rcases hc with rfl | rfl | rfl | hc
      · decide
      · decide
      · decide
      · simp only [isSpace, Bool.or_eq_true, decide_eq_true_eq] at hc
        rcases hc with ((rfl | rfl) | rfl) | rfl <;> decide
    have hdot : c ≠ '.' := by
      rintro rfl
      rcases hc with hc | hc | hc | hc <;> revert hc <;> decide
    have he : ¬ (c = 'e' ∨ c = 'E') := by
      rintro (rfl | rfl) <;> rcases hc with hc | hc | hc | hc <;> revert hc <;> decide
    have h1 : ('1' : Char) ≠ '-' := by decide
    have h2 : ('1' : Char) ≠ '0' := by decide
    have h3 : ('1' : Char).isDigit = true := by decide
    have h4 : ('2' : Char).isDigit = true := by decide
    simp [lexNumber, spanDigits, hd, hdot, he, h1, h2, h3, h4]

/-- The JSON object of a state of version 12 has number literals only. -/
theorem printable_toJSON (doc : State) (hv : doc.Version = 12) : doc.toJSON.Printable := by
  have hn : NumberLiteral (toString doc.Version).data := by
    rw [hv]
    exact numberLiteral_twelve
  exact ⟨hn, trivial, trivial, trivial, ⟨trivial, trivial, trivial, trivial⟩,
    ⟨trivial, trivial, trivial, trivial, trivial⟩,
    ⟨trivial, trivial, trivial, trivial, printable_strings _, trivial⟩,
    ⟨trivial, trivial, trivial, trivial⟩,
    ⟨trivial, trivial, trivial, trivial, trivial, trivial, trivial⟩, trivial, trivial,
    ⟨trivial, trivial, trivial, trivial, trivial⟩, trivial, trivial⟩

/-- A tab is white space. -/
theorem allSpace_tab : AllSpace "\t".data := by
  intro c hc
  have : c = '\t' := by simpa using hc
  subst this
  decide

/-- The empty prefix is white space. -/
theorem allSpace_nil : AllSpace "".data := by
  intro c hc
  simp at hc

/-- The decoder reads a state of version 12 back from what `json.MarshalIndent`
writes for it with an empty prefix and a tab as indent. -/
theorem jsonDecode_marshalIndent (shortForms : Bool) (errs : JSONErrors) (doc old : State)
    (jsonData : String) (hv : doc.Version = 12)
    (hm : jsonMarshalIndent shortForms doc "" "\t" = .ok jsonData) :
    jsonDecode errs jsonData old = (doc, none) := by
  simp only [jsonMarshalIndent, Except.ok.injEq] at hm
  subst hm
  have hr := readsBack shortForms "".data "\t".data allSpace_nil allSpace_tab doc.toJSON
    (printable_toJSON doc hv) 0 (doc.toJSON.render shortForms "".data "\t".data 0).length [] []
    (by intro c hc; simp at hc) (by intro c tail h; simp at h) (Nat.le_refl _)
  simp only [List.nil_append, List.append_nil] at hr
  simp only [jsonDecode, hr, decodeState_toJSON errs doc old hv]

/-! ### The writer and the decoder on examples -/

set_option maxRecDepth 100000 in
/-- The text `json.MarshalIndent` gives for the document of `secretsState`:
one member on a line, a tab for each level, the structs in place, the slice as
an array. -/
theorem jsonMarshalIndent_sample :
    (jsonMarshalIndent false
        { secretsState with
          Version := 12
          AWS := ⟨"", "", "us-east-1"⟩
          GCP := ⟨"", "", "zone-a", "region", some ["zone-a", "zone-b"]⟩ } "" "\t").toOption =
      some ("\x7b\n\t\"version\": 12,\n\t\"iaas\": \"gcp\",\n\t\"id\": \"some-id\"," ++
        "\n\t\"noDirector\": false," ++
        "\n\t\"aws\": \x7b\n\t\t\"AccessKeyID\": \"\",\n\t\t\"SecretAccessKey\": \"\"," ++
        "\n\t\t\"Region\": \"us-east-1\"\n\t\x7d," ++
        "\n\t\"azure\": \x7b\n\t\t\"ClientID\": \"\",\n\t\t\"ClientSecret\": \"\"," ++
        "\n\t\t\"SubscriptionID\": \"\",\n\t\t\"TenantID\": \"\"\n\t\x7d," ++
        "\n\t\"gcp\": \x7b\n\t\t\"ServiceAccountKey\": \"\",\n\t\t\"ProjectID\": \"\"," ++
        "\n\t\t\"Zone\": \"zone-a\",\n\t\t\"Region\": \"region\"," ++
        "\n\t\t\"Zones\": [\n\t\t\t\"zone-a\",\n\t\t\t\"zone-b\"\n\t\t]\n\t\x7d," ++
        "\n\t\"jumpbox\": \x7b\n\t\t\"URL\": \"\",\n\t\t\"Variables\": \"\"," ++
        "\n\t\t\"Manifest\": \"\"\n\t\x7d," ++
        "\n\t\"bosh\": \x7b\n\t\t\"DirectorAddress\": \"\",\n\t\t\"DirectorUsername\": \"\"," ++
        "\n\t\t\"DirectorPassword\": \"\",\n\t\t\"DirectorSSLCA\": \"\"," ++
        "\n\t\t\"Variables\": \"\",\n\t\t\"Manifest\": \"\"\n\t\x7d," ++
        "\n\t\"envID\": \"\",\n\t\"tfState\": \"\"," ++
        "\n\t\"lb\": \x7b\n\t\t\"Type\": \"\",\n\t\t\"Cert\": \"\",\n\t\t\"Key\": \"\"," ++
        "\n\t\t\"Domain\": \"\"\n\t\x7d," ++
        "\n\t\"latestTFOutput\": \"\"\n\x7d") := by
  decide

set_option maxRecDepth 100000 in
/-- The text written for a string with a quote, an angle bracket, a newline
and a backspace, for the two toolchains. -/
theorem jsonQuote_sample :
    String.mk (jsonQuote false ['a', '"', '<', '\n', Char.ofNat 8]) = "\"a\\\"\\u003c\\n\\u0008\"" ∧
    String.mk (jsonQuote true ['a', '"', '<', '\n', Char.ofNat 8]) = "\"a\\\"\\u003c\\n\\b\"" := by
  refine ⟨by decide, by decide⟩

set_option maxRecDepth 100000 in
/-- The decoder on documents written by hand. Keys match in either case, a
member that names no field is passed over, `null` as an item is an empty
string, and what follows the object is not looked at. A value that does not fit
its field is an error, and the fields after it are still decoded. A comma
without a member after it, an empty text, and a number with a letter behind it
are not JSON values; `null` for the whole state is no error; and a number in
the place of the state does not fit. -/
theorem jsonDecode_samples :
    jsonDecode sampleErrors
        ("\x7b\"VERSION\": 12, \"iaas\":\"gcp\", \"unknown\": [1, \x7b\"a\": null\x7d], " ++
          "\"gcp\": \x7b\"zones\": [\"z1\", null], \"region\": \"r\"\x7d\x7d trailing")
        State.zero =
      ({ State.zero with
          Version := 12, IAAS := "gcp", GCP := ⟨"", "", "", "r", some ["z1", ""]⟩ }, none) ∧
    jsonDecode sampleErrors "\x7b\"version\": \"12\", \"iaas\":\"gcp\"\x7d" State.zero =
      ({ State.zero with IAAS := "gcp" },
        some (sampleErrors.mismatch (.string ['1', '2']) "State.version")) ∧
    jsonDecode sampleErrors "\x7b\"version\": 12,\x7d" State.zero =
      (State.zero, some (sampleErrors.invalid "\x7b\"version\": 12,\x7d")) ∧
    jsonDecode sampleErrors "" State.zero = (State.zero, some (sampleErrors.invalid "")) ∧
    jsonDecode sampleErrors "12x" State.zero = (State.zero, some (sampleErrors.invalid "12x")) ∧
    jsonDecode sampleErrors "null" State.zero = (State.zero, none) ∧
    jsonDecode sampleErrors "12 x" State.zero =
      (State.zero, some (sampleErrors.mismatch (.number ['1', '2']) "State")) := by
  refine ⟨by decide, by decide, by decide, by decide, by decide, by decide, by decide⟩

/-- C21: for every state `s` other than the zero state on which `Set`
succeeds, with `json.MarshalIndent` and the decoder of `encoding/json` as the
program has them: the state file holds what `json.MarshalIndent` returned, and
a following `GetState` on the same directory returns no error and the state
equal to `s` except that its version is 12, its identifier is the one of `s`
or the text of the generated UUID when `s` has none, and the AWS access key
id, the AWS secret access key, the GCP service account key and the GCP project
id are empty. -/
theorem Set_then_GetState (shortForms : Bool) (errs : JSONErrors)
    (uuidNewV4 : Nat → Except GoError UUID) (removeDenied : String → String → Option String)
    (dir : String) (state : State) (w w1 : World)
    (hne : state ≠ State.zero)
    (hset : Store.Set (jsonEnv shortForms errs uuidNewV4 removeDenied) (NewStore dir) state w =
      (w1, none)) :
    ∃ id jsonData,
      (state.ID ≠ "" → id = state.ID) ∧
      (state.ID = "" → ∃ u, uuidNewV4 w.uuidCalls = .ok u ∧ id = u.String) ∧
      jsonMarshalIndent shortForms
        { state with
          Version := 12
          ID := id
          AWS := { state.AWS with AccessKeyID := "", SecretAccessKey := "" }
          GCP := { state.GCP with ServiceAccountKey := "", ProjectID := "" } } "" "\t" =
        .ok jsonData ∧
      w1.fs.read (filepathJoin dir StateFileName) = some jsonData ∧
      GetState (jsonEnv shortForms errs uuidNewV4 removeDenied) dir w1 =
        (w1, { state with
          Version := 12
          ID := id
          AWS := { state.AWS with AccessKeyID := "", SecretAccessKey := "" }
          GCP := { state.GCP with ServiceAccountKey := "", ProjectID := "" } }, none) := by
  obtain ⟨hdir, id, jsonData, hid, hm, hfs⟩ :=
    Set_ok_inv (jsonEnv shortForms errs uuidNewV4 removeDenied) (NewStore dir) state w w1 hne hset
  have hdir0 : w.fs.dirs dir = true := hdir
  have hidspec : (state.ID ≠ "" → id = state.ID) ∧
      (state.ID = "" → ∃ u, uuidNewV4 w.uuidCalls = .ok u ∧ id = u.String) := by
    simp only [Store.persistedID, jsonEnv] at hid
    by_cases hID : state.ID = ""
    · simp only [hID, if_true] at hid
      cases hu : uuidNewV4 w.uuidCalls with
      | error e => simp [hu] at hid
      | ok u =>
        simp only [hu, Option.some.injEq] at hid
        exact ⟨fun h => absurd hID h, fun _ => ⟨u, rfl, hid.symm⟩⟩
    · simp only [hID, if_false, Option.some.injEq] at hid
      exact ⟨fun _ => hid.symm, fun h => absurd h hID⟩
  have hdir1 : w1.fs.dirs dir = true := by rw [hfs]; exact hdir0
  have hfile : w1.fs.files dir StateFileName = some jsonData := by
    rw [hfs]
    simp [FS.put, filepathJoin, NewStore]
  have hm2 : jsonMarshalIndent shortForms ((NewStore dir).document state id) "" "\t" =
      .ok jsonData := hm
  have hdec : (jsonEnv shortForms errs uuidNewV4 removeDenied).jsonDecode jsonData State.zero =
      ((NewStore dir).document state id, none) :=
    jsonDecode_marshalIndent shortForms errs _ State.zero jsonData rfl hm2
  refine ⟨id, jsonData, hidspec.1, hidspec.2, hm2, ?_, ?_⟩
  · simp only [FS.read, filepathJoin, hdir1, if_true]
    exact hfile
  · rw [GetState_decoded _ dir w1 jsonData _ hdir1 hfile hdec]
    have hnz : (NewStore dir).document state id ≠ State.zero := by
      intro h
      have := congrArg State.Version h
      simp [State.zero, Store.document, NewStore, STATE_VERSION] at this
    have hver : ((NewStore dir).document state id).Version = 12 := rfl
    simp only [if_neg hnz, hver, STATE_VERSION]
    simp [Store.document, NewStore, STATE_VERSION]

/-- Saving `secretsState` and loading it again. -/
theorem Set_then_GetState_witness :
    secretsState ≠ State.zero ∧
    (Store.Set (jsonEnv false sampleErrors (fun _ => .ok sampleUUID) (fun _ _ => none))
      (NewStore "env") secretsState ⟨emptyDirFS, 0⟩).2 = none ∧
    (GetState (jsonEnv false sampleErrors (fun _ => .ok sampleUUID) (fun _ _ => none)) "env"
      (Store.Set (jsonEnv false sampleErrors (fun _ => .ok sampleUUID) (fun _ _ => none))
        (NewStore "env") secretsState ⟨emptyDirFS, 0⟩).1).2 =
      ({ secretsState with
          Version := 12
          AWS := ⟨"", "", "us-east-1"⟩
          GCP := ⟨"", "", "zone-a", "region", some ["zone-a", "zone-b"]⟩ }, none) := by
  have hok : (Store.Set (jsonEnv false sampleErrors (fun _ => .ok sampleUUID) (fun _ _ => none))
      (NewStore "env") secretsState ⟨emptyDirFS, 0⟩).2 = none := by decide
  obtain ⟨id, jsonData, hkeep, _, _, _, hget⟩ :=
    Set_then_GetState false sampleErrors (fun _ => .ok sampleUUID) (fun _ _ => none) "env"
      secretsState ⟨emptyDirFS, 0⟩
      (Store.Set (jsonEnv false sampleErrors (fun _ => .ok sampleUUID) (fun _ _ => none))
        (NewStore "env") secretsState ⟨emptyDirFS, 0⟩).1
      (by decide) (Prod.ext rfl hok)
  have hid : id = "some-id" := hkeep (by decide)
  subst hid
  refine ⟨by decide, hok, ?_⟩
  rw [hget]
  rfl

/-! ## What `Set` leaves alone -/

/-- C22: for a state other than the zero state, in an existing directory and
with the UUID generator succeeding when it is needed, `Set` writes exactly one
document, in which the IaaS, the environment id, the no-director flag, the
Terraform state, the latest Terraform output, the load balancer, the jumpbox,
the director, the Azure settings, the AWS region and the GCP zone, region and
zones are as passed in, and so is the identifier when there is one; the version
is the one of the store and the AWS access key id, the AWS secret access key,
the GCP service account key and the GCP project id are empty. -/
theorem Set_frame (env : Env) (s : Store) (state : State) (w : World)
    (hdir : w.fs.dirs s.dir = true) (hne : state ≠ State.zero)
    (hgen : state.ID = "" → ∃ u, env.uuidNewV4 w.uuidCalls = .ok u) :
    ∃ doc, Store.Writes env s state w doc ∧
      (∀ doc2, Store.Writes env s state w doc2 → doc2 = doc) ∧
      doc.IAAS = state.IAAS ∧ doc.EnvID = state.EnvID ∧ doc.NoDirector = state.NoDirector ∧
      doc.TFState = state.TFState ∧ doc.LatestTFOutput = state.LatestTFOutput ∧
      doc.LB = state.LB ∧ doc.Jumpbox = state.Jumpbox ∧ doc.BOSH = state.BOSH ∧
      doc.Azure = state.Azure ∧ doc.AWS.Region = state.AWS.Region ∧
      doc.GCP.Zone = state.GCP.Zone ∧ doc.GCP.Region = state.GCP.Region ∧
      doc.GCP.Zones = state.GCP.Zones ∧
      (state.ID ≠ "" → doc.ID = state.ID) ∧
      doc.Version = s.version ∧ doc.AWS.AccessKeyID = "" ∧ doc.AWS.SecretAccessKey = "" ∧
      doc.GCP.ServiceAccountKey = "" ∧ doc.GCP.ProjectID = "" := by
  obtain ⟨id, hid, hkeep, _⟩ := persistedID_of_gen env state w hgen
  have hw := Writes_document env s state w id hdir hne hid
  exact ⟨_, hw, fun doc2 h2 => Writes_unique env s state w _ doc2 hw h2,
    rfl, rfl, rfl, rfl, rfl, rfl, rfl, rfl, rfl, rfl, rfl, rfl, rfl, hkeep, rfl, rfl, rfl, rfl, rfl⟩

/-- The Azure settings and the zones of a state are written as they are. -/
theorem Set_frame_witness :
    (sampleFS "old").dirs (NewStore "env").dir = true ∧ secretsState ≠ State.zero ∧
    (∃ doc, Store.Writes sampleEnv (NewStore "env") secretsState ⟨sampleFS "old", 0⟩ doc ∧
      doc.Azure = secretsState.Azure ∧ doc.GCP.Zones = some ["zone-a", "zone-b"] ∧
      doc.ID = "some-id") :=
  ⟨by decide, by decide,
    (Set_frame sampleEnv (NewStore "env") secretsState ⟨sampleFS "old", 0⟩ (by decide) (by decide)
      (fun h => absurd h (by decide))).imp
      (fun _ h => ⟨h.1, h.2.2.2.2.2.2.2.2.2.2.1, h.2.2.2.2.2.2.2.2.2.2.2.2.2.2.1,
        h.2.2.2.2.2.2.2.2.2.2.2.2.2.2.2.1 (by decide)⟩)⟩

/-! ## Secrets and the state file -/

/-- The document of a state depends on the state through its redacted form
only. -/
theorem document_redact (s : Store) (a b : State) (id : String) (h : a.redact = b.redact) :
    s.document a id = s.document b id := by
  have e : ∀ st : State, s.document st id = { st.redact with Version := s.version, ID := id } :=
    fun _ => rfl
  rw [e a, e b, h]

/-- C23, as the code has it: for a fixed result of the UUID generator and two
states that are equal except possibly in the AWS access key id, the AWS secret
access key, the GCP service account key and the GCP project id, and of which
either both or none is the zero state, `Set` run from the same world gives the
same result: the same error or nil and the same file system, so that the state
file is there for both or for none, with the same bytes. -/
theorem Set_secrets_independent (env : Env) (s : Store) (a b : State) (w : World)
    (hsame : a.redact = b.redact) (hz : a = State.zero ↔ b = State.zero) :
    Store.Set env s a w = Store.Set env s b w := by
  by_cases ha : a = State.zero
  · rw [ha, hz.mp ha]
  · have hb : b ≠ State.zero := fun h => ha (hz.mpr h)
    have hID : a.ID = b.ID := by
      have h := congrArg State.ID hsame
      exact h
    have hp : Store.persistedID env a w = Store.persistedID env b w := by
      simp only [Store.persistedID, hID]
    by_cases hdir : w.fs.dirs s.dir = true
    · cases hid : Store.persistedID env a w with
      | none =>
        obtain ⟨e1, hu1, _, he1⟩ := Set_nonzero_no_id env s a w hdir ha hid
        obtain ⟨e2, hu2, _, he2⟩ := Set_nonzero_no_id env s b w hdir hb (hp ▸ hid)
        have he : e2 = e1 := by
          rw [hu1] at hu2
          injection hu2 with h
          exact h.symm
        rw [he1, he2, he]
      | some id =>
        rw [Set_nonzero env s a w id hdir ha hid, Set_nonzero env s b w id hdir hb (hp ▸ hid),
          document_redact s a b id hsame, hID]
    · have hd : w.fs.dirs s.dir = false := by simpa using hdir
      rw [Set_no_dir env s a w hd, Set_no_dir env s b w hd]

/-- Two states that differ in their secrets only leave the same state file. -/
theorem Set_secrets_independent_witness :
    secretsState.redact = otherSecretsState.redact ∧ secretsState ≠ otherSecretsState ∧
    (secretsState = State.zero ↔ otherSecretsState = State.zero) ∧
    Store.Set sampleEnv (NewStore "env") secretsState ⟨sampleFS "old", 0⟩ =
      Store.Set sampleEnv (NewStore "env") otherSecretsState ⟨sampleFS "old", 0⟩ :=
  ⟨by decide, by decide, by decide,
    Set_secrets_independent sampleEnv (NewStore "env") secretsState otherSecretsState
      ⟨sampleFS "old", 0⟩ (by decide) (by decide)⟩

/-- C23, as stated, fails: the zero state and a state that holds an AWS access
key id and nothing else are equal except in a redacted field, yet from the same
world `Set` removes the state file for the first and writes one for the
second. -/
theorem Set_secrets_zero_check :
    State.zero.redact = keyOnlyState.redact ∧
    (sampleFS "old").dirs (NewStore "env").dir = true ∧
    (Store.Set sampleEnv (NewStore "env") State.zero ⟨sampleFS "old", 0⟩).2 = none ∧
    (Store.Set sampleEnv (NewStore "env") keyOnlyState ⟨sampleFS "old", 0⟩).2 = none ∧
    (Store.Set sampleEnv (NewStore "env") State.zero ⟨sampleFS "old", 0⟩).1.fs.read
      (filepathJoin "env" StateFileName) = none ∧
    (Store.Set sampleEnv (NewStore "env") keyOnlyState ⟨sampleFS "old", 0⟩).1.fs.read
      (filepathJoin "env" StateFileName) =
      some "\t12345678-9abc-def0-0123-456789abcdef 12 " := by
  refine ⟨by decide, by decide, by decide, by decide, by decide, by decide⟩

end Storage

namespace CloudconfigGcp

open Storage

/-! ## The limit on the number of zones -/

/-- A subnet is generated exactly when the parser accepts its block, and the
error of the parser is passed on as it is. -/
theorem generateNetworkSubnet_error (parse : String → Except GoError CIDRBlock)
    (az cidr networkName subnetworkName internalTag : String) (e : GoError)
    (h : parse cidr = .error e) :
    generateNetworkSubnet parse az cidr networkName subnetworkName internalTag = .error e := by
  simp [generateNetworkSubnet, h]

/-- A subnet is generated when the parser accepts its block. -/
theorem generateNetworkSubnet_isOk (parse : String → Except GoError CIDRBlock)
    (az cidr networkName subnetworkName internalTag : String)
    (h : (parse cidr).isOk = true) :
    ∃ subnet,
      generateNetworkSubnet parse az cidr networkName subnetworkName internalTag = .ok subnet := by
  cases hp : parse cidr with
  | error e => simp [hp, Except.isOk, Except.toBool] at h
  | ok block =>
    simp only [generateNetworkSubnet, hp]
    exact ⟨_, rfl⟩

/-- The second loop succeeds as long as it stays within fifteen zones. -/
theorem subnetsLoop_succeeds (parse : String → Except GoError CIDRBlock) (outs : Outputs)
    (hok : ∀ x, x ≤ 255 → (parse ("10.0." ++ toString x ++ ".0/20")).isOk = true)
    (zones : List String) (i : Nat) (acc : List networkSubnet) (h : i + zones.length ≤ 15) :
    ∃ subnets, subnetsLoop parse outs zones i acc = .ok subnets := by
  induction zones generalizing i acc with
  | nil => exact ⟨acc, rfl⟩
  | cons z rest ih =>
    simp only [List.length_cons] at h
    obtain ⟨sn, hsn⟩ := generateNetworkSubnet_isOk parse ("z" ++ toString (i + 1))
      ("10.0." ++ toString (16 * (i + 1)) ++ ".0/20") (outs.GetString "network_name")
      (outs.GetString "subnetwork_name") (outs.GetString "internal_tag_name")
      (hok (16 * (i + 1)) (by omega))
    simp only [subnetsLoop, hsn]
    exact ih (i + 1) (acc ++ [sn]) (by omega)

/-- The second loop fails at the sixteenth zone, with the error of the parser
for the block `10.0.256.0/20`. -/
theorem subnetsLoop_fails (parse : String → Except GoError CIDRBlock) (outs : Outputs)
    (hok : ∀ x, x ≤ 255 → (parse ("10.0." ++ toString x ++ ".0/20")).isOk = true)
    (cause : GoError) (hbad : parse "10.0.256.0/20" = .error cause)
    (zones : List String) (i : Nat) (acc : List networkSubnet)
    (hi : i ≤ 15) (h : 16 ≤ i + zones.length) :
    subnetsLoop parse outs zones i acc =
      .error (fmtErrorf "Generating network subnet: " cause) := by
  induction zones generalizing i acc with
  | nil =>
    simp only [List.length_nil] at h
    omega
  | cons z rest ih =>
    simp only [List.length_cons] at h
    by_cases h15 : i = 15
    · subst h15
      have hc : "10.0." ++ toString (16 * (15 + 1)) ++ ".0/20" = "10.0.256.0/20" := by decide
      simp only [subnetsLoop, hc,
        generateNetworkSubnet_error parse _ "10.0.256.0/20" _ _ _ cause hbad]
    · obtain ⟨sn, hsn⟩ := generateNetworkSubnet_isOk parse ("z" ++ toString (i + 1))
        ("10.0." ++ toString (16 * (i + 1)) ++ ".0/20") (outs.GetString "network_name")
        (outs.GetString "subnetwork_name") (outs.GetString "internal_tag_name")
        (hok (16 * (i + 1)) (by omega))
      simp only [subnetsLoop, hsn]
      exact ih (i + 1) (acc ++ [sn]) (by omega) (by omega)

/-- C24: given that the parser accepts the blocks `10.0.x.0/20` for `x` up to
255 and rejects `10.0.256.0/20`, which is what accepting exactly the `x` up to
255 says about the blocks the generator asks for, and that the outputs are
there: `generateGCPOps` returns no error for every state with at most fifteen
zones; without zones the two networks have no subnets; and for every state with
sixteen or more zones it returns no ops and the error of the parser for
`10.0.256.0/20` behind `Generating network subnet: `. -/
theorem generateGCPOps_zone_limit (parse : String → Except GoError CIDRBlock)
    (o : OpsGenerator) (state : State) (outs : Outputs)
    (hout : o.terraformManager state = .ok outs)
    (hok : ∀ x, x ≤ 255 → (parse ("10.0." ++ toString x ++ ".0/20")).isOk = true)
    (hbad : (parse "10.0.256.0/20").isOk = false) :
    ((state.GCP.Zones.getD []).length ≤ 15 →
      ∃ ops, o.generateGCPOps parse state = (ops, none)) ∧
    (state.GCP.Zones.getD [] = [] →
      ∃ ops, o.generateGCPOps parse state = (ops, none) ∧
        networkOps ops =
          [createOp "replace" "/networks/-"
              (.ofNetwork { Name := "private", Subnets := [], Type_ := "manual" }),
            createOp "replace" "/networks/-"
              (.ofNetwork { Name := "default", Subnets := [], Type_ := "manual" })]) ∧
    (16 ≤ (state.GCP.Zones.getD []).length →
      ∃ cause, parse "10.0.256.0/20" = .error cause ∧
        o.generateGCPOps parse state =
          ([], some ⟨"Generating network subnet: " ++ cause.msg, false⟩)) := by
  have hsucc : (state.GCP.Zones.getD []).length ≤ 15 →
      ∃ ops, o.generateGCPOps parse state = (ops, none) := by
    intro hlen
    obtain ⟨subnets, hs⟩ := subnetsLoop_succeeds parse outs hok (state.GCP.Zones.getD []) 0 []
      (by omega)
    simp only [OpsGenerator.generateGCPOps, hout, hs]
    exact ⟨_, rfl⟩
  refine ⟨hsucc, ?_, ?_⟩
  · intro hz
    obtain ⟨ops, hops⟩ := hsucc (by simp [hz])
    obtain ⟨outs2, subnets, hs, hnet⟩ := generateGCPOps_networkOps parse o state ops hops
    rw [hz] at hs
    simp only [subnetsLoop, Except.ok.injEq] at hs
    subst hs
    exact ⟨ops, hops, hnet⟩
  · intro hlen
    cases hp : parse "10.0.256.0/20" with
    | ok block => simp [hp, Except.isOk, Except.toBool] at hbad
    | error cause =>
      refine ⟨cause, rfl, ?_⟩
      have hs := subnetsLoop_fails parse outs hok cause hp (state.GCP.Zones.getD []) 0 []
        (by omega) (by omega)
      simp only [OpsGenerator.generateGCPOps, hout, hs]
      rfl

set_option maxRecDepth 100000 in
/-- The parser of the model accepts the blocks `10.0.x.0/20` for `x` up to
255. -/
theorem ParseCIDRBlock_accepts :
    ∀ x, x ≤ 255 → (ParseCIDRBlock ("10.0." ++ toString x ++ ".0/20")).isOk = true := by
  decide

/-- Sixteen zones, with the parser of the model. -/
theorem generateGCPOps_zone_limit_witness :
    sampleGenerator.terraformManager (manyZonesState 16) =
      .ok ⟨[("network_name", "some-network"),
        ("subnetwork_name", "some-subnet"), ("internal_tag_name", "some-tag"),
        ("concourse_target_pool", "concourse-pool"),
        ("router_backend_service", "router-backend"), ("ws_target_pool", "ws-pool")]⟩ ∧
    (ParseCIDRBlock "10.0.256.0/20").isOk = false ∧
    ((manyZonesState 16).GCP.Zones.getD []).length = 16 ∧
    (∃ cause, ParseCIDRBlock "10.0.256.0/20" = .error cause ∧
      sampleGenerator.generateGCPOps ParseCIDRBlock (manyZonesState 16) =
        ([], some ⟨"Generating network subnet: " ++ cause.msg, false⟩)) :=
  ⟨rfl, by decide, by decide,
    (generateGCPOps_zone_limit ParseCIDRBlock sampleGenerator (manyZonesState 16) _ rfl
      ParseCIDRBlock_accepts (by decide)).2.2 (by decide)⟩

/-! ## The addresses of a subnet -/

/-- The parser of the model on the blocks the generator asks for: the block of
the zone at index `k` starts at `10.0.(16*(k+1)).0` and holds 4096
addresses. -/
theorem ParseCIDRBlock_zone (k : Nat) (hk : k < 15) :
    ParseCIDRBlock ("10.0." ++ toString (16 * (k + 1)) ++ ".0/20") =
      .ok ⟨4096, ⟨(167772160 + 4096 * (k + 1) : Nat)⟩⟩ := by
  interval_cases k <;> rfl

/-- C25: for every block the parser accepts whose size is two to the power of
32 minus a prefix length of at most 25, with first address `f` and last address
`l`: the subnet `generateNetworkSubnet` returns has the gateway `f+1`, the
reserved entries `(f+2)-(f+3)` and `l` and the static range `(l-65)-(l-1)`;
these addresses all lie between `f` and `l`; the static range holds 65
addresses; and the gateway and the reserved addresses lie outside the static
range. The blocks of the generator, `10.0.(16*(k+1)).0/20` for `k` below 15,
have the prefix length 20, and those of two different zones have no address in
common. -/
theorem generateNetworkSubnet_inside (parse : String → Except GoError CIDRBlock)
    (az cidr networkName subnetworkName internalTag : String) (block : CIDRBlock)
    (prefixLength : Nat) (f l : Int)
    (h : parse cidr = .ok block) (hp : prefixLength ≤ 25)
    (hsize : block.CIDRSize = ((2 ^ (32 - prefixLength) : Nat) : Int))
    (hf : f = block.GetFirstIP.ip) (hl : l = block.GetLastIP.ip) :
    (∃ subnet,
      generateNetworkSubnet parse az cidr networkName subnetworkName internalTag = .ok subnet ∧
      subnet.Gateway = IP.String ⟨f + 1⟩ ∧
      subnet.Reserved = [IP.String ⟨f + 2⟩ ++ "-" ++ IP.String ⟨f + 3⟩, IP.String ⟨l⟩] ∧
      subnet.Static = [IP.String ⟨l - 65⟩ ++ "-" ++ IP.String ⟨l - 1⟩]) ∧
    l = f + block.CIDRSize - 1 ∧
    (f ≤ f + 1 ∧ f + 1 ≤ l) ∧
    (f ≤ f + 2 ∧ f + 3 ≤ l) ∧
    (f ≤ l - 65 ∧ l - 1 ≤ l) ∧
    (l - 1) - (l - 65) + 1 = 65 ∧
    (f + 1 < l - 65 ∧ f + 3 < l - 65 ∧ l - 1 < l) ∧
    (∀ i j, i < j → j < 15 →
      ∃ bi bj,
        ParseCIDRBlock ("10.0." ++ toString (16 * (i + 1)) ++ ".0/20") = .ok bi ∧
        ParseCIDRBlock ("10.0." ++ toString (16 * (j + 1)) ++ ".0/20") = .ok bj ∧
        bi.CIDRSize = ((2 ^ (32 - 20) : Nat) : Int) ∧ bj.CIDRSize = ((2 ^ (32 - 20) : Nat) : Int) ∧
        bi.GetLastIP.ip < bj.GetFirstIP.ip) := by
  have hl2 : l = f + block.CIDRSize - 1 := by
    rw [hl, hf]
    simp only [CIDRBlock.GetLastIP, CIDRBlock.GetFirstIP, IP.Add]
    omega
  have hpow : (2 : Nat) ^ 7 ≤ 2 ^ (32 - prefixLength) :=
    Nat.pow_le_pow_right (by decide) (by omega)
  have hbig : (128 : Int) ≤ block.CIDRSize := by
    rw [hsize]
    have : (128 : Nat) ≤ 2 ^ (32 - prefixLength) := hpow
    exact_mod_cast this
  refine ⟨?_, hl2, ⟨by omega, by omega⟩, ⟨by omega, by omega⟩, ⟨by omega, by omega⟩, by omega,
    ⟨by omega, by omega, by omega⟩, ?_⟩
  · simp only [generateNetworkSubnet, h]
    refine ⟨_, rfl, ?_, ?_, ?_⟩
    · simp only [IP.Add, hf]
    · simp only [IP.Add, hf, hl]
    · simp only [IP.Subtract, hl]
  · intro i j hij hj
    refine ⟨_, _, ParseCIDRBlock_zone i (by omega), ParseCIDRBlock_zone j hj, rfl, rfl, ?_⟩
    simp only [CIDRBlock.GetLastIP, CIDRBlock.GetFirstIP, IP.Add]
    push_cast
    omega

/-- The block of the first zone, `10.0.16.0/20`, with the parser of the
model. -/
theorem generateNetworkSubnet_inside_witness :
    ParseCIDRBlock "10.0.16.0/20" = .ok ⟨4096, ⟨167776256⟩⟩ ∧ 20 ≤ 25 ∧
    (CIDRBlock.mk 4096 ⟨167776256⟩).CIDRSize = ((2 ^ (32 - 20) : Nat) : Int) ∧
    (167776256 : Int) = (CIDRBlock.mk 4096 ⟨167776256⟩).GetFirstIP.ip ∧
    (167780351 : Int) = (CIDRBlock.mk 4096 ⟨167776256⟩).GetLastIP.ip ∧
    (∃ subnet,
      generateNetworkSubnet ParseCIDRBlock "z1" "10.0.16.0/20" "net" "subnet" "tag" = .ok subnet ∧
      subnet.Gateway = IP.String ⟨167776256 + 1⟩ ∧
      subnet.Reserved =
        [IP.String ⟨167776256 + 2⟩ ++ "-" ++ IP.String ⟨167776256 + 3⟩, IP.String ⟨167780351⟩] ∧
      subnet.Static = [IP.String ⟨167780351 - 65⟩ ++ "-" ++ IP.String ⟨167780351 - 1⟩]) ∧
    IP.String ⟨167780351 - 65⟩ = "10.0.31.190" :=
  ⟨rfl, by decide, by decide, by decide, by decide,
    (generateNetworkSubnet_inside ParseCIDRBlock "z1" "10.0.16.0/20" "net" "subnet" "tag"
      ⟨4096, ⟨167776256⟩⟩ 20 167776256 167780351 rfl (by decide) (by decide) (by decide)
      (by decide)).1,
    by decide⟩

end CloudconfigGcp

namespace Unsupported

/-! ## A state that holds a keypair -/

/-- The result of `verifyFingerprint` for a key whose fingerprint can be
computed. -/
theorem verifyFingerprint_computed (crypto : Crypto) (awsFingerprint privateKeyPem : String)
    (pemBytes pkeyBytes : String) (privateKey : RSAPrivateKey)
    (h1 : crypto.pemDecode privateKeyPem = some pemBytes)
    (h2 : crypto.ParsePKCS1PrivateKey pemBytes = .ok privateKey)
    (h3 : crypto.MarshalPKIXPublicKey privateKey.Public = .ok pkeyBytes) :
    verifyFingerprint crypto awsFingerprint privateKeyPem =
      (decide (awsFingerprint = fingerprintOf (crypto.md5Sum pkeyBytes)), none) := by
  simp only [verifyFingerprint, h1, h2, h3]
  by_cases h : awsFingerprint = fingerprintOf (crypto.md5Sum pkeyBytes)
  · simp [h]
  · simp [h]

/-- The result of `verifyFingerprint` for a key that is not PEM. -/
theorem verifyFingerprint_notPEM (crypto : Crypto) (awsFingerprint privateKeyPem : String)
    (h1 : crypto.pemDecode privateKeyPem = none) :
    verifyFingerprint crypto awsFingerprint privateKeyPem = (false, some (.other notPEMMsg)) := by
  simp only [verifyFingerprint, h1]

/-- The result of `verifyFingerprint` for a PEM block that is not an RSA
key. -/
theorem verifyFingerprint_notRSA (crypto : Crypto) (awsFingerprint privateKeyPem : String)
    (pemBytes : String) (cause : Error)
    (h1 : crypto.pemDecode privateKeyPem = some pemBytes)
    (h2 : crypto.ParsePKCS1PrivateKey pemBytes = .error cause) :
    verifyFingerprint crypto awsFingerprint privateKeyPem = (false, some (.other notRSAMsg)) := by
  simp only [verifyFingerprint, h1, h2]

/-- The result of `verifyFingerprint` for a key whose public key does not
marshal. -/
theorem verifyFingerprint_marshal (crypto : Crypto) (awsFingerprint privateKeyPem : String)
    (pemBytes : String) (privateKey : RSAPrivateKey) (cause : Error)
    (h1 : crypto.pemDecode privateKeyPem = some pemBytes)
    (h2 : crypto.ParsePKCS1PrivateKey pemBytes = .ok privateKey)
    (h3 : crypto.MarshalPKIXPublicKey privateKey.Public = .error cause) :
    verifyFingerprint crypto awsFingerprint privateKeyPem = (false, some cause) := by
  simp only [verifyFingerprint, h1, h2, h3]

/-- The run of `Execute` for a loaded state that holds a keypair, in a
session. -/
theorem Execute_keypair_eq (crypto : Crypto) (c : CreateBoshAWSKeypair) (flags : GlobalFlags)
    (s : State) (keyPair : KeyPair) (session : Session)
    (hget : c.storeGet flags.StateDir = .ok s) (hkp : s.KeyPair = some keyPair)
    (hsess : c.provider ⟨s.AWS.AccessKeyID, s.AWS.SecretAccessKey, s.AWS.Region,
      flags.EndpointOverride⟩ = .ok session) :
    c.Execute crypto flags =
      (match c.retriever session keyPair.Name with
        | .error err =>
          if err ≠ Error.KeyPairNotFound then (Trace.empty, some err)
          else
            (⟨0, [(session, ⟨keyPair.Name, "", keyPair.PublicKey⟩)], []⟩,
              c.uploader session ⟨keyPair.Name, "", keyPair.PublicKey⟩)
        | .ok keyInfo =>
          match verifyFingerprint crypto keyInfo.Fingerprint keyPair.PrivateKey with
          | (_, some err) => (Trace.empty, some err)
          | (fingerprintMatches, none) =>
            if fingerprintMatches then (Trace.empty, none)
            else (Trace.empty, some (.other mismatchMsg))) := by
  simp only [CreateBoshAWSKeypair.Execute, hget, hsess, hkp]

/-- C26, as the code has it: when the loaded state holds a keypair, `Execute`
calls neither the generator nor `store.Set`. When retrieval succeeds nothing is
uploaded; if the stored private key is PEM, parses as an RSA key and its public
key marshals, the result is nil exactly when the fingerprint of AWS equals the
one computed from that key, and the mismatch error otherwise; a stored key that
is not PEM gives the error with the message for such a key, a PEM block that
does not parse as an RSA key the error with the message for that, and a public
key that does not marshal the error of the marshalling, unchanged. When
retrieval fails with `KeyPairNotFound` a keypair with the stored name and
public key is uploaded and the result of the upload is returned; any other
error of the retrieval is returned as it is. -/
theorem Execute_with_keypair (crypto : Crypto) (c : CreateBoshAWSKeypair) (flags : GlobalFlags)
    (s : State) (keyPair : KeyPair) (session : Session)
    (hget : c.storeGet flags.StateDir = .ok s) (hkp : s.KeyPair = some keyPair)
    (hsess : c.provider ⟨s.AWS.AccessKeyID, s.AWS.SecretAccessKey, s.AWS.Region,
      flags.EndpointOverride⟩ = .ok session) :
    ((c.Execute crypto flags).1.generated = 0 ∧ (c.Execute crypto flags).1.sets = []) ∧
    (∀ keyInfo, c.retriever session keyPair.Name = .ok keyInfo →
      (c.Execute crypto flags).1.uploads = [] ∧
      (∀ pemBytes privateKey pkeyBytes,
        crypto.pemDecode keyPair.PrivateKey = some pemBytes →
        crypto.ParsePKCS1PrivateKey pemBytes = .ok privateKey →
        crypto.MarshalPKIXPublicKey privateKey.Public = .ok pkeyBytes →
        ((c.Execute crypto flags).2 = none ↔
          keyInfo.Fingerprint = fingerprintOf (crypto.md5Sum pkeyBytes)) ∧
        (keyInfo.Fingerprint ≠ fingerprintOf (crypto.md5Sum pkeyBytes) →
          (c.Execute crypto flags).2 = some (.other mismatchMsg))) ∧
      (crypto.pemDecode keyPair.PrivateKey = none →
        (c.Execute crypto flags).2 = some (.other notPEMMsg)) ∧
      (∀ pemBytes cause,
        crypto.pemDecode keyPair.PrivateKey = some pemBytes →
        crypto.ParsePKCS1PrivateKey pemBytes = .error cause →
        (c.Execute crypto flags).2 = some (.other notRSAMsg)) ∧
      (∀ pemBytes privateKey cause,
        crypto.pemDecode keyPair.PrivateKey = some pemBytes →
        crypto.ParsePKCS1PrivateKey pemBytes = .ok privateKey →
        crypto.MarshalPKIXPublicKey privateKey.Public = .error cause →
        (c.Execute crypto flags).2 = some cause)) ∧
    (c.retriever session keyPair.Name = .error Error.KeyPairNotFound →
      (c.Execute crypto flags).1.uploads = [(session, ⟨keyPair.Name, "", keyPair.PublicKey⟩)] ∧
      (c.Execute crypto flags).2 = c.uploader session ⟨keyPair.Name, "", keyPair.PublicKey⟩) ∧
    (∀ err, err ≠ Error.KeyPairNotFound → c.retriever session keyPair.Name = .error err →
      (c.Execute crypto flags).1.uploads = [] ∧ (c.Execute crypto flags).2 = some err) := by
  rw [Execute_keypair_eq crypto c flags s keyPair session hget hkp hsess]
  refine ⟨?_, ?_, ?_, ?_⟩
  · cases hr : c.retriever session keyPair.Name with
    | error err =>
      by_cases he : err = Error.KeyPairNotFound
      · simp [he]
      · simp [he, Trace.empty]
    | ok keyInfo =>
      cases hv : verifyFingerprint crypto keyInfo.Fingerprint keyPair.PrivateKey with
      | mk fingerprintMatches err =>
        cases err with
        | some e => simp [hv, Trace.empty]
        | none => cases fingerprintMatches <;> simp [hv, Trace.empty]
  · intro keyInfo hr
    simp only [hr]
    refine ⟨?_, ?_, ?_, ?_, ?_⟩
    · cases hv : verifyFingerprint crypto keyInfo.Fingerprint keyPair.PrivateKey with
      | mk fingerprintMatches err =>
        cases err with
        | some e => simp [hv, Trace.empty]
        | none => cases fingerprintMatches <;> simp [hv, Trace.empty]
    · intro pemBytes privateKey pkeyBytes h1 h2 h3
      rw [verifyFingerprint_computed crypto keyInfo.Fingerprint keyPair.PrivateKey pemBytes
        pkeyBytes privateKey h1 h2 h3]
      by_cases h : keyInfo.Fingerprint = fingerprintOf (crypto.md5Sum pkeyBytes)
      · simp [h]
      · simp [h]
    · intro h1
      rw [verifyFingerprint_notPEM crypto keyInfo.Fingerprint keyPair.PrivateKey h1]
    · intro pemBytes cause h1 h2
      rw [verifyFingerprint_notRSA crypto keyInfo.Fingerprint keyPair.PrivateKey pemBytes cause
        h1 h2]
    · intro pemBytes privateKey cause h1 h2 h3
      rw [verifyFingerprint_marshal crypto keyInfo.Fingerprint keyPair.PrivateKey pemBytes
        privateKey cause h1 h2 h3]
  · intro hr
    simp [hr]
  · intro err hne hr
    simp [hr, hne, Trace.empty]

/-- A stored key whose fingerprint is the one AWS has. -/
theorem Execute_with_keypair_witness :
    (sampleCommand (some ⟨"kp", "-ab", "pub"⟩) "2d:61:62").storeGet "dir" =
      .ok ⟨⟨"key-id", "secret", "us-east-1"⟩, some ⟨"kp", "-ab", "pub"⟩, "rest"⟩ ∧
    (sampleCommand (some ⟨"kp", "-ab", "pub"⟩) "2d:61:62").provider
      ⟨"key-id", "secret", "us-east-1", ""⟩ = .ok ⟨"us-east-1"⟩ ∧
    fingerprintOf (sampleCrypto.md5Sum "-ab") = "2d:61:62" ∧
    ((sampleCommand (some ⟨"kp", "-ab", "pub"⟩) "2d:61:62").Execute sampleCrypto
        ⟨"dir", ""⟩).1.generated = 0 ∧
    ((sampleCommand (some ⟨"kp", "-ab", "pub"⟩) "2d:61:62").Execute sampleCrypto
        ⟨"dir", ""⟩).1.sets = [] ∧
    ((sampleCommand (some ⟨"kp", "-ab", "pub"⟩) "2d:61:62").Execute sampleCrypto ⟨"dir", ""⟩).2 =
      none := by
  have h := Execute_with_keypair sampleCrypto (sampleCommand (some ⟨"kp", "-ab", "pub"⟩) "2d:61:62")
    ⟨"dir", ""⟩ ⟨⟨"key-id", "secret", "us-east-1"⟩, some ⟨"kp", "-ab", "pub"⟩, "rest"⟩
    ⟨"kp", "-ab", "pub"⟩ ⟨"us-east-1"⟩ rfl rfl rfl
  refine ⟨rfl, rfl, by decide, h.1.1, h.1.2, ?_⟩
  exact ((h.2.1 ⟨"kp", "2d:61:62"⟩ rfl).2.1 "-ab" ⟨"-ab"⟩ "-ab" rfl rfl rfl).1.mpr (by decide)

set_option maxRecDepth 100000 in
/-- C26, as stated, fails: with a stored private key that is not PEM,
retrieval succeeds and `Execute` returns the error for such a key, which is
neither nil nor the mismatch error. -/
theorem Execute_with_bad_key :
    (sampleCommand (some ⟨"kp", "garbage", "pub"⟩) "2d:61:62").storeGet "dir" =
      .ok ⟨⟨"key-id", "secret", "us-east-1"⟩, some ⟨"kp", "garbage", "pub"⟩, "rest"⟩ ∧
    (sampleCommand (some ⟨"kp", "garbage", "pub"⟩) "2d:61:62").retriever ⟨"us-east-1"⟩ "kp" =
      .ok ⟨"kp", "2d:61:62"⟩ ∧
    sampleCrypto.pemDecode "garbage" = none ∧
    ((sampleCommand (some ⟨"kp", "garbage", "pub"⟩) "2d:61:62").Execute sampleCrypto
        ⟨"dir", ""⟩).2 = some (.other notPEMMsg) ∧
    ((sampleCommand (some ⟨"kp", "garbage", "pub"⟩) "2d:61:62").Execute sampleCrypto
        ⟨"dir", ""⟩).2 ≠ none ∧
    ((sampleCommand (some ⟨"kp", "garbage", "pub"⟩) "2d:61:62").Execute sampleCrypto
        ⟨"dir", ""⟩).2 ≠ some (.other mismatchMsg) :=
  ⟨rfl, rfl, by decide, by decide, by decide, by decide⟩

/-! ## A state without a keypair -/

/-- The run of `Execute` for a loaded state without a keypair, in a session. -/
theorem Execute_no_keypair_eq (crypto : Crypto) (c : CreateBoshAWSKeypair) (flags : GlobalFlags)
    (s : State) (session : Session)
    (hget : c.storeGet flags.StateDir = .ok s) (hkp : s.KeyPair = none)
    (hsess : c.provider ⟨s.AWS.AccessKeyID, s.AWS.SecretAccessKey, s.AWS.Region,
      flags.EndpointOverride⟩ = .ok session) :
    c.Execute crypto flags =
      (match c.generator with
        | .error err => (⟨1, [], []⟩, some err)
        | .ok keypair =>
          match c.uploader session keypair with
          | some err => (⟨1, [(session, keypair)], []⟩, some err)
          | none =>
            (⟨1, [(session, keypair)],
                [(flags.StateDir,
                  { s with KeyPair := some ⟨keypair.Name, keypair.PrivateKey, keypair.PublicKey⟩ })]⟩,
              c.storeSet flags.StateDir
                { s with KeyPair := some ⟨keypair.Name, keypair.PrivateKey, keypair.PublicKey⟩ })) := by
  simp only [CreateBoshAWSKeypair.Execute, hget, hsess, hkp,
    CreateBoshAWSKeypair.generateAndUploadKeypair]
  cases hg : c.generator with
  | error err => rfl
  | ok keypair =>
    dsimp only
    cases hu : c.uploader session keypair with
    | some err => rfl
    | none =>
      dsimp only
      cases hs : c.storeSet flags.StateDir
        { s with KeyPair := some ⟨keypair.Name, keypair.PrivateKey, keypair.PublicKey⟩ } <;> rfl

/-- C27: when `store.Get` or the session fails, `Execute` returns that error
and makes no call. When the loaded state holds no keypair, `store.Set` is
called at most once, and only when the generator and the upload have both
succeeded: a failing generator or a failing upload is returned as it is and
`store.Set` is not called; when both succeed `store.Set` is called once, for
the state directory and with the loaded state in which the keypair is the
generated name, private key and public key and nothing else is changed, and its
result is returned. -/
theorem Execute_without_keypair (crypto : Crypto) (c : CreateBoshAWSKeypair)
    (flags : GlobalFlags) :
    (∀ err, c.storeGet flags.StateDir = .error err →
      c.Execute crypto flags = (Trace.empty, some err)) ∧
    (∀ s, c.storeGet flags.StateDir = .ok s →
      (∀ err,
        c.provider ⟨s.AWS.AccessKeyID, s.AWS.SecretAccessKey, s.AWS.Region,
          flags.EndpointOverride⟩ = .error err →
        c.Execute crypto flags = (Trace.empty, some err)) ∧
      (∀ session,
        c.provider ⟨s.AWS.AccessKeyID, s.AWS.SecretAccessKey, s.AWS.Region,
          flags.EndpointOverride⟩ = .ok session →
        s.KeyPair = none →
        (c.Execute crypto flags).1.sets.length ≤ 1 ∧
        ((c.Execute crypto flags).1.sets ≠ [] →
          ∃ keypair, c.generator = .ok keypair ∧ c.uploader session keypair = none) ∧
        (∀ err, c.generator = .error err →
          c.Execute crypto flags = (⟨1, [], []⟩, some err)) ∧
        (∀ keypair, c.generator = .ok keypair →
          (∀ err, c.uploader session keypair = some err →
            c.Execute crypto flags = (⟨1, [(session, keypair)], []⟩, some err)) ∧
          (c.uploader session keypair = none →
            c.Execute crypto flags =
              (⟨1, [(session, keypair)],
                  [(flags.StateDir,
                    { AWS := s.AWS
                      KeyPair := some ⟨keypair.Name, keypair.PrivateKey, keypair.PublicKey⟩
                      Other := s.Other })]⟩,
                c.storeSet flags.StateDir
                  { AWS := s.AWS
                    KeyPair := some ⟨keypair.Name, keypair.PrivateKey, keypair.PublicKey⟩
                    Other := s.Other }))))) := by
  refine ⟨?_, ?_⟩
  · intro err hget
    simp only [CreateBoshAWSKeypair.Execute, hget]
  · intro s hget
    refine ⟨?_, ?_⟩
    · intro err hsess
      simp only [CreateBoshAWSKeypair.Execute, hget, hsess]
    · intro session hsess hkp
      rw [Execute_no_keypair_eq crypto c flags s session hget hkp hsess]
      refine ⟨?_, ?_, ?_, ?_⟩
      · cases hg : c.generator with
        | error err => simp
        | ok keypair => cases hu : c.uploader session keypair <;> simp [hu]
      · cases hg : c.generator with
        | error err => simp
        | ok keypair => cases hu : c.uploader session keypair <;> simp [hu]
      · intro err hg
        simp only [hg]
      · intro keypair hg
        refine ⟨?_, ?_⟩
        · intro err hu
          simp only [hg, hu]
        · intro hu
          simp only [hg, hu]

/-- A state without a keypair: one is generated, uploaded and set. -/
theorem Execute_without_keypair_witness :
    (sampleCommand none "").storeGet "dir" = .ok ⟨⟨"key-id", "secret", "us-east-1"⟩, none, "rest"⟩ ∧
    (sampleCommand none "").provider ⟨"key-id", "secret", "us-east-1", ""⟩ = .ok ⟨"us-east-1"⟩ ∧
    (sampleCommand none "").generator = .ok ⟨"keypair-new", "-private", "public"⟩ ∧
    (sampleCommand none "").uploader ⟨"us-east-1"⟩ ⟨"keypair-new", "-private", "public"⟩ = none ∧
    (sampleCommand none "").Execute sampleCrypto ⟨"dir", ""⟩ =
      (⟨1, [(⟨"us-east-1"⟩, ⟨"keypair-new", "-private", "public"⟩)],
          [("dir", ⟨⟨"key-id", "secret", "us-east-1"⟩,
            some ⟨"keypair-new", "-private", "public"⟩, "rest"⟩)]⟩, none) :=
  ⟨rfl, rfl, rfl, rfl,
    ((((Execute_without_keypair sampleCrypto (sampleCommand none "") ⟨"dir", ""⟩).2
      ⟨⟨"key-id", "secret", "us-east-1"⟩, none, "rest"⟩ rfl).2 ⟨"us-east-1"⟩ rfl rfl).2.2.2
      ⟨"keypair-new", "-private", "public"⟩ rfl).2 rfl⟩

end Unsupported
